import Mathlib

/-!
# WebSocket transport core (`src/supplemental/websocket/websocket.c`)

A shallow embedding of the frame codec, the message assembler, the
connection engine, the two handshakes, the listener, the dialer and the URL
parser, followed by theorems about them.

Conventions of the embedding

* A byte is a `Nat` (always below 256 where it is produced by the code), a
  buffer is a `List Nat`.  `size_t` quantities (`len`, `hlen`, `fragsize`,
  `maxframe`) are `Nat`.
* A pointer that may be `NULL` is an `Option`.
* Caller handles (`nni_aio *`) are identified by a number.
* Calls that leave the connection (completing a caller handle, submitting a
  read to the HTTP byte stream, closing the stream) are appended to the
  `trace` field of the connection, in program order.
* Values the C code reads without having written them (the local `r` of
  `ws_mask_frame`, the local `wm` of `ws_send_close`) and results of calls
  into other subsystems (`nni_aio_start`, `nni_aio_result`) are explicit
  arguments.
* `NNI_ALLOC_STRUCT`, `nni_alloc`, `nni_msg_alloc` and `nni_msg_insert` are
  taken to succeed; the `NNG_ENOMEM` branches are not part of the model.
* The back pointers `frame->wmsg`, `wm->ws` and the list nodes are not
  represented; `frame->sdata` is represented through `buf` (a short frame's
  `buf` is its `sdata`).
* The connection lock `ws->mtx` is not represented: every function is one
  atomic step on the connection.  The one exception is `ws_send_control`, which
  takes the lock while its caller holds it: `ws_send_control_mtx` and
  `ws_read_frame_cb_mtx` say whether the call returns.
* Loop counters do not overflow: the `int` counter of the XOR loops of
  `ws_mask_frame` and `ws_unmask_frame` is a `Nat`.  Where the width of
  `size_t` matters (the 64-bit extended length), the theorems state the bound.
* `nni_sha1_*` and `nni_base64_*` (not under `src/`) are the standard SHA-1 and
  Base64, over byte lists.
* A C string is the list of its characters without the terminating NUL;
  reading the character at the end of the list gives 0.
* An HTTP request or response (`supplemental/http`, not under `src/`) is
  represented by what the handshake reads from it and sets on it.
* A listener and a dialer are states of their own; the calls they make
  (completing a caller, starting or cancelling a connect, finalising a
  connection) are listed in program order, those of a dialer in its `trace`.
  The lists of caller handles hold the handles' numbers, the lists of
  connections hold the connections themselves.
-/

set_option autoImplicit false
set_option maxRecDepth 100000

/-! ## Constants -/

/-- The `mode` of a connection: `NNI_EP_MODE_DIAL` or `NNI_EP_MODE_LISTEN`. -/
inductive ws_mode where
  | NNI_EP_MODE_DIAL
  | NNI_EP_MODE_LISTEN
  deriving DecidableEq, Repr

open ws_mode

def WS_CONT : Nat := 0x0
def WS_TEXT : Nat := 0x1
def WS_BINARY : Nat := 0x2
def WS_CLOSE : Nat := 0x8
def WS_PING : Nat := 0x9
def WS_PONG : Nat := 0xA

def WS_CLOSE_NORMAL_CLOSE : Nat := 1000
def WS_CLOSE_GOING_AWAY : Nat := 1001
def WS_CLOSE_PROTOCOL_ERR : Nat := 1002
def WS_CLOSE_UNSUPP_FORMAT : Nat := 1003
def WS_CLOSE_INVALID_DATA : Nat := 1007
def WS_CLOSE_POLICY : Nat := 1008
def WS_CLOSE_TOO_BIG : Nat := 1009
def WS_CLOSE_NO_EXTENSION : Nat := 1010
def WS_CLOSE_INTERNAL : Nat := 1011

/-- Modelled from the spec: the error kind `NOMEM` (`NNG_ENOMEM` of `nng.h`,
which is not under `src/`). -/
def NNG_ENOMEM : Nat := 2
/-- Modelled from the spec: the error kind `INVALID` (`NNG_EINVAL` of `nng.h`,
which is not under `src/`). -/
def NNG_EINVAL : Nat := 3
/-- Modelled from the spec: the error kind `CLOSED` (`NNG_ECLOSED` of `nng.h`,
which is not under `src/`). -/
def NNG_ECLOSED : Nat := 7

/-! ## Byte-order macros -/

/-- Modelled from the spec: `NNI_PUT16(ptr, u)` (a macro of `core/defs.h`, which
is not under `src/`) stores the low 16 bits of `u` in network order
(big-endian); the result is the two bytes stored. -/
def NNI_PUT16 (u : Nat) : List Nat :=
  [u / 2 ^ 8 % 256, u % 256]

/-- Modelled from the spec: `NNI_PUT32(ptr, u)` stores the low 32 bits of `u`
in network order; the result is the four bytes stored. -/
def NNI_PUT32 (u : Nat) : List Nat :=
  [u / 2 ^ 24 % 256, u / 2 ^ 16 % 256, u / 2 ^ 8 % 256, u % 256]

/-- Modelled from the spec: `NNI_PUT64(ptr, u)` stores the low 64 bits of `u`
in network order; the result is the eight bytes stored. -/
def NNI_PUT64 (u : Nat) : List Nat :=
  [u / 2 ^ 56 % 256, u / 2 ^ 48 % 256, u / 2 ^ 40 % 256, u / 2 ^ 32 % 256,
   u / 2 ^ 24 % 256, u / 2 ^ 16 % 256, u / 2 ^ 8 % 256, u % 256]

/-- Modelled from the spec: `NNI_GET16(ptr, v)` reads two bytes in network
order. -/
def NNI_GET16 (p : List Nat) : Nat :=
  p.getD 0 0 * 2 ^ 8 + p.getD 1 0

/-- Modelled from the spec: `NNI_GET64(ptr, v)` reads eight bytes in network
order. -/
def NNI_GET64 (p : List Nat) : Nat :=
  p.getD 0 0 * 2 ^ 56 + p.getD 1 0 * 2 ^ 48 + p.getD 2 0 * 2 ^ 40 + p.getD 3 0 * 2 ^ 32 +
  p.getD 4 0 * 2 ^ 24 + p.getD 5 0 * 2 ^ 16 + p.getD 6 0 * 2 ^ 8 + p.getD 7 0

/-- The C `memcpy(dst + off, src, n)` on a buffer `dst`, with `src` holding the
`n` bytes copied. -/
def memcpy (dst : List Nat) (off : Nat) : List Nat → List Nat
  | [] => dst
  | b :: bs => memcpy (dst.set off b) (off + 1) bs

/-! ## Data model -/

/-- The `struct ws_frame`. -/
structure ws_frame where
  /-- `uint8_t head[14]`: maximum header size. -/
  head : List Nat
  /-- `uint8_t mask[4]`: read by server, sent by client. -/
  mask : List Nat
  /-- Header length. -/
  hlen : Nat
  /-- Payload length. -/
  len : Nat
  op : Nat
  final : Bool
  masked : Bool
  /-- Allocated size. -/
  bufsz : Nat
  /-- The payload buffer, `none` for `NULL`. -/
  buf : Option (List Nat)
  deriving DecidableEq, Repr

/-- The frame returned by `NNI_ALLOC_STRUCT(frame)`: every field zero. -/
def ws_frame_zalloc : ws_frame :=
  { head := List.replicate 14 0, mask := List.replicate 4 0, hlen := 0, len := 0,
    op := 0, final := false, masked := false, bufsz := 0, buf := none }

/-- An `nni_msg`: a header block and a body. -/
structure nni_msg where
  header : List Nat
  body : List Nat
  deriving DecidableEq, Repr

/-- The `struct ws_msg`. -/
structure ws_msg where
  frames : List ws_frame
  msg : Option nni_msg
  aio : Option Nat
  deriving DecidableEq, Repr

/-- The payload carried by a frame: the first `len` bytes of `buf`. -/
def ws_frame.payload (f : ws_frame) : List Nat :=
  (f.buf.getD []).take f.len

/-- The bytes `ws_start_write` submits for a frame: `hlen` bytes of header
followed by `len` bytes of `buf`. -/
def ws_frame.wire (f : ws_frame) : List Nat :=
  f.head.take f.hlen ++ f.payload

/-! ## Masking -/

/-- The loop `for (i = 0; i < len; i++) buf[i] ^= mask[i % 4];` of
`ws_mask_frame` and `ws_unmask_frame`, run from index `i` over the buffer
positions `i, i+1, ...`. -/
def ws_xor_loop (mask : List Nat) (len : Nat) : Nat → List Nat → List Nat
  | _, [] => []
  | i, b :: bs =>
    (if i < len then b ^^^ mask.getD (i % 4) 0 else b) :: ws_xor_loop mask len (i + 1) bs

/-- The C function `ws_mask_frame`.  `r` is the value of the local `uint32_t r`,
which the function reads without initialising it. -/
def ws_mask_frame (r : Nat) (frame : ws_frame) : ws_frame :=
  -- frames sent by client need mask.
  if frame.masked then frame
  else
    let mask := NNI_PUT32 r
    let buf := frame.buf.map (ws_xor_loop mask frame.len 0)
    let head := memcpy frame.head frame.hlen mask
    let hlen := frame.hlen + 4
    let head := head.set 1 (head.getD 1 0 ||| 0x80) -- set masked bit
    { frame with mask := mask, buf := buf, head := head, hlen := hlen, masked := true }

/-- The C function `ws_unmask_frame`. -/
def ws_unmask_frame (frame : ws_frame) : ws_frame :=
  -- frames sent by client need mask.
  if !frame.masked then frame
  else
    let buf := frame.buf.map (ws_xor_loop frame.mask frame.len 0)
    let hlen := frame.hlen - 4
    let head := frame.head.set 1 (frame.head.getD 1 0 &&& 0x7f) -- clear masked bit
    { frame with buf := buf, head := head, hlen := hlen, masked := false }

/-- The destination `a_iov[0].iov_buf` of a read submitted on `ws->rxaio`:
`frame->buf`, or `frame->head + off`. -/
inductive ws_iov_buf where
  | frame_buf
  | frame_head (off : Nat)
  deriving DecidableEq, Repr

/-- The calls by which the connection acts on its callers and on the HTTP byte
stream. -/
inductive ws_event where
  /-- The call `nni_aio_finish_error(aio, rv)` on a caller handle. -/
  | nni_aio_finish_error (aio : Nat) (rv : Nat)
  /-- The call `nni_aio_finish_msg(aio, msg)` on the handle of a receive message. -/
  | nni_aio_finish_msg (aio : Option Nat) (msg : nni_msg)
  /-- The call `nni_aio_finish_error(ws->closeaio, rv)`. -/
  | closeaio_finish_error (rv : Nat)
  /-- The call `nni_http_read_full(ws->http, ws->rxaio)` with the given `a_iov[0]`. -/
  | nni_http_read_full (iov_buf : ws_iov_buf) (iov_len : Nat)
  /-- The call `nni_http_write_full(ws->http, ws->txaio)` with the given
  `a_niov` and the bytes of `a_iov[0]` and `a_iov[1]`. -/
  | nni_http_write_full (niov : Nat) (iov0 iov1 : List Nat)
  /-- The call `nni_aio_finish(aio, rv, count)` on a caller handle. -/
  | nni_aio_finish (aio : Nat) (rv : Nat) (count : Nat)
  /-- The call `nni_http_close(ws->http)`. -/
  | nni_http_close
  /-- The call `nni_aio_cancel(ws->txaio, rv)`. -/
  | txaio_cancel (rv : Nat)
  /-- The call `nni_aio_cancel(ws->rxaio, rv)`. -/
  | rxaio_cancel (rv : Nat)
  /-- The call `ws_close(ws, code)`, recorded with its code when the function
  is entered. -/
  | ws_close (code : Nat)
  deriving DecidableEq, Repr

/-- The connection, `struct nni_ws`. -/
structure nni_ws where
  /-- `NNI_EP_MODE_DIAL` or `NNI_EP_MODE_LISTEN`. -/
  mode : ws_mode
  closed : Bool
  ready : Bool
  txmsgs : List ws_msg
  rxmsgs : List ws_msg
  txframe : Option ws_frame
  rxframe : Option ws_frame
  /-- The read submitted on `ws->rxaio` that has not completed yet, as
  `(a_iov[0].iov_buf, a_iov[0].iov_len)`. -/
  rxaio : Option (ws_iov_buf × Nat)
  maxframe : Nat
  fragsize : Nat
  /-- The calls made so far, oldest first. -/
  trace : List ws_event
  deriving DecidableEq, Repr

/-! ## Transmit side of the message assembler -/

/-- One pass through the body of the `do ... while (len)` loop of
`ws_msg_init_tx`: the frame built from the loop variables `len`, `buf`, `op`.
`r` is the uninitialised local of `ws_mask_frame` for this frame. -/
def ws_msg_init_tx_frame (mode : ws_mode) (maxfrag : Nat) (r : Nat)
    (len : Nat) (buf : List Nat) (op : Nat) : ws_frame :=
  let frame := ws_frame_zalloc
  let flen := if len > maxfrag then maxfrag else len
  let frame := { frame with len := flen, buf := some (buf.take flen), op := op }
  let len := len - frame.len
  let frame := if len = 0 then { frame with final := true } else frame
  let frame := { frame with head := frame.head.set 0 frame.op, hlen := 2 }
  let frame :=
    if frame.final then
      { frame with head := frame.head.set 0 (frame.head.getD 0 0 ||| 0x80) } -- final frame bit
    else frame
  let frame :=
    if frame.len < 126 then
      { frame with head := frame.head.set 1 (frame.len &&& 0x7f) }
    else if frame.len < 65536 then
      { frame with
          head := memcpy (frame.head.set 1 126) 2 (NNI_PUT16 (frame.len &&& 0xffff)),
          hlen := frame.hlen + 2 }
    else
      { frame with
          head := memcpy (frame.head.set 1 127) 2 (NNI_PUT64 frame.len),
          hlen := frame.hlen + 8 }
  if mode = NNI_EP_MODE_DIAL then ws_mask_frame r frame
  else { frame with masked := false }

/-- The `do ... while (len)` loop of `ws_msg_init_tx`, with the loop variables
`len`, `buf`, `op` and the number `k` of frames built so far.  Each pass
appends one frame.  The first argument bounds the number of passes; `none`
means the bound was reached with `len` still nonzero. -/
def ws_msg_init_tx_loop (mode : ws_mode) (maxfrag : Nat) (r : Nat → Nat) :
    Nat → Nat → List Nat → Nat → Nat → Option (List ws_frame)
  | 0, _, _, _, _ => none
  | fuel + 1, len, buf, op, k =>
    let frame := ws_msg_init_tx_frame mode maxfrag (r k) len buf op
    let buf := buf.drop frame.len
    let len := len - frame.len
    let op := WS_CONT
    if len ≠ 0 then
      (ws_msg_init_tx_loop mode maxfrag r fuel len buf op (k + 1)).map (frame :: ·)
    else some [frame]

/-- The body of the message once `ws_msg_init_tx` has moved a header block to
its front (`nni_msg_insert` followed by `nni_msg_header_clear`). -/
def ws_msg_init_tx_msg (msg : nni_msg) : nni_msg :=
  if msg.header.length ≠ 0 then { header := [], body := msg.header ++ msg.body }
  else msg

/-- The C function `ws_msg_init_tx`.  `r k` is the value of the uninitialised
local of `ws_mask_frame` when frame `k` is masked.  The result is the message
stored through `wmp` when the function returns 0; `none` stands for a loop
that does not come to an end (which happens for `fragsize = 0` and a non-empty
body, where `len` never decreases).  A pass either ends the loop or lowers
`len`, so `len + 1` passes are enough whenever the loop ends. -/
def ws_msg_init_tx (ws : nni_ws) (r : Nat → Nat) (msg : nni_msg) (aio : Option Nat) :
    Option ws_msg :=
  let maxfrag := ws.fragsize
  let msg := ws_msg_init_tx_msg msg
  let len := msg.body.length
  let buf := msg.body
  let op := WS_BINARY
  (ws_msg_init_tx_loop ws.mode maxfrag r (len + 1) len buf op 0).map
    fun frames => { frames := frames, msg := some msg, aio := aio }


/-! ## Control messages, close and the transmit slot -/

/-- The message `ws_msg_init_control` builds in its local `wm`.  The
`memcpy(frame->sdata, buf, len)` of the source runs before `frame` is
allocated, so the `sdata` of the frame allocated afterwards still holds the
zero bytes of `NNI_ALLOC_STRUCT`; `frame->buf` is that `sdata`.  `r` is the
uninitialised local of `ws_mask_frame`. -/
def ws_msg_init_control_wm (r : Nat) (ws : nni_ws) (op : Nat) (len : Nat) : ws_msg :=
  let frame := ws_frame_zalloc
  let frame :=
    { frame with
        len := len, op := op,
        head := (frame.head.set 0 (op ||| 0x80)).set 1 (len &&& 0x7F), -- final frame (control)
        hlen := 2, buf := some (List.replicate 125 0), bufsz := 0 }
  let frame :=
    if ws.mode = NNI_EP_MODE_DIAL then ws_mask_frame r frame
    else { frame with masked := false }
  { frames := [frame], msg := none, aio := none }

/-- The C function `ws_msg_init_control`, as seen by its caller: the return
value and the content of `*wmp` afterwards.  The source never assigns `*wmp`
(the message of `ws_msg_init_control_wm` stays in the local `wm`), so `*wmp`
keeps the value `wmp` it had before the call. -/
def ws_msg_init_control (wmp : ws_msg) (len : Nat) : Nat × ws_msg :=
  if len > 125 then (NNG_EINVAL, wmp)
  else (0, wmp)

/-- The C function `ws_start_write`. -/
def ws_start_write (ws : nni_ws) : nni_ws :=
  if ws.txframe.isSome || !ws.ready then ws -- busy
  else
    match ws.txmsgs with
    | [] => ws -- Nothing to send.
    | wm :: _ =>
      match wm.frames with
      | [] => ws -- excluded by NNI_ASSERT(frame != NULL)
      | frame :: _ =>
        -- Push it out.
        { ws with
            txframe := some frame,
            trace := ws.trace ++
              [ws_event.nni_http_write_full (if frame.len > 0 then 2 else 1)
                (frame.head.take frame.hlen) frame.payload] }

/-- What `ws_close` and `ws_send_control` take from outside the connection:
`start` is the value returned by `nni_aio_start(ws->closeaio, NULL, NULL)`,
`wm` is the content of the local `ws_msg *wm` of `ws_send_close` and
`ws_send_control`, which `ws_msg_init_control` leaves unassigned. -/
structure ws_env where
  start : Nat
  wm : ws_msg
  deriving DecidableEq, Repr

/-- The C function `ws_send_close`. -/
def ws_send_close (e : ws_env) (ws : nni_ws) (code : Nat) : nni_ws :=
  let _buf := NNI_PUT16 code
  if ws.closed then ws
  else
    let ws := { ws with closed := true }
    -- We don't care about cancellation here.
    if e.start = 0 then ws
    else
      let (rv, wm) := ws_msg_init_control e.wm 2
      if rv ≠ 0 then
        { ws with trace := ws.trace ++ [ws_event.closeaio_finish_error rv] }
      else
        -- Close frames get priority!
        ws_start_write { ws with txmsgs := wm :: ws.txmsgs }

/-- The loop `while ((wm = nni_list_first(list)) != NULL)` of `ws_close`: every
message is removed and, if it has a caller handle, that handle is completed
with `NNG_ECLOSED`.  The result is the list of these completions. -/
def ws_close_msgs : List ws_msg → List ws_event
  | [] => []
  | wm :: rest =>
    (match wm.aio with
      | some aio => [ws_event.nni_aio_finish_error aio NNG_ECLOSED]
      | none => []) ++ ws_close_msgs rest

/-- The C function `ws_close`.  The call is recorded with its code as the first
entry it adds to the trace. -/
def ws_close (e : ws_env) (ws : nni_ws) (code : Nat) : nni_ws :=
  let ws := { ws with trace := ws.trace ++ [ws_event.ws_close code] }
  -- Receive stuff gets aborted always.
  let ws := { ws with trace := ws.trace ++ ws_close_msgs ws.rxmsgs, rxmsgs := [] }
  -- If were closing "gracefully", then don't abort in-flight stuff yet.
  if !ws.closed then ws_send_close e ws code
  else { ws with trace := ws.trace ++ ws_close_msgs ws.txmsgs, txmsgs := [] }

/-- The C function `ws_send_control`.  The length handed to
`ws_msg_init_control` is `sizeof(buf)`, the size of a pointer, taken as 8. -/
def ws_send_control (e : ws_env) (ws : nni_ws) (_op : Nat) (_buf : Option (List Nat))
    (_len : Nat) : nni_ws :=
  if ws.closed then ws
  else
    let (rv, wm) := ws_msg_init_control e.wm 8
    if rv ≠ 0 then ws
    else
      -- Control frames at head of list.
      ws_start_write { ws with txmsgs := wm :: ws.txmsgs }

/-! ## Receive side -/

/-- The C function `ws_msg_init_rx`. -/
def ws_msg_init_rx (aio : Option Nat) : ws_msg :=
  { frames := [], msg := none, aio := aio }

/-- The C function `ws_start_read`. -/
def ws_start_read (ws : nni_ws) : nni_ws :=
  if ws.rxframe.isSome || ws.closed then ws -- already reading or closed
  else
    match ws.rxmsgs with
    | [] => ws -- no body expecting a message.
    | _ :: _ =>
      let frame := { ws_frame_zalloc with hlen := 0, len := 0 }
      -- We want the first two bytes.
      { ws with
          rxframe := some frame,
          rxaio := some (ws_iov_buf.frame_buf, 2),
          trace := ws.trace ++ [ws_event.nni_http_read_full ws_iov_buf.frame_buf 2] }

/-- The C function `nni_ws_recv_msg`. -/
def nni_ws_recv_msg (ws : nni_ws) (aio : Nat) : nni_ws :=
  let wm := ws_msg_init_rx (some aio)
  ws_start_read { ws with rxmsgs := ws.rxmsgs ++ [wm] }

/-- The second `NNI_LIST_FOREACH` of `ws_read_frame_cb`: each frame's `len`
bytes are copied to `body`, which then advances by `len`.  `off` is the
distance of `body` from the start of the message body `dst`. -/
def ws_read_frame_copy (dst : List Nat) (off : Nat) : List ws_frame → List Nat
  | [] => dst
  | frame :: rest => ws_read_frame_copy (memcpy dst off frame.payload) (off + frame.len) rest

/-- The end of `ws_read_frame_cb`, reached from the cases that `break`: if the
last frame of the head receive message is final, the message is completed. -/
def ws_read_frame_done (ws : nni_ws) : nni_ws :=
  match ws.rxmsgs with
  | [] => ws -- `wm` is NULL; ws_start_read submits no read in that state
  | wm :: rest =>
    match wm.frames.getLast? with
    | none => ws
    | some last =>
      if last.final then
        let len := (wm.frames.map ws_frame.len).sum
        let msg : nni_msg :=
          { header := [], body := ws_read_frame_copy (List.replicate len 0) 0 wm.frames }
        { ws with
            rxmsgs := rest,
            trace := ws.trace ++ [ws_event.nni_aio_finish_msg wm.aio msg] }
      else ws

/-- The C function `ws_read_frame_cb`. -/
def ws_read_frame_cb (e : ws_env) (ws : nni_ws) (frame : ws_frame) : nni_ws :=
  if frame.op = WS_CONT then
    match ws.rxmsgs with
    | [] => ws_close e ws WS_CLOSE_GOING_AWAY
    | wm :: rest =>
      if wm.frames.isEmpty then ws_close e ws WS_CLOSE_PROTOCOL_ERR
      else
        ws_read_frame_done
          { ws with rxframe := none, rxmsgs := { wm with frames := wm.frames ++ [frame] } :: rest }
  else if frame.op = WS_BINARY then
    match ws.rxmsgs with
    | [] => ws_close e ws WS_CLOSE_GOING_AWAY
    | wm :: rest =>
      if !wm.frames.isEmpty then ws_close e ws WS_CLOSE_PROTOCOL_ERR
      else
        ws_read_frame_done
          { ws with rxframe := none, rxmsgs := { wm with frames := wm.frames ++ [frame] } :: rest }
  else if frame.op = WS_TEXT then
    -- No support for text mode at present.
    ws_close e ws WS_CLOSE_UNSUPP_FORMAT
  else if frame.op = WS_PING then
    if frame.len > 125 then ws_close e ws WS_CLOSE_PROTOCOL_ERR
    else
      let ws := ws_send_control e ws WS_PONG frame.buf frame.len
      ws_read_frame_done { ws with rxframe := none }
  else if frame.op = WS_PONG then
    if frame.len > 125 then ws_close e ws WS_CLOSE_PROTOCOL_ERR
    else ws_read_frame_done { ws with rxframe := none }
  else if frame.op = WS_CLOSE then
    -- no need to send close reply
    ws_close e { ws with closed := true } 0
  else ws_close e ws WS_CLOSE_PROTOCOL_ERR

/-- Modelled from the spec: `nni_mtx_lock` on the single lock of a connection,
which serializes the functions that take it.  `held` says whether the calling
thread holds the lock already; such a thread does not get the lock a second
time, and the call does not return (`none`). -/
def nni_mtx_lock (held : Bool) : Option Bool :=
  if held then none else some true

/-- The C function `ws_send_control` with the lock it takes as its first step;
`held` says whether its caller holds `ws->mtx`.  On every path that goes on the
lock is released again before the function returns. -/
def ws_send_control_mtx (held : Bool) (e : ws_env) (ws : nni_ws) (op : Nat)
    (buf : Option (List Nat)) (len : Nat) : Option nni_ws :=
  match nni_mtx_lock held with
  | none => none
  | some _ => some (ws_send_control e ws op buf len)

/-- The C function `ws_read_frame_cb` with the lock of the call it makes in the
`WS_PING` case; `held` says whether the caller holds `ws->mtx`.  Its only
caller, `ws_read_cb`, calls it between `nni_mtx_lock(&ws->mtx)` and
`nni_mtx_unlock(&ws->mtx)`, that is with `held = true`.  The result `none`
says that the call does not return. -/
def ws_read_frame_cb_mtx (held : Bool) (e : ws_env) (ws : nni_ws) (frame : ws_frame) :
    Option nni_ws :=
  if frame.op = WS_PING then
    if frame.len > 125 then some (ws_close e ws WS_CLOSE_PROTOCOL_ERR)
    else
      match ws_send_control_mtx held e ws WS_PONG frame.buf frame.len with
      | none => none
      | some ws => some (ws_read_frame_done { ws with rxframe := none })
  else some (ws_read_frame_cb e ws frame)

/-- The header parse of `ws_read_cb`, run when `frame->hlen == 0`: the fields
taken from the first two header bytes and the header length they imply. -/
def ws_read_cb_parse (frame : ws_frame) : ws_frame :=
  let frame :=
    { frame with
        hlen := 2,
        op := frame.head.getD 0 0 &&& 0x7f,
        final := decide (frame.head.getD 0 0 &&& 0x80 ≠ 0),
        masked := decide (frame.head.getD 1 0 &&& 0x80 ≠ 0) }
  let frame := if frame.masked then { frame with hlen := frame.hlen + 4 } else frame
  if frame.head.getD 1 0 &&& 0x7F = 127 then { frame with hlen := frame.hlen + 8 }
  else if frame.head.getD 1 0 &&& 0x7F = 126 then { frame with hlen := frame.hlen + 2 }
  else frame

/-- The end of `ws_read_cb`: "At this point, we have a complete frame." -/
def ws_read_cb_complete (e : ws_env) (ws : nni_ws) (frame : ws_frame) : nni_ws :=
  let frame := ws_unmask_frame frame -- idempotent
  let ws := { ws with rxframe := some frame }
  let ws := ws_read_frame_cb e ws frame
  ws_start_read ws

/-- The part of `ws_read_cb` headed "If we expected data, then ask for it."
The bytes of the buffer a frame gets here (`frame->sdata`, or the result of
`nni_alloc`) count as zero until the read into it completes. -/
def ws_read_cb_data (e : ws_env) (ws : nni_ws) (frame : ws_frame) : nni_ws :=
  if frame.len ≠ 0 then
    -- Short frames can avoid an alloc
    let frame :=
      if frame.len < 126 then { frame with buf := some (List.replicate 125 0), bufsz := 0 }
      else { frame with buf := some (List.replicate frame.len 0), bufsz := frame.len }
    { ws with
        rxframe := some frame,
        rxaio := some (ws_iov_buf.frame_buf, frame.len),
        trace := ws.trace ++ [ws_event.nni_http_read_full ws_iov_buf.frame_buf frame.len] }
  else ws_read_cb_complete e ws frame

/-- The part of `ws_read_cb` headed "Check for masking." -/
def ws_read_cb_mask (e : ws_env) (ws : nni_ws) (frame : ws_frame) : nni_ws :=
  if frame.masked then
    let frame :=
      { frame with mask := memcpy frame.mask 0 ((frame.head.drop (frame.hlen - 4)).take 4) }
    let ws := { ws with rxframe := some frame }
    if ws.mode = NNI_EP_MODE_DIAL then ws_close e ws WS_CLOSE_PROTOCOL_ERR
    else ws_read_cb_data e ws frame
  else if ws.mode = NNI_EP_MODE_LISTEN then ws_close e ws WS_CLOSE_PROTOCOL_ERR
  else ws_read_cb_data e ws frame

/-- The part of `ws_read_cb` that follows the `switch` on the length code: the
size check against `maxframe`, then the check for masking. -/
def ws_read_cb_checks (e : ws_env) (ws : nni_ws) (frame : ws_frame) : nni_ws :=
  let ws := { ws with rxframe := some frame }
  if frame.len > ws.maxframe then ws_close e ws WS_CLOSE_TOO_BIG
  else ws_read_cb_mask e ws frame

/-- The block `if (frame->buf == NULL) { ... }` of `ws_read_cb` up to the end of
its `switch`: "Determine expected frame size." -/
def ws_read_cb_size (e : ws_env) (ws : nni_ws) (frame : ws_frame) : nni_ws :=
  let frame := { frame with len := frame.head.getD 1 0 &&& 0x7F }
  if frame.len = 127 then
    let frame := { frame with len := NNI_GET64 (frame.head.drop 2) }
    if frame.len < 65536 then
      ws_close e { ws with rxframe := some frame } WS_CLOSE_PROTOCOL_ERR
    else ws_read_cb_checks e ws frame
  else if frame.len = 126 then
    let frame := { frame with len := NNI_GET16 (frame.head.drop 2) }
    if frame.len < 126 then
      ws_close e { ws with rxframe := some frame } WS_CLOSE_PROTOCOL_ERR
    else ws_read_cb_checks e ws frame
  else ws_read_cb_checks e ws frame

/-- The C function `ws_read_cb`, the completion callback of `ws->rxaio`.  `rv`
is the value of `nni_aio_result(aio)`. -/
def ws_read_cb (e : ws_env) (rv : Nat) (ws : nni_ws) : nni_ws :=
  match ws.rxframe with
  | none => ws -- canceled during close
  | some frame =>
    if rv ≠ 0 then
      -- do not send a close frame
      ws_close e { ws with closed := true } 0
    else
      if frame.hlen = 0 then
        let frame := ws_read_cb_parse frame
        let ws := { ws with rxframe := some frame }
        -- If we didn't read the full header yet, then read the rest of it.
        if frame.hlen ≠ 2 then
          { ws with
              rxaio := some (ws_iov_buf.frame_head 2, frame.hlen - 2),
              trace := ws.trace ++
                [ws_event.nni_http_read_full (ws_iov_buf.frame_head 2) (frame.hlen - 2)] }
        else if frame.buf = none then ws_read_cb_size e ws frame
        else ws_read_cb_complete e ws frame
      else if frame.buf = none then ws_read_cb_size e ws frame
      else ws_read_cb_complete e ws frame

/-! ## The HTTP byte stream seen from the receive path -/

/-- Completion of the read pending on `ws->rxaio`: the first `iov_len` bytes of
`data` are stored at the destination and `ws_read_cb` runs with result 0.
For the first two bytes of a frame `ws_start_read` names `frame->buf` as the
destination while that pointer is still `NULL`: these bytes do not reach the
frame, and `frame->head`, where `ws_read_cb` looks for them, keeps the zero
bytes of `NNI_ALLOC_STRUCT`. -/
def ws_http_read_done (e : ws_env) (ws : nni_ws) (data : List Nat) : nni_ws :=
  match ws.rxframe, ws.rxaio with
  | some frame, some (iov_buf, iov_len) =>
    let bytes := data.take iov_len
    let frame :=
      match iov_buf with
      | ws_iov_buf.frame_head off => { frame with head := memcpy frame.head off bytes }
      | ws_iov_buf.frame_buf =>
        match frame.buf with
        | some b => { frame with buf := some (memcpy b 0 bytes) }
        | none => frame
    ws_read_cb e 0 { ws with rxframe := some frame, rxaio := none }
  | _, _ => ws

/-- The receive path up to the end of a frame header: the read of the first two
bytes completes, then the read of the rest of the header if `ws_read_cb` asked
for one.  `wire` holds the bytes arriving on the stream. -/
def ws_rx_header (e : ws_env) (ws : nni_ws) (wire : List Nat) : nni_ws :=
  let ws := ws_http_read_done e ws wire
  match ws.rxaio with
  | some (ws_iov_buf.frame_head _, _) => ws_http_read_done e ws (wire.drop 2)
  | _ => ws

/-- The receive path for one frame: the header as in `ws_rx_header`, then the
read of the payload if `ws_read_cb` asked for one.  `wire` holds the bytes of
the frame as they arrive on the stream. -/
def ws_rx_frame (e : ws_env) (ws : nni_ws) (wire : List Nat) : nni_ws :=
  let ws := ws_rx_header e ws wire
  match ws.rxaio, ws.rxframe with
  | some (ws_iov_buf.frame_buf, _), some frame =>
    if frame.buf.isSome then ws_http_read_done e ws (wire.drop frame.hlen) else ws
  | _, _ => ws

/-- The receive path for a sequence of frames arriving in order. -/
def ws_rx_frames (e : ws_env) (ws : nni_ws) (frames : List ws_frame) : nni_ws :=
  frames.foldl (fun ws frame => ws_rx_frame e ws frame.wire) ws

/-- The connection returned by the C function `ws_init`, with the `mode` its
callers store in it right afterwards. -/
def ws_init (mode : ws_mode) : nni_ws :=
  { mode := mode, closed := false, ready := false, txmsgs := [], rxmsgs := [],
    txframe := none, rxframe := none, rxaio := none,
    maxframe := (1 <<< 20) * 10, -- default limit on incoming frame size
    fragsize := 1 <<< 20, -- we won't send a frame larger than this
    trace := [] }

/-! ## Send and close requests -/

/-- The C function `nni_ws_send_msg`.  `msg` is the message of the caller
handle `aio` (`nni_aio_get_msg(aio)`), `start` is the value `nni_aio_start`
returns for that handle, and `r` gives the masking keys as in `ws_msg_init_tx`.
`none` stands for a call that does not return (the loop of `ws_msg_init_tx`).
`ws_msg_init_tx` returns nonzero only when an allocation fails, so the branch
`rv != 0` is not part of the model. -/
def nni_ws_send_msg (ws : nni_ws) (r : Nat → Nat) (start : Nat) (msg : nni_msg) (aio : Nat) :
    Option nni_ws :=
  match ws_msg_init_tx ws r msg (some aio) with
  | none => none
  | some wm =>
    if ws.closed then
      -- ws_msg_fini(wm)
      if start = 0 then
        some { ws with trace := ws.trace ++ [ws_event.nni_aio_finish_error aio NNG_ECLOSED] }
      else some ws
    else if start = 0 then
      -- ws_msg_fini(wm)
      some ws
    else
      some (ws_start_write { ws with txmsgs := ws.txmsgs ++ [wm] })

/-- The C function `nni_ws_close_error`. -/
def nni_ws_close_error (e : ws_env) (ws : nni_ws) (code : Nat) : nni_ws :=
  ws_close e ws code

/-- The C function `nni_ws_close`. -/
def nni_ws_close (e : ws_env) (ws : nni_ws) : nni_ws :=
  nni_ws_close_error e ws WS_CLOSE_NORMAL_CLOSE

/-! ## Write completion, cancellation and the close callback -/

/-- The message `frame->wmsg` that owns the frame in the tx slot.  The back
pointer is not represented: the owner is found as the first message of the
outbound queue whose first frame is that frame (`ws_start_write` puts the first
frame of a message in the slot, and a frame leaves its message only in
`ws_write_cb`).  The result is the position of the message in the queue and the
message; `none` stands for a pointer to a message that is no longer queued. -/
def ws_frame_wmsg : List ws_msg → ws_frame → Option (Nat × ws_msg)
  | [], _ => none
  | wm :: rest, frame =>
    if wm.frames.head? = some frame then some (0, wm)
    else (ws_frame_wmsg rest frame).map fun p => (p.1 + 1, p.2)

/-- The loop of the branch `ws->txframe->op == WS_CLOSE` of `ws_write_cb`: every
queued message is removed and its handle completed with `NNG_ECLOSED`.  The
result is the list of these completions; `none` stands for the call
`nni_aio_set_msg(wm->aio, NULL)` on a message without handle (`wm->aio` is
`NULL`), which the loop makes without a test. -/
def ws_write_cb_close : List ws_msg → Option (List ws_event)
  | [] => some []
  | wm :: rest =>
    match wm.aio with
    | none => none
    | some aio =>
      (ws_write_cb_close rest).map fun evs =>
        ws_event.nni_aio_finish_error aio NNG_ECLOSED :: evs

/-- The C function `ws_write_cb`, the completion callback of `ws->txaio`.  `rv`
is the value of `nni_aio_result(ws->txaio)`.  `none` stands for a call that
dereferences a `NULL` or stale pointer (`ws->txframe`, `frame->wmsg`,
`wm->aio`). -/
def ws_write_cb (rv : Nat) (ws : nni_ws) : Option nni_ws :=
  match ws.txframe with
  | none => none
  | some frame =>
    if frame.op = WS_CLOSE then
      -- If this was a close frame, we are done.  No other messages may succeed..
      (ws_write_cb_close ws.txmsgs).map fun evs =>
        { ws with txmsgs := [], trace := ws.trace ++ evs }
    else
      match ws_frame_wmsg ws.txmsgs frame with
      | none => none
      | some (k, wm) =>
        let aio := wm.aio
        if rv ≠ 0 then
          -- ws_msg_fini(wm), with wm still linked in ws->txmsgs
          some
            { ws with
                closed := true,
                trace := ws.trace ++
                  (match aio with
                    | some aio => [ws_event.nni_aio_finish_error aio rv]
                    | none => []) ++
                  [ws_event.nni_http_close] }
        else
          -- good frame, was it the last
          let wm := { wm with frames := wm.frames.tail }
          let ws :=
            if wm.frames.isEmpty then
              { ws with
                  txmsgs := ws.txmsgs.eraseIdx k,
                  trace := ws.trace ++
                    (match aio with
                      | some aio => [ws_event.nni_aio_finish aio 0 0]
                      | none => []) }
            else { ws with txmsgs := ws.txmsgs.set k wm }
          -- Write the next frame.
          some (ws_start_write ws)

/-- The message `aio->a_prov_data` of a caller handle given to
`nni_aio_start(aio, ws_write_cancel, wm)`: the message of the outbound queue
that has this handle, with its position; `none` when no queued message has
it. -/
def ws_aio_prov_data : List ws_msg → Nat → Option (Nat × ws_msg)
  | [], _ => none
  | wm :: rest, aio =>
    if wm.aio = some aio then some (0, wm)
    else (ws_aio_prov_data rest aio).map fun p => (p.1 + 1, p.2)

/-- The C function `ws_write_cancel`, for a handle whose message is still in
the outbound queue (for any other handle the function is taken to do nothing). -/
def ws_write_cancel (ws : nni_ws) (aio : Nat) (rv : Nat) : nni_ws :=
  -- Is this aio active?  We can tell by looking at the active tx frame.
  match ws_aio_prov_data ws.txmsgs aio with
  | none => ws
  | some (j, _) =>
    if (match ws.txframe with
        | some frame => decide ((ws_frame_wmsg ws.txmsgs frame).map Prod.fst = some j)
        | none => false) then
      -- We will wait for callback on the txaio to finish aio.
      { ws with trace := ws.trace ++ [ws_event.txaio_cancel rv] }
    else
      -- If scheduled, just need to remove node and complete it.
      { ws with
          txmsgs := ws.txmsgs.eraseIdx j,
          trace := ws.trace ++ [ws_event.nni_aio_finish_error aio rv] }

/-- The C function `ws_close_cb`, the completion callback of `ws->closeaio`. -/
def ws_close_cb (ws : nni_ws) : nni_ws :=
  -- Either we sent a close frame, or we didn't.  Either way, we are done, and
  -- its time to abort everything else.
  { ws with
      rxmsgs := [], txmsgs := [], rxframe := none,
      trace := ws.trace ++
        [ws_event.nni_http_close, ws_event.txaio_cancel NNG_ECLOSED,
         ws_event.rxaio_cancel NNG_ECLOSED] ++
        ws_close_msgs ws.rxmsgs ++ ws_close_msgs ws.txmsgs }

/-- The completions of the caller handle `aio` among the calls of a trace. -/
def ws_aio_completions (aio : Nat) (trace : List ws_event) : List ws_event :=
  trace.filter fun ev =>
    match ev with
    | ws_event.nni_aio_finish_error a _ => a = aio
    | ws_event.nni_aio_finish a _ _ => a = aio
    | _ => false

/-! ## Closed forms used in the statements and proofs -/

/-- The 7-bit length code of header byte 1 for a payload of `L` bytes. -/
def ws_len7 (L : Nat) : Nat :=
  if L < 126 then L else if L < 65536 then 126 else 127

/-- The extended length bytes that follow header byte 1 for a payload of `L`
bytes. -/
def ws_lenx (L : Nat) : List Nat :=
  if L < 126 then [] else if L < 65536 then NNI_PUT16 L else NNI_PUT64 L

/-- The frames the loop of `ws_msg_init_tx` builds, one per index below the
frame count: frame `i` is the pass of the loop body at the loop variables
reached after `i` passes. -/
def ws_tx_chain (mode : ws_mode) (f : Nat) (r : Nat → Nat) (len : Nat) (buf : List Nat)
    (op k : Nat) : List ws_frame :=
  (List.range (max 1 ((len + f - 1) / f))).map fun i =>
    ws_msg_init_tx_frame mode f (r (k + i)) (len - i * f) (buf.drop (i * f))
      (if i = 0 then op else WS_CONT)

/-- The reads submitted to the byte stream and the messages delivered to
receivers, among the calls of a trace. -/
def ws_rx_events (trace : List ws_event) : List ws_event :=
  trace.filter fun ev =>
    match ev with
    | ws_event.nni_http_read_full _ _ => true
    | ws_event.nni_aio_finish_msg _ _ => true
    | _ => false

/-- The payload length declared by the header bytes `wire`: the 7-bit length
code, or the extended length that follows it for the codes 126 and 127. -/
def ws_wire_len (wire : List Nat) : Nat :=
  if wire.getD 1 0 &&& 0x7F = 127 then NNI_GET64 (wire.drop 2)
  else if wire.getD 1 0 &&& 0x7F = 126 then NNI_GET16 (wire.drop 2)
  else wire.getD 1 0 &&& 0x7F

/-- The frame of the rx slot as `ws_read_cb` has it after its block
`if (frame->hlen == 0) { ... }`: with the fields of the header parse if the
header had not been parsed before. -/
def ws_rx_seen (frame : ws_frame) : ws_frame :=
  if frame.hlen = 0 then ws_read_cb_parse frame else frame

/-- The frame of the rx slot once `ws_read_cb` has determined the expected frame
size from the header in `frame->head`. -/
def ws_rx_sized (frame : ws_frame) : ws_frame :=
  { ws_rx_seen frame with len := ws_wire_len frame.head }

/-- The calls of `ws_close` among the calls of a trace, with their codes. -/
def ws_close_calls (trace : List ws_event) : List ws_event :=
  trace.filter fun ev =>
    match ev with
    | ws_event.ws_close _ => true
    | _ => false

/-- The frame in `ws->rxframe` once `ws_read_cb` has given it a payload buffer
(`frame->sdata` for a short frame, the result of `nni_alloc` otherwise). -/
def ws_rx_alloc (frame : ws_frame) : ws_frame :=
  if frame.len < 126 then { frame with buf := some (List.replicate 125 0), bufsz := 0 }
  else { frame with buf := some (List.replicate frame.len 0), bufsz := frame.len }

/-- The header length as the specification gives it, from the second header
byte `b1`: 2, plus 4 if the mask bit is set, plus 2 if the 7-bit length code is
126, plus 8 if it is 127. -/
def ws_header_length_spec (b1 : Nat) : Nat :=
  2 + (if b1 &&& 0x80 ≠ 0 then 4 else 0) + (if b1 &&& 0x7F = 126 then 2 else 0) +
    (if b1 &&& 0x7F = 127 then 8 else 0)

/-! ## The accept key of the handshake -/

/-- The bytes of a C string (without the terminating NUL). -/
def ws_str (s : String) : List Nat :=
  s.data.map Char.toNat

/-- The macro `WS_KEY_GUID` of `ws_make_accept`; it has `WS_KEY_GUIDLEN` = 36
characters. -/
def WS_KEY_GUID : List Nat :=
  ws_str ("258EAFA5-E914-47DA-95CA-C5AB0DC85B11")

/-- Modelled from the spec: SHA-1, rotation of a 32-bit word to the left by `n`
bits. -/
def sha1_rotl (n x : Nat) : Nat :=
  ((x <<< n) ||| (x >>> (32 - n))) % 2 ^ 32

/-- Modelled from the spec: SHA-1, the big-endian 32-bit word at the front of a
byte list. -/
def sha1_word (b : List Nat) : Nat :=
  b.getD 0 0 * 2 ^ 24 + b.getD 1 0 * 2 ^ 16 + b.getD 2 0 * 2 ^ 8 + b.getD 3 0

/-- Modelled from the spec: SHA-1, the first `n` big-endian words of a block. -/
def sha1_block_words : Nat → List Nat → List Nat
  | 0, _ => []
  | n + 1, b => sha1_word b :: sha1_block_words n (b.drop 4)

/-- Modelled from the spec: the SHA-1 message schedule; `n` more words are put
in front of the list `w` of the words so far, newest first. -/
def sha1_schedule : Nat → List Nat → List Nat
  | 0, w => w
  | n + 1, w =>
    sha1_schedule n
      (sha1_rotl 1 (w.getD 2 0 ^^^ w.getD 7 0 ^^^ w.getD 13 0 ^^^ w.getD 15 0) :: w)

/-- Modelled from the spec: the SHA-1 round function of round `t`. -/
def sha1_f (t b c d : Nat) : Nat :=
  if t < 20 then (b &&& c) ||| ((b ^^^ 0xFFFFFFFF) &&& d)
  else if t < 40 then b ^^^ c ^^^ d
  else if t < 60 then (b &&& c) ||| (b &&& d) ||| (c &&& d)
  else b ^^^ c ^^^ d

/-- Modelled from the spec: the SHA-1 round constant of round `t`. -/
def sha1_k (t : Nat) : Nat :=
  if t < 20 then 0x5A827999
  else if t < 40 then 0x6ED9EBA1
  else if t < 60 then 0x8F1BBCDC
  else 0xCA62C1D6

/-- Modelled from the spec: the five 32-bit words of the SHA-1 chaining value. -/
structure sha1_state where
  a : Nat
  b : Nat
  c : Nat
  d : Nat
  e : Nat
  deriving DecidableEq, Repr

/-- Modelled from the spec: the SHA-1 rounds over the scheduled words, from
round `t` on. -/
def sha1_rounds : List Nat → Nat → sha1_state → sha1_state
  | [], _, s => s
  | w :: ws, t, s =>
    let temp := (sha1_rotl 5 s.a + sha1_f t s.b s.c s.d + s.e + sha1_k t + w) % 2 ^ 32
    sha1_rounds ws (t + 1) ⟨temp, s.a, sha1_rotl 30 s.b, s.c, s.d⟩

/-- Modelled from the spec: the SHA-1 compression of one 64-byte block into the
chaining value. -/
def sha1_compress (h : sha1_state) (block : List Nat) : sha1_state :=
  let w := (sha1_schedule 64 (sha1_block_words 16 block).reverse).reverse
  let s := sha1_rounds w 0 h
  ⟨(h.a + s.a) % 2 ^ 32, (h.b + s.b) % 2 ^ 32, (h.c + s.c) % 2 ^ 32,
   (h.d + s.d) % 2 ^ 32, (h.e + s.e) % 2 ^ 32⟩

/-- Modelled from the spec: the SHA-1 compression of `n` consecutive blocks. -/
def sha1_blocks : Nat → sha1_state → List Nat → sha1_state
  | 0, h, _ => h
  | n + 1, h, m => sha1_blocks n (sha1_compress h (m.take 64)) (m.drop 64)

/-- Modelled from the spec: the SHA-1 padding, a 0x80 byte, zero bytes up to 56
modulo 64, and the message length in bits as a 64-bit big-endian integer. -/
def sha1_pad (m : List Nat) : List Nat :=
  let l := m.length
  let z := (64 - (l + 9) % 64) % 64
  m ++ [0x80] ++ List.replicate z 0 ++ NNI_PUT64 (l * 8)

/-- Modelled from the spec: the SHA-1 primitive (`nni_sha1_init`,
`nni_sha1_update`, `nni_sha1_final` of `supplemental/sha1`, which is not under
`src/`), as the SHA-1 digest of the concatenation of the updates. -/
def nni_sha1 (m : List Nat) : List Nat :=
  let p := sha1_pad m
  let h := sha1_blocks (p.length / 64)
    ⟨0x67452301, 0xEFCDAB89, 0x98BADCFE, 0x10325476, 0xC3D2E1F0⟩ p
  NNI_PUT32 h.a ++ NNI_PUT32 h.b ++ NNI_PUT32 h.c ++ NNI_PUT32 h.d ++ NNI_PUT32 h.e

/-- Modelled from the spec: the Base64 alphabet. -/
def base64_alphabet : List Nat :=
  ws_str ("ABCDEFGHIJKLMNOPQRSTUVWXYZabcdefghijklmnopqrstuvwxyz0123456789+/")

/-- Modelled from the spec: Base64, the four characters for a group of one to
three bytes, padded with `=` (61). -/
def base64_group (b : List Nat) : List Nat :=
  let v := b.getD 0 0 * 2 ^ 16 + b.getD 1 0 * 2 ^ 8 + b.getD 2 0
  let c0 := base64_alphabet.getD (v / 2 ^ 18 % 64) 0
  let c1 := base64_alphabet.getD (v / 2 ^ 12 % 64) 0
  let c2 := base64_alphabet.getD (v / 2 ^ 6 % 64) 0
  let c3 := base64_alphabet.getD (v % 64) 0
  match b.length with
  | 1 => [c0, c1, 61, 61]
  | 2 => [c0, c1, c2, 61]
  | _ => [c0, c1, c2, c3]

/-- Modelled from the spec: Base64 encoding of at most `3 * n` bytes. -/
def base64_groups : Nat → List Nat → List Nat
  | 0, _ => []
  | n + 1, b => if b = [] then [] else base64_group (b.take 3) ++ base64_groups n (b.drop 3)

/-- Modelled from the spec: the Base64 primitive `nni_base64_encode(in, in_len,
out, out_len)` of `supplemental/base64`, which is not under `src/`: the Base64
text of the first `in_len` bytes, cut to `out_len` characters. -/
def nni_base64_encode (inp : List Nat) (in_len out_len : Nat) : List Nat :=
  (base64_groups in_len (inp.take in_len)).take out_len

/-- Modelled from the spec: Base64, the value of a character of the alphabet. -/
def base64_value (c : Nat) : Option Nat :=
  if 65 ≤ c ∧ c ≤ 90 then some (c - 65)
  else if 97 ≤ c ∧ c ≤ 122 then some (c - 97 + 26)
  else if 48 ≤ c ∧ c ≤ 57 then some (c - 48 + 52)
  else if c = 43 then some 62
  else if c = 47 then some 63
  else none

/-- Modelled from the spec: Base64 decoding of a run of characters, up to the
first character outside the alphabet (the padding `=` included); `v` holds the
bits read so far and `rem` counts those not yet written out. -/
def base64_bytes : List Nat → Nat → Nat → List Nat
  | [], _, _ => []
  | c :: cs, v, rem =>
    match base64_value c with
    | none => []
    | some p =>
      let v := (v * 64 + p) % 2 ^ 32
      let rem := rem + 6
      if rem ≥ 8 then (v / 2 ^ (rem - 8) % 256) :: base64_bytes cs v (rem - 8)
      else base64_bytes cs v rem

/-- Modelled from the spec: the Base64 primitive `nni_base64_decode(in, in_len,
out, out_len)` of `supplemental/base64`, which is not under `src/`: the bytes
decoded from the first `in_len` characters, `none` when they do not fit in
`out_len` bytes.  The C function returns the number of bytes. -/
def nni_base64_decode (inp : List Nat) (in_len out_len : Nat) : Option (List Nat) :=
  let out := base64_bytes (inp.take in_len) 0 0
  if out.length ≤ out_len then some out else none

/-- The C function `ws_make_accept`: the return value and the string stored
in `accept` (nothing is stored when the function returns `NNG_EINVAL`). -/
def ws_make_accept (key : List Nat) : Nat × List Nat :=
  if key.length ≠ 24 then (NNG_EINVAL, [])
  else
    match nni_base64_decode key 24 16 with
    | none => (NNG_EINVAL, [])
    | some rawkey =>
      if rawkey.length ≠ 16 then (NNG_EINVAL, [])
      else
        let digest := nni_sha1 (rawkey.take 16 ++ WS_KEY_GUID.take 36)
        (0, nni_base64_encode digest 20 28)

/-- Modelled from the spec: the C library function `tolower` on ASCII
characters, used by the case-insensitive comparisons. -/
def tolower (c : Nat) : Nat :=
  if 65 ≤ c ∧ c ≤ 90 then c + 32 else c

/-- Modelled from the spec: `nni_strncasecmp(s1, s2, n)` (of `core/strs.c`, which
is not under `src/`), the comparison of at most `n` characters ignoring ASCII
case.  A string is the list of its characters, its terminating NUL being the
end of the list.  The result is 0 when the strings agree. -/
def nni_strncasecmp : List Nat → List Nat → Nat → Int
  | _, _, 0 => 0
  | s1, s2, n + 1 =>
    let c1 := tolower (s1.headD 0)
    let c2 := tolower (s2.headD 0)
    if c1 < c2 then -1
    else if c1 > c2 then 1
    else if c1 = 0 then 0
    else nni_strncasecmp s1.tail s2.tail n

/-- Modelled from the spec: the C library function `strchr(s, c)` for a
character `c` other than NUL: the rest of `s` from the first `c` on, `none`
(`NULL`) when `s` has no `c`. -/
def strchr : List Nat → Nat → Option (List Nat)
  | [], _ => none
  | x :: xs, c => if x = c then some (x :: xs) else strchr xs c

/-- Modelled from the spec: `nni_strcasestr(s1, s2)` (of `core/strs.c`, which is
not under `src/`): the rest of `s1` from the first occurrence of `s2` on,
ignoring ASCII case, `none` (`NULL`) when there is none. -/
def nni_strcasestr : List Nat → List Nat → Option (List Nat)
  | [], s2 => if s2 = [] then some [] else none
  | x :: xs, s2 =>
    if nni_strncasecmp (x :: xs) s2 s2.length = 0 then some (x :: xs)
    else nni_strcasestr xs s2

/-- The digits read by the C library function `atoi`, with the value `acc` of
the digits read so far. -/
def atoi_digits : List Nat → Nat → Nat
  | [], acc => acc
  | c :: cs, acc => if 48 ≤ c ∧ c ≤ 57 then atoi_digits cs (acc * 10 + (c - 48)) else acc

/-- The value the C library function `atoi` reads: white space is skipped,
then an optional sign and the decimal digits that follow are read. -/
def atoi_value (s : List Nat) : Int :=
  match s.dropWhile (fun c => c = 32 ∨ (9 ≤ c ∧ c ≤ 13)) with
  | 45 :: cs => -(atoi_digits cs 0 : Int)
  | 43 :: cs => (atoi_digits cs 0 : Int)
  | cs => (atoi_digits cs 0 : Int)

/-- The C library function `atoi` (libc).  Its result is an `int`: the value
read is reduced to 32 bits in two's complement, as the conversion
`(int) strtol(s, NULL, 10)` does.  For a value outside the range of `int` the C
standard leaves the result undefined. -/
def atoi (s : List Nat) : Int :=
  (atoi_value s + 2 ^ 31) % 2 ^ 32 - 2 ^ 31

/-- The inner loop `while ((*phrase == ' ') || (*phrase == ',')) phrase++;` of
`ws_contains_word`. -/
def ws_contains_word_skip : List Nat → List Nat
  | [] => []
  | x :: xs => if x = 32 ∨ x = 44 then ws_contains_word_skip xs else x :: xs

/-- The loop of `ws_contains_word`, with `len = strlen(word)`.  The first
argument bounds the number of passes; `none` means the bound was reached with
the loop still running. -/
def ws_contains_word_loop (word : List Nat) (len : Nat) :
    Nat → Option (List Nat) → Option Bool
  | _, none => some false
  | 0, some _ => none
  | fuel + 1, some phrase =>
    if phrase = [] then some false
    else if nni_strncasecmp phrase word len = 0 ∧
        (phrase.getD len 0 = 0 ∨ phrase.getD len 0 = 32 ∨ phrase.getD len 0 = 44) then
      some true
    else
      -- Skip to next word.
      ws_contains_word_loop word len fuel ((strchr phrase 32).map ws_contains_word_skip)

/-- The C function `ws_contains_word`; `phrase` may be `NULL`.  Every pass of
the loop that does not end it moves `phrase` forward by at least one character
(`strchr` finds a space and the inner loop steps over it), so one pass more
than `phrase` has characters is enough (`ws_contains_word_loop_returns`); the
value `false` given for an exhausted bound is never taken. -/
def ws_contains_word (phrase : Option (List Nat)) (word : List Nat) : Bool :=
  let len := word.length
  (ws_contains_word_loop word len ((phrase.getD []).length + 1) phrase).getD false

/-- The words of a list written with commas and spaces between them: the
phrase split at every comma and every space, empty pieces left out. -/
def ws_words (phrase : List Nat) : List (List Nat) :=
  (phrase.splitOn 32).flatMap (fun s => s.splitOn 44) |>.filter (fun w => w ≠ [])

/-- Word-in-list matching as the specification words it: `phrase`, split at
commas and spaces, has a word equal to `word` ignoring ASCII case. -/
def ws_contains_word_spec (phrase word : List Nat) : Bool :=
  (ws_words phrase).any (fun w => w.map tolower = word.map tolower)

/-- The word `word` occurs in `phrase`, ignoring ASCII case, bounded on the left
by the start of the phrase, a space or a comma, and on the right by the end of
the phrase, a space or a comma. -/
def ws_word_bounded (phrase word : List Nat) : Prop :=
  ∃ pre w post, phrase = pre ++ w ++ post ∧ w.map tolower = word.map tolower ∧
    (pre = [] ∨ ∃ q c, pre = q ++ [c] ∧ (c = 32 ∨ c = 44)) ∧
    (post = [] ∨ ∃ c q, post = c :: q ∧ (c = 32 ∨ c = 44))

/-- No comma of `phrase` is directly followed by the first character of a word:
after every comma comes a space, another comma or the end of the phrase. -/
def ws_commas_spaced : List Nat → Bool
  | [] => true
  | c :: rest =>
    (c != 44 || rest.headD 32 == 32 || rest.headD 32 == 44) && ws_commas_spaced rest

/-! ## Server handshake -/

/-- Modelled from the spec: the HTTP status codes the handshake uses
(`NNI_HTTP_STATUS_*` of `supplemental/http/http.h`, which is not under `src/`). -/
def NNI_HTTP_STATUS_SWITCHING : Nat := 101
/-- Modelled from the spec: HTTP status 400. -/
def NNI_HTTP_STATUS_BAD_REQUEST : Nat := 400
/-- Modelled from the spec: HTTP status 413. -/
def NNI_HTTP_STATUS_PAYLOAD_TOO_LARGE : Nat := 413
/-- Modelled from the spec: HTTP status 500. -/
def NNI_HTTP_STATUS_INTERNAL_SERVER_ERROR : Nat := 500
/-- Modelled from the spec: HTTP status 505. -/
def NNI_HTTP_STATUS_HTTP_VERSION_NOT_SUPP : Nat := 505

/-- Modelled from the spec: an HTTP request (`nni_http_req` of
`supplemental/http`, which is not under `src/`) as the handshake reads it: the
results of `nni_http_req_get_version`, `nni_http_req_get_method` and, for each
header name, of `nni_http_req_get_header` (`none` for `NULL`). -/
structure nni_http_req where
  version : List Nat
  method : List Nat
  header : String → Option (List Nat)

/-- Modelled from the spec: an HTTP response (`nni_http_res` of
`supplemental/http`, which is not under `src/`): its status with the reason
text, and the headers set on it, oldest first. -/
structure nni_http_res where
  status : Nat
  reason : String
  headers : List (String × List Nat)
  deriving DecidableEq, Repr

/-- Modelled from the spec: `nni_http_res_set_header(res, h, v)`, taken to
succeed: the header `h` of the response becomes `v`. -/
def nni_http_res_set_header (res : nni_http_res) (h : String) (v : List Nat) : nni_http_res :=
  { res with headers := res.headers.filter (fun p => p.1 ≠ h) ++ [(h, v)] }

/-- The `struct nni_ws_listener`, without its URL parts, TLS configuration,
HTTP server and handler registration.  The hook `hookfn` (with its `hookarg`)
returns its result code and the response as it leaves it. -/
structure nni_ws_listener where
  proto : Option (List Nat)
  pend : List nni_ws
  reply : List nni_ws
  aios : List Nat
  started : Bool
  closed : Bool
  hookfn : Option (nni_http_req → nni_http_res → Nat × nni_http_res)

/-- The ways `ws_handler` ends. -/
inductive ws_handler_result where
  /-- The label `err`: the request is dropped and the output of the handler is
  the reply made by `nni_http_res_init_error(&res, status)`.  No connection is
  created. -/
  | err (status : Nat)
  /-- The hook returned `rv != 0`: `nni_aio_finish_error(aio, rv)`, no reply and
  no connection. -/
  | hook_error (rv : Nat)
  /-- The hook changed the status of the response: that response is the output
  of the handler and no connection is created. -/
  | hook_reply (res : nni_http_res)
  /-- The upgrade: the connection `ws` is created in listen mode and appended to
  `l->reply` (the listener is given as it is afterwards), and `res` is handed
  to `nni_http_write_res`. -/
  | upgrade (l : nni_ws_listener) (ws : nni_ws) (res : nni_http_res)

/-- The check of `ws_handler` for a request body: a `Content-Length` above
zero, or a `Transfer-Encoding` with `chunked` in it. -/
def ws_handler_has_body (req : nni_http_req) : Bool :=
  (match req.header ("Content-Length") with
    | some ptr => decide (atoi ptr > 0)
    | none => false) ||
  (match req.header ("Transfer-Encoding") with
    | some ptr => (nni_strcasestr ptr (ws_str ("chunked"))).isSome
    | none => false)

/-- The check of `ws_handler` headed "These headers have to be present.": true
when the check fails. -/
def ws_handler_headers_missing (req : nni_http_req) : Bool :=
  (match req.header ("Upgrade") with
    | none => true
    | some ptr => !ws_contains_word (some ptr) (ws_str ("websocket"))) ||
  (match req.header ("Connection") with
    | none => true
    | some ptr => !ws_contains_word (some ptr) (ws_str ("upgrade"))) ||
  (match req.header ("Sec-WebSocket-Version") with
    | none => true
    | some ptr => decide (ptr ≠ ws_str ("13")))

/-- The subprotocol check of `ws_handler`, for the value `proto` of the
request's `Sec-WebSocket-Protocol` header: true when the check fails. -/
def ws_handler_proto_mismatch (l : nni_ws_listener) (proto : Option (List Nat)) : Bool :=
  match proto with
  | none => l.proto.isSome
  | some proto => l.proto.isNone || !ws_contains_word l.proto proto

/-- The part of `ws_handler` from `nni_http_res_init` to the four `SETH`
calls: the response prepared for a request whose checks passed, `key` being
the accept value and `proto` the request's `Sec-WebSocket-Protocol` header. -/
def ws_handler_res (key : List Nat) (proto : Option (List Nat)) : nni_http_res :=
  let res : nni_http_res :=
    { status := NNI_HTTP_STATUS_SWITCHING, reason := "Switching Protocols", headers := [] }
  let res := nni_http_res_set_header res ("Connection") (ws_str ("Upgrade"))
  let res := nni_http_res_set_header res ("Upgrade") (ws_str ("websocket"))
  let res := nni_http_res_set_header res ("Sec-WebSocket-Accept") key
  match proto with
  | some proto => nni_http_res_set_header res ("Sec-WebSocket-Protocol") proto
  | none => res

/-- The end of `ws_handler`, "We are good to go": the connection is created by
`ws_init`, put in listen mode and appended to `l->reply`, and the response is
written. -/
def ws_handler_upgrade (l : nni_ws_listener) (res : nni_http_res) : ws_handler_result :=
  let ws := ws_init NNI_EP_MODE_LISTEN
  ws_handler_result.upgrade { l with reply := l.reply ++ [ws] } ws res

/-- The C function `ws_handler`, for the listener `l` and the request `req`
it gets as inputs of `aio`.  `nni_http_res_init`, `nni_http_res_set_status`,
`nni_http_res_set_header`, `ws_init` and `nni_http_res_init_error` are taken to
succeed. -/
def ws_handler (l : nni_ws_listener) (req : nni_http_req) : ws_handler_result :=
  -- Now check the headers, etc.
  if req.version ≠ ws_str ("HTTP/1.1") then
    ws_handler_result.err NNI_HTTP_STATUS_HTTP_VERSION_NOT_SUPP
  else if req.method ≠ ws_str ("GET") then
    -- HEAD request.  We can't really deal with it.
    ws_handler_result.err NNI_HTTP_STATUS_BAD_REQUEST
  else if ws_handler_has_body req then
    ws_handler_result.err NNI_HTTP_STATUS_PAYLOAD_TOO_LARGE
  else if ws_handler_headers_missing req then
    ws_handler_result.err NNI_HTTP_STATUS_BAD_REQUEST
  else
    match req.header ("Sec-WebSocket-Key") with
    | none => ws_handler_result.err NNI_HTTP_STATUS_BAD_REQUEST
    | some ptr =>
      if (ws_make_accept ptr).1 ≠ 0 then ws_handler_result.err NNI_HTTP_STATUS_BAD_REQUEST
      else
        let key := (ws_make_accept ptr).2
        let proto := req.header ("Sec-WebSocket-Protocol")
        if ws_handler_proto_mismatch l proto then
          ws_handler_result.err NNI_HTTP_STATUS_BAD_REQUEST
        else
          let res := ws_handler_res key proto
          match l.hookfn with
          | some hookfn =>
            let (rv, res) := hookfn req res
            if rv ≠ 0 then ws_handler_result.hook_error rv
            else if res.status ≠ NNI_HTTP_STATUS_SWITCHING then
              ws_handler_result.hook_reply res
            else ws_handler_upgrade l res
          | none => ws_handler_upgrade l res

/-! ## Errors, statuses and calls of the listener and the dialer -/

/-- Modelled from the spec: the error kind `BUSY` (`NNG_EBUSY` of `nng.h`, which
is not under `src/`). -/
def NNG_EBUSY : Nat := 4
/-- Modelled from the spec: the error kind `REFUSED` (`NNG_ECONNREFUSED`). -/
def NNG_ECONNREFUSED : Nat := 6
/-- Modelled from the spec: the error kind `ESTATE` (`NNG_ESTATE`). -/
def NNG_ESTATE : Nat := 11
/-- Modelled from the spec: the error kind `PROTO` (`NNG_EPROTO`). -/
def NNG_EPROTO : Nat := 13
/-- Modelled from the spec: the error kind `ADDRINVAL` (`NNG_EADDRINVAL`). -/
def NNG_EADDRINVAL : Nat := 15
/-- Modelled from the spec: the error kind `PERM` (`NNG_EPERM`). -/
def NNG_EPERM : Nat := 16

/-- Modelled from the spec: HTTP status 401. -/
def NNI_HTTP_STATUS_UNAUTHORIZED : Nat := 401
/-- Modelled from the spec: HTTP status 403. -/
def NNI_HTTP_STATUS_FORBIDDEN : Nat := 403
/-- Modelled from the spec: HTTP status 404. -/
def NNI_HTTP_STATUS_NOT_FOUND : Nat := 404
/-- Modelled from the spec: HTTP status 405. -/
def NNI_HTTP_STATUS_METHOD_NOT_ALLOWED : Nat := 405

/-- The calls by which a listener or a dialer acts on its callers, on the
connections it negotiates and on the HTTP layer. -/
inductive ws_ep_event where
  /-- The call `nni_aio_finish_error(aio, rv)` on a caller handle. -/
  | nni_aio_finish_error (aio : Nat) (rv : Nat)
  /-- The call `nni_aio_finish_pipe(aio, ws)`: the caller gets the connection. -/
  | nni_aio_finish_pipe (aio : Nat) (ws : nni_ws)
  /-- The call `nni_http_client_connect(d->client, d->conaio)`. -/
  | nni_http_client_connect
  /-- The call `nni_http_fini(http)`. -/
  | nni_http_fini
  /-- The call `nni_http_read_res(ws->http, ws->res, ws->httpaio)`. -/
  | nni_http_read_res
  /-- The call `nni_http_write_req(http, req, ws->httpaio)`, with the URI of the
  request. -/
  | nni_http_write_req (uri : List Nat)
  /-- The call `nni_ws_fini(ws)`. -/
  | nni_ws_fini (ws : nni_ws)
  /-- The call `nni_aio_cancel(d->conaio, rv)`. -/
  | conaio_cancel (rv : Nat)
  deriving DecidableEq, Repr

/-! ## Listener -/

/-- The C function `nni_ws_listener_proto`: the return value and the listener
afterwards (`nni_strdup` is taken to succeed). -/
def nni_ws_listener_proto (l : nni_ws_listener) (proto : List Nat) : Nat × nni_ws_listener :=
  if l.started then (NNG_EBUSY, l)
  else (0, { l with proto := some proto })

/-- The C function `nni_ws_listener_accept`: the listener afterwards and the
calls made.  `start` is the value `nni_aio_start` returns for the caller
handle `aio`. -/
def nni_ws_listener_accept (l : nni_ws_listener) (start : Nat) (aio : Nat) :
    nni_ws_listener × List ws_ep_event :=
  if start ≠ 0 then (l, [])
  else if l.closed then (l, [ws_ep_event.nni_aio_finish_error aio NNG_ECLOSED])
  else if !l.started then (l, [ws_ep_event.nni_aio_finish_error aio NNG_ESTATE])
  else
    match l.pend with
    | ws :: rest => ({ l with pend := rest }, [ws_ep_event.nni_aio_finish_pipe aio ws])
    | [] => ({ l with aios := l.aios ++ [aio] }, [])

/-- The results of the calls `nni_ws_listener_listen` makes into other
subsystems: the address lookup (`nni_aio_result` after `nni_plat_tcp_resolv`),
`nni_http_server_init`, `nni_http_server_add_handler` and
`nni_http_server_start`. -/
structure ws_listen_env where
  resolv : Nat
  server_init : Nat
  add_handler : Nat
  server_start : Nat
  deriving DecidableEq, Repr

/-- The C function `nni_ws_listener_listen`: the return value and the listener
afterwards.  The HTTP server `l->server` is not represented, and no other
field of the listener is assigned; the result of `nni_http_server_start` is
stored in `rv` and the function returns 0 after it. -/
def nni_ws_listener_listen (env : ws_listen_env) (l : nni_ws_listener) :
    Nat × nni_ws_listener :=
  if l.closed then (NNG_ECLOSED, l)
  else if l.started then (NNG_ESTATE, l)
  else if env.resolv ≠ 0 then (env.resolv, l)
  else if env.server_init ≠ 0 then (env.server_init, l)
  else if env.add_handler ≠ 0 then (env.add_handler, l)
  else
    -- XXX: DEAL WITH HTTPS here.
    let _rv := env.server_start
    (0, l)

/-- The C function `ws_http_cb_listener`, for the connection `ws` of the
listener `l`; `rv` is the value of `nni_aio_result(aio)`.  The result is the
listener afterwards and the calls made.  Connections are told apart by their
content: `nni_list_remove(&l->reply, ws)` removes the first connection of
`reply` that equals `ws`. -/
def ws_http_cb_listener (l : nni_ws_listener) (ws : nni_ws) (rv : Nat) :
    nni_ws_listener × List ws_ep_event :=
  let l := { l with reply := l.reply.erase ws }
  if rv ≠ 0 then (l, [ws_ep_event.nni_ws_fini ws])
  else
    let ws := { ws with ready := true }
    match l.aios with
    | aio :: _ => (l, [ws_ep_event.nni_aio_finish_pipe aio ws])
    | [] => ({ l with pend := l.pend ++ [ws] }, [])

/-! ## Dialer -/

/-- The `struct nni_ws_dialer`, without its address, TLS configuration and HTTP
client.  `connecting` records whether a connect is pending on `d->conaio`
(between `nni_http_client_connect` and the run of `ws_conn_cb` for it), and
`trace` holds the calls made so far, oldest first. -/
structure nni_ws_dialer where
  proto : Option (List Nat)
  host : List Nat
  path : List Nat
  qinfo : Option (List Nat)
  /-- Path + query. -/
  uri : Option (List Nat)
  /-- User aios waiting for connect. -/
  conaios : List Nat
  /-- User aios waiting for HTTP nego. -/
  httpaios : List Nat
  started : Bool
  closed : Bool
  connecting : Bool
  trace : List ws_ep_event
  deriving DecidableEq, Repr

/-- A connection of a dialer during the handshake: the connection with the
request `ws->req` and the response `ws->res` (`none` for `NULL`). -/
structure ws_dial_conn where
  ws : nni_ws
  req : nni_http_req
  res : Option nni_http_res

/-- The C function `nni_ws_dialer_dial`.  `start` is the value `nni_aio_start`
returns for the caller handle `aio`.  The branch for a closed dialer completes
the caller and goes on (it has no `return`). -/
def nni_ws_dialer_dial (d : nni_ws_dialer) (start : Nat) (aio : Nat) : nni_ws_dialer :=
  if start ≠ 0 then d
  else
    let d :=
      if d.closed then
        { d with trace := d.trace ++ [ws_ep_event.nni_aio_finish_error aio NNG_ECLOSED] }
      else d
    let d := { d with conaios := d.conaios ++ [aio] }
    if !d.started then
      { d with
          started := true, connecting := true,
          trace := d.trace ++ [ws_ep_event.nni_http_client_connect] }
    else d

/-- Modelled from the spec: `nni_http_req_init`, an empty request. -/
def nni_http_req_init : nni_http_req :=
  { version := [], method := [], header := fun _ => none }

/-- Modelled from the spec: `nni_http_req_set_header(req, h, v)`, taken to
succeed: the header `h` of the request becomes `v`. -/
def nni_http_req_set_header (req : nni_http_req) (h : String) (v : List Nat) : nni_http_req :=
  { req with header := fun k => if k = h then some v else req.header k }

/-- The request `ws_conn_cb` builds, for the key `wskey`. -/
def ws_conn_cb_req (d : nni_ws_dialer) (wskey : List Nat) : nni_http_req :=
  let req := nni_http_req_init
  let req := { req with version := ws_str ("HTTP/1.1") }
  let req := { req with method := ws_str ("GET") }
  let req := nni_http_req_set_header req ("Host") d.host
  let req := nni_http_req_set_header req ("Upgrade") (ws_str ("websocket"))
  let req := nni_http_req_set_header req ("Connection") (ws_str ("Upgrade"))
  let req := nni_http_req_set_header req ("Sec-WebSocket-Key") wskey
  let req := nni_http_req_set_header req ("Sec-WebSocket-Version") (ws_str ("13"))
  -- If consumer asked for protocol, pass it on.
  match d.proto with
  | some proto => nni_http_req_set_header req ("Sec-WebSocket-Protocol") proto
  | none => req

/-- The C function `ws_conn_cb`, the completion callback of `d->conaio`.  `rv`
is the value of `nni_aio_result(aio)` and `raw` holds the 16 values of
`nni_random()`.  The result is the dialer afterwards and, when the request was
sent, the connection created for it.  Allocations (`nni_asprintf`,
`nni_strdup`, the request, `ws_init`) are taken to succeed. -/
def ws_conn_cb (d : nni_ws_dialer) (rv : Nat) (raw : List Nat) :
    nni_ws_dialer × Option ws_dial_conn :=
  let d := { d with connecting := false }
  match d.conaios with
  | [] =>
    -- Nobody listening anymore - hard abort.
    (if rv = 0 then { d with trace := d.trace ++ [ws_ep_event.nni_http_fini] } else d, none)
  | uaio :: rest =>
    let d := { d with conaios := rest }
    -- We are done with this aio, start another connection request while
    -- we finish up, if we have more clients waiting.
    let d :=
      if !d.conaios.isEmpty then
        { d with connecting := true, trace := d.trace ++ [ws_ep_event.nni_http_client_connect] }
      else d
    if rv ≠ 0 then
      ({ d with trace := d.trace ++ [ws_ep_event.nni_aio_finish_error uaio rv] }, none)
    else
      let wskey := nni_base64_encode raw 16 24
      let uri :=
        match d.qinfo with
        | some q => if q ≠ [] then d.path ++ [63] ++ q else d.path
        | none => d.path
      let d := { d with uri := some uri }
      let req := ws_conn_cb_req d wskey
      let ws := ws_init NNI_EP_MODE_DIAL
      -- Move this uaio to the http wait list.
      ({ d with
          httpaios := d.httpaios ++ [uaio],
          trace := d.trace ++ [ws_ep_event.nni_http_write_req uri] },
        some { ws := ws, req := req, res := none })

/-- Modelled from the spec: `nni_http_res_init`, an empty response; what it
holds before a reply is read into it is not used. -/
def nni_http_res_init : nni_http_res :=
  { status := 0, reason := "", headers := [] }

/-- Modelled from the spec: `nni_http_res_get_header(res, h)`, `none` for
`NULL`. -/
def nni_http_res_get_header (res : nni_http_res) (h : String) : Option (List Nat) :=
  (res.headers.find? (fun p => p.1 = h)).map Prod.snd

/-- The test of `ws_http_cb_dialer` on the headers of a 101 reply, `wskey` being
the accept value computed from the request's key: true when the reply is
refused.  Each line is one `||` operand of the source, with `ptr` as it is
assigned there (`none` for `NULL`). -/
def ws_http_cb_dialer_refused (res : nni_http_res) (wskey : List Nat) : Bool :=
  (nni_http_res_get_header res ("Sec-WebSocket-Accept")).isNone ||
  decide (nni_http_res_get_header res ("Sec-WebSocket-Accept") ≠ some wskey) ||
  (nni_http_res_get_header res ("Connection")).isSome ||
  !ws_contains_word (nni_http_res_get_header res ("Connection")) (ws_str ("upgrade")) ||
  (nni_http_res_get_header res ("Upgrade")).isSome ||
  decide (nni_http_res_get_header res ("Upgrade") ≠ some (ws_str ("websocket")))

/-- The label `err` of `ws_http_cb_dialer`: the head caller of `httpaios` is
removed from the list and completed with `rv`, and the connection is
finalised. -/
def ws_http_cb_dialer_err (d : nni_ws_dialer) (uaio : Nat) (c : ws_dial_conn) (rv : Nat) :
    nni_ws_dialer × ws_dial_conn :=
  ({ d with
      httpaios := d.httpaios.erase uaio,
      trace := d.trace ++
        [ws_ep_event.nni_aio_finish_error uaio rv, ws_ep_event.nni_ws_fini c.ws] }, c)

/-- The C function `ws_http_cb_dialer`, for the connection `c` of the dialer
`d`; `rv` is the value of `nni_aio_result(aio)`.  Between the first run (the
request was sent, `ws->res` is `NULL`) and the second the HTTP layer reads the
reply into `ws->res`.  The request of `c` has the key `ws_conn_cb` gave it;
for a request without key, where the source would hand `NULL` to
`ws_make_accept`, the key is taken as empty. -/
def ws_http_cb_dialer (e : ws_env) (d : nni_ws_dialer) (c : ws_dial_conn) (rv : Nat) :
    nni_ws_dialer × ws_dial_conn :=
  match d.httpaios with
  | [] => (d, c) -- excluded by NNI_ASSERT(uaio != NULL)
  | uaio :: _ =>
    if rv ≠ 0 then ws_http_cb_dialer_err d uaio c rv
    else
      match c.res with
      | none =>
        -- Prepare an empty response, and read it.
        ({ d with trace := d.trace ++ [ws_ep_event.nni_http_read_res] },
          { c with res := some nni_http_res_init })
      | some res =>
        let status := res.status
        if status = NNI_HTTP_STATUS_SWITCHING then
          -- Check that the server gave us back the right key.
          let (rv, wskey) := ws_make_accept ((c.req.header ("Sec-WebSocket-Key")).getD [])
          if rv ≠ 0 then ws_http_cb_dialer_err d uaio c rv
          else if ws_http_cb_dialer_refused res wskey then
            let c := { c with ws := nni_ws_close_error e c.ws WS_CLOSE_PROTOCOL_ERR }
            ws_http_cb_dialer_err d uaio c NNG_EPROTO
          else if
              (match d.proto with
                | some proto =>
                  (nni_http_res_get_header res ("Sec-WebSocket-Protocol")).isNone ||
                  !ws_contains_word (some proto)
                    ((nni_http_res_get_header res ("Sec-WebSocket-Protocol")).getD [])
                | none => false) then
            let c := { c with ws := nni_ws_close_error e c.ws WS_CLOSE_PROTOCOL_ERR }
            ws_http_cb_dialer_err d uaio c NNG_EPROTO
          else
            -- At this point, we are in business!
            ({ d with
                httpaios := d.httpaios.erase uaio,
                trace := d.trace ++ [ws_ep_event.nni_aio_finish_pipe uaio c.ws] }, c)
        else if status = NNI_HTTP_STATUS_FORBIDDEN ∨ status = NNI_HTTP_STATUS_UNAUTHORIZED then
          ws_http_cb_dialer_err d uaio c NNG_EPERM
        else if status = NNI_HTTP_STATUS_NOT_FOUND ∨
            status = NNI_HTTP_STATUS_METHOD_NOT_ALLOWED then
          -- Treat these as refusals.
          ws_http_cb_dialer_err d uaio c NNG_ECONNREFUSED
        else
          -- Perhaps we should use NNG_ETRANERR...
          ws_http_cb_dialer_err d uaio c NNG_EPROTO

/-- The C function `nni_ws_dialer_close`. -/
def nni_ws_dialer_close (d : nni_ws_dialer) : nni_ws_dialer :=
  -- XXX: what to do here?
  if d.closed then d
  else { d with closed := true, trace := d.trace ++ [ws_ep_event.conaio_cancel NNG_ECLOSED] }

/-- The completions of the caller handle `aio` among the calls of a listener or
a dialer. -/
def ws_ep_completions (aio : Nat) (trace : List ws_ep_event) : List ws_ep_event :=
  trace.filter fun ev =>
    match ev with
    | ws_ep_event.nni_aio_finish_error a _ => a = aio
    | ws_ep_event.nni_aio_finish_pipe a _ => a = aio
    | _ => false

/-! ## URL parsing -/

/-- Modelled from the spec: `nni_tran_parse_host_port(pair, hostp, portp)` (of
`core/transport.c`, which is not under `src/`) for a text of the form
`host[:port]`: the result code, the host (`none`, that is `NULL`, when it is
empty or the wildcard `*`) and the port (`none` when there is none).  Hosts in
square brackets are not represented. -/
def nni_tran_parse_host_port (pair : List Nat) :
    Nat × Option (List Nat) × Option (List Nat) :=
  let host := pair.takeWhile (fun c => c ≠ 58)
  let port := (pair.dropWhile (fun c => c ≠ 58)).drop 1
  (0, if host = [] ∨ host = [42] then none else some host,
    if port = [] then none else some port)

/-- The strings `ws_parse_url` stores through its arguments `schemep`, `hostp`,
`servp`, `pathp` and `queryp` when it returns 0. -/
structure ws_url where
  scheme : List Nat
  host : List Nat
  serv : List Nat
  path : List Nat
  query : List Nat
  deriving DecidableEq, Repr

/-- The C function `ws_parse_url`, with all five results asked for: the strings
stored, or the error code returned.  `nni_alloc` and `nni_strdup` are taken to
succeed, so the final test for `NULL` results can only meet the `NULL` host
`nni_tran_parse_host_port` gives for an empty host or a wildcard. -/
def ws_parse_url (url : List Nat) : Except Nat ws_url :=
  -- We need a scratch copy of the url to parse.
  let scr := url
  match strchr scr 58 with
  | none => Except.error NNG_EADDRINVAL
  | some pair =>
    if pair.getD 1 0 ≠ 47 ∨ pair.getD 2 0 ≠ 47 then Except.error NNG_EADDRINVAL
    else
      let scheme := scr.take (scr.length - pair.length)
      let pair := pair.drop 3
      let path := strchr pair 47
      let hostport :=
        match path with
        | some p => pair.take (pair.length - p.length)
        | none => pair
      let (rv, host, serv) := nni_tran_parse_host_port hostport
      if rv ≠ 0 then Except.error rv
      else
        -- If service was missing, assume normal defaults.
        let serv :=
          match serv with
          | some s => s
          | none => if scheme ≠ ws_str ("wss") then ws_str ("443") else ws_str ("80")
        let (path, query) :=
          match path with
          | some p =>
            -- Restore the path, and trim off the query parameter.
            match strchr p 63 with
            | some q => (p.take (p.length - q.length), q.drop 1)
            | none => (p, [])
          | none => (ws_str ("/"), [])
        match host with
        | none => Except.error NNG_ENOMEM
        | some host =>
          Except.ok { scheme := scheme, host := host, serv := serv, path := path, query := query }

/-! ## Example inputs -/

/-- A dialer connection that is ready and sends fragments of at most 2 bytes. -/
def ws_ex_dialer : nni_ws :=
  { ws_init NNI_EP_MODE_DIAL with ready := true, fragsize := 2 }

/-- A listener connection that is ready and accepts frames of at most 1024
bytes. -/
def ws_ex_listener : nni_ws :=
  { ws_init NNI_EP_MODE_LISTEN with ready := true, maxframe := 1024 }

/-- Masking keys for the frames of an example message. -/
def ws_ex_key (k : Nat) : Nat :=
  0x01020304 + k

/-- An example message with the body `hello` and no header block. -/
def ws_ex_msg : nni_msg :=
  { header := [], body := ws_str ("hello") }

/-- An environment in which the close handle starts successfully. -/
def ws_ex_env : ws_env :=
  { start := 0, wm := { frames := [], msg := none, aio := none } }

/-- An unmasked frame with three payload bytes, as `ws_msg_init_tx` builds it
for a listener. -/
def ws_ex_frame : ws_frame :=
  ws_msg_init_tx_frame NNI_EP_MODE_LISTEN 10 0 3 [104, 105, 33] WS_BINARY

/-- A complete inbound ping frame with the three payload bytes `abc`, as
`ws_read_cb` hands it to `ws_read_frame_cb` on a dialer: the payload is in the
frame's short buffer. -/
def ws_ex_ping : ws_frame :=
  { ws_frame_zalloc with
      head := memcpy ws_frame_zalloc.head 0 [0x89, 3], hlen := 2, len := 3, op := WS_PING,
      final := true, buf := some (memcpy (List.replicate 125 0) 0 (ws_str ("abc"))) }

/-- A data message waiting in an outbound queue: one final binary frame with the
payload `hi` for the caller handle 7. -/
def ws_ex_txmsg : ws_msg :=
  { frames := [ws_msg_init_tx_frame NNI_EP_MODE_LISTEN 10 0 2 (ws_str ("hi")) WS_BINARY],
    msg := some { header := [], body := ws_str ("hi") }, aio := some 7 }

/-- A receive message that holds one binary frame that is not final. -/
def ws_ex_rxmsg : ws_msg :=
  { frames := [{ ws_ex_frame with final := false }], msg := none, aio := some 5 }

/-- A dialer connection with one receiver queued and the frame `ws_ex_ping`
complete in its rx slot. -/
def ws_ex_pinged : nni_ws :=
  { ws_ex_dialer with rxmsgs := [ws_msg_init_rx (some 5)], rxframe := some ws_ex_ping }

/-- A listener with nothing queued, neither subprotocol nor hook. -/
def ws_ex_lst : nni_ws_listener :=
  { proto := none, pend := [], reply := [], aios := [], started := true, closed := false,
    hookfn := none }

/-- The headers of an upgrade request with the RFC 6455 sample key. -/
def ws_ex_headers (h : String) : Option (List Nat) :=
  if h = "Upgrade" then some (ws_str ("websocket"))
  else if h = "Connection" then some (ws_str ("keep-alive, Upgrade"))
  else if h = "Sec-WebSocket-Version" then some (ws_str ("13"))
  else if h = "Sec-WebSocket-Key" then some (ws_str ("dGhlIHNhbXBsZSBub25jZQ=="))
  else none

/-- An upgrade request that passes every check on a listener without
subprotocol. -/
def ws_ex_req : nni_http_req :=
  { version := ws_str ("HTTP/1.1"), method := ws_str ("GET"), header := ws_ex_headers }

/-- The request `ws_ex_req` with a `Sec-WebSocket-Protocol` header added. -/
def ws_ex_req_proto (offer : List Nat) : nni_http_req :=
  { ws_ex_req with
      header := fun h => if h = "Sec-WebSocket-Protocol" then some offer else ws_ex_headers h }

/-- The listener `ws_ex_lst` with the subprotocol `chat` configured. -/
def ws_ex_lst_chat : nni_ws_listener :=
  { ws_ex_lst with proto := some (ws_str ("chat")) }

/-- A data message of two frames for the caller handle 7, as `ws_msg_init_tx`
builds it on a listener with `fragsize = 2` for the body `abc`. -/
def ws_ex_txmsg2 : ws_msg :=
  { frames := ws_tx_chain NNI_EP_MODE_LISTEN 2 ws_ex_key 3 (ws_str ("abc")) WS_BINARY 0,
    msg := some { header := [], body := ws_str ("abc") }, aio := some 7 }

/-- A data message of one frame for the caller handle 8. -/
def ws_ex_txmsg3 : ws_msg :=
  { frames := [ws_msg_init_tx_frame NNI_EP_MODE_LISTEN 10 0 2 (ws_str ("yo")) WS_BINARY],
    msg := some { header := [], body := ws_str ("yo") }, aio := some 8 }

/-- A ready listener connection with the messages `ws_ex_txmsg2` and
`ws_ex_txmsg3` queued and the write of the first frame of the first one in
flight: the state `ws_start_write` leaves. -/
def ws_ex_writing : nni_ws :=
  ws_start_write { ws_ex_listener with txmsgs := [ws_ex_txmsg2, ws_ex_txmsg3] }

/-- A dialer for `ws://example.com/test` on which nothing has been called yet. -/
def ws_ex_dlr : nni_ws_dialer :=
  { proto := none, host := ws_str ("example.com"), path := ws_str ("/test"),
    qinfo := some [], uri := none, conaios := [], httpaios := [], started := false,
    closed := false, connecting := false, trace := [] }

/-- Sixteen bytes for a key: the text `the sample nonce`, whose Base64 is the
RFC 6455 sample key. -/
def ws_ex_raw : List Nat :=
  ws_str ("the sample nonce")

/-- The connection `ws_conn_cb` creates for the first caller of `ws_ex_dlr`,
with the key made from `ws_ex_raw`, once the reply `res` has been read. -/
def ws_ex_conn (res : nni_http_res) : ws_dial_conn :=
  { ws := ws_init NNI_EP_MODE_DIAL,
    req := ws_conn_cb_req ws_ex_dlr (nni_base64_encode ws_ex_raw 16 24),
    res := some res }

/-- The dialer `ws_ex_dlr` with caller 1 waiting for the reply to its request. -/
def ws_ex_dlr_wait : nni_ws_dialer :=
  (ws_conn_cb (nni_ws_dialer_dial ws_ex_dlr 0 1) 0 ws_ex_raw).1

/-- A reply with the given status and no headers. -/
def ws_ex_reply (status : Nat) : nni_http_res :=
  { status := status, reason := "", headers := [] }

/-- The environment in which every call of `nni_ws_listener_listen` into other
subsystems succeeds. -/
def ws_ex_listen_env : ws_listen_env :=
  { resolv := 0, server_init := 0, add_handler := 0, server_start := 0 }

/-- A listener on which nothing has been called yet, with one negotiated
connection pending. -/
def ws_ex_lst_new : nni_ws_listener :=
  { proto := none, pend := [ws_ex_listener], reply := [], aios := [], started := false,
    closed := false, hookfn := none }

/-- A frame in the rx slot after the read of its first two bytes: a final
binary frame, masked, with the length code 5. -/
def ws_ex_head : ws_frame :=
  { ws_frame_zalloc with head := memcpy ws_frame_zalloc.head 0 [0x82, 0x85] }

/-- A started listener with the acceptor 3 waiting and two connections whose
101 reply is being written. -/
def ws_ex_lst_reply : nni_ws_listener :=
  { ws_ex_lst with
      reply := [ws_init NNI_EP_MODE_LISTEN, { ws_init NNI_EP_MODE_LISTEN with maxframe := 1024 }],
      aios := [3] }

/-- The dialer `ws_ex_dlr` after the dials of the callers 1 and 2: both wait in
`conaios` and the connect started by the first dial is outstanding. -/
def ws_ex_dlr_two : nni_ws_dialer :=
  nni_ws_dialer_dial (nni_ws_dialer_dial ws_ex_dlr 0 1) 0 2

/-- A connection that is closed and drained: the dialer connection `ws_ex_dialer`
after `nni_ws_close` and the run of `ws_close_cb`. -/
def ws_ex_closed : nni_ws :=
  ws_close_cb (nni_ws_close ws_ex_env ws_ex_dialer)

/-- The request `ws_ex_req` with the header `name` set to `v`. -/
def ws_ex_req_with (name : String) (v : List Nat) : nni_http_req :=
  { ws_ex_req with header := fun h => if h = name then some v else ws_ex_headers h }

/-! # Theorems -/

/-! ## Lemmas: buffers and masking -/

theorem ws_xor_loop_length (mask : List Nat) (len : Nat) (buf : List Nat) (i : Nat) :
    (ws_xor_loop mask len i buf).length = buf.length := by
  induction buf generalizing i with
  | nil => rfl
  | cons b bs ih => simp [ws_xor_loop, ih]

theorem ws_xor_loop_twice (mask : List Nat) (len : Nat) (buf : List Nat) (i : Nat) :
    ws_xor_loop mask len i (ws_xor_loop mask len i buf) = buf := by
  induction buf generalizing i with
  | nil => rfl
  | cons b bs ih =>
    simp only [ws_xor_loop, ih]
    split <;> simp [Nat.xor_cancel_right]

theorem ws_xor_loop_take (mask : List Nat) (len : Nat) (buf : List Nat) (i n : Nat) :
    (ws_xor_loop mask len i buf).take n = ws_xor_loop mask len i (buf.take n) := by
  induction buf generalizing i n with
  | nil => simp [ws_xor_loop]
  | cons b bs ih =>
    cases n with
    | zero => simp [ws_xor_loop]
    | succ n => simp [ws_xor_loop, ih]

/-! ## Lemmas: the transmit side -/

theorem and_127 (L : Nat) : L &&& 127 = L % 128 := Nat.and_pow_two_sub_one_eq_mod L 7
theorem and_65535 (L : Nat) : L &&& 65535 = L % 65536 := Nat.and_pow_two_sub_one_eq_mod L 16

theorem txf_listen (f r len : Nat) (buf : List Nat) (op : Nat) :
    ws_msg_init_tx_frame NNI_EP_MODE_LISTEN f r len buf op =
      { head := (([op ||| (if len ≤ f then 0x80 else 0), ws_len7 (min len f)] ++
                  ws_lenx (min len f)) ++ List.replicate 14 0).take 14,
        mask := [0, 0, 0, 0],
        hlen := 2 + (ws_lenx (min len f)).length,
        len := min len f, op := op, final := decide (len ≤ f), masked := false, bufsz := 0,
        buf := some (buf.take (min len f)) } := by
  have key : ∀ L : Nat, (L = f ∧ f < len) ∨ (L = len ∧ len ≤ f) → min len f = L := by omega
  rcases Nat.lt_or_ge f len with h1 | h1
  · have h1' : ¬ len ≤ f := by omega
    have hm : min len f = f := by omega
    have h0 : ¬ (len - f = 0) := by omega
    rcases Nat.lt_or_ge f 126 with h2 | h2
    · have : f % 128 = f := by omega
      simp [ws_msg_init_tx_frame, ws_frame_zalloc, memcpy, h1, h1', h2, hm, h0, ws_len7, ws_lenx,
        List.replicate, and_127, this]
    · have h2' : ¬ f < 126 := by omega
      rcases Nat.lt_or_ge f 65536 with h3 | h3
      · have : f % 65536 = f := by omega
        simp [ws_msg_init_tx_frame, ws_frame_zalloc, memcpy, h1, h1', h2', h3, hm, h0, ws_len7,
          ws_lenx, List.replicate, and_65535, NNI_PUT16, this]
      · have h3' : ¬ f < 65536 := by omega
        simp [ws_msg_init_tx_frame, ws_frame_zalloc, memcpy, h1, h1', h2', h3', hm, h0, ws_len7,
          ws_lenx, List.replicate, NNI_PUT64]
  · have h1' : ¬ f < len := by omega
    have hm : min len f = len := by omega
    rcases Nat.lt_or_ge len 126 with h2 | h2
    · have : len % 128 = len := by omega
      simp [ws_msg_init_tx_frame, ws_frame_zalloc, memcpy, h1, h1', h2, hm, ws_len7, ws_lenx,
        List.replicate, and_127, this]
    · have h2' : ¬ len < 126 := by omega
      rcases Nat.lt_or_ge len 65536 with h3 | h3
      · have : len % 65536 = len := by omega
        simp [ws_msg_init_tx_frame, ws_frame_zalloc, memcpy, h1, h1', h2', h3, hm, ws_len7,
          ws_lenx, List.replicate, and_65535, NNI_PUT16, this]
      · have h3' : ¬ len < 65536 := by omega
        simp [ws_msg_init_tx_frame, ws_frame_zalloc, memcpy, h1, h1', h2', h3', hm, ws_len7,
          ws_lenx, List.replicate, NNI_PUT64]

theorem txf_dial (f r len : Nat) (buf : List Nat) (op : Nat) :
    ws_msg_init_tx_frame NNI_EP_MODE_DIAL f r len buf op =
      { head := (([op ||| (if len ≤ f then 0x80 else 0), ws_len7 (min len f) ||| 0x80] ++
                  ws_lenx (min len f) ++ NNI_PUT32 r) ++ List.replicate 14 0).take 14,
        mask := NNI_PUT32 r,
        hlen := 2 + (ws_lenx (min len f)).length + 4,
        len := min len f, op := op, final := decide (len ≤ f), masked := true, bufsz := 0,
        buf := some (ws_xor_loop (NNI_PUT32 r) (min len f) 0 (buf.take (min len f))) } := by
  rcases Nat.lt_or_ge f len with h1 | h1
  · have h1' : ¬ len ≤ f := by omega
    have hm : min len f = f := by omega
    have h0 : ¬ (len - f = 0) := by omega
    rcases Nat.lt_or_ge f 126 with h2 | h2
    · have : f % 128 = f := by omega
      simp [ws_msg_init_tx_frame, ws_mask_frame, ws_frame_zalloc, memcpy, h1, h1', h2, hm, h0, ws_len7, ws_lenx,
        List.replicate, and_127, this, NNI_PUT32]
    · have h2' : ¬ f < 126 := by omega
      rcases Nat.lt_or_ge f 65536 with h3 | h3
      · have : f % 65536 = f := by omega
        simp [ws_msg_init_tx_frame, ws_mask_frame, ws_frame_zalloc, memcpy, h1, h1', h2', h3, hm, h0, ws_len7,
          ws_lenx, List.replicate, and_65535, NNI_PUT16, this, NNI_PUT32]
      · have h3' : ¬ f < 65536 := by omega
        simp [ws_msg_init_tx_frame, ws_mask_frame, ws_frame_zalloc, memcpy, h1, h1', h2', h3', hm, h0, ws_len7,
          ws_lenx, List.replicate, NNI_PUT64, NNI_PUT32]
  · have h1' : ¬ f < len := by omega
    have hm : min len f = len := by omega
    rcases Nat.lt_or_ge len 126 with h2 | h2
    · have : len % 128 = len := by omega
      simp [ws_msg_init_tx_frame, ws_mask_frame, ws_frame_zalloc, memcpy, h1, h1', h2, hm, ws_len7, ws_lenx,
        List.replicate, and_127, this, NNI_PUT32]
    · have h2' : ¬ len < 126 := by omega
      rcases Nat.lt_or_ge len 65536 with h3 | h3
      · have : len % 65536 = len := by omega
        simp [ws_msg_init_tx_frame, ws_mask_frame, ws_frame_zalloc, memcpy, h1, h1', h2', h3, hm, ws_len7,
          ws_lenx, List.replicate, and_65535, NNI_PUT16, this, NNI_PUT32]
      · have h3' : ¬ len < 65536 := by omega
        simp [ws_msg_init_tx_frame, ws_mask_frame, ws_frame_zalloc, memcpy, h1, h1', h2', h3', hm, ws_len7,
          ws_lenx, List.replicate, NNI_PUT64, NNI_PUT32]

theorem txf_len (mode : ws_mode) (f r len : Nat) (buf : List Nat) (op : Nat) :
    (ws_msg_init_tx_frame mode f r len buf op).len = min len f := by
  cases mode
  · rw [txf_dial]
  · rw [txf_listen]

theorem ws_tx_count_step (len f : Nat) (hf : 1 ≤ f) (h : f < len) :
    max 1 ((len + f - 1) / f) = max 1 ((len - f + f - 1) / f) + 1 := by
  have h1 : len + f - 1 = (len - f + f - 1) + f := by omega
  rw [h1, Nat.add_div_right _ (by omega : 0 < f)]
  have h2 : 1 ≤ (len - f + f - 1) / f := by
    rw [Nat.le_div_iff_mul_le (by omega : 0 < f)]
    omega
  omega

theorem ws_tx_count_one (len f : Nat) (hf : 1 ≤ f) (h : len ≤ f) :
    max 1 ((len + f - 1) / f) = 1 := by
  have : (len + f - 1) / f ≤ 1 := by
    rw [Nat.div_le_iff_le_mul_add_pred (by omega : 0 < f)]
    omega
  omega

theorem ws_msg_init_tx_loop_eq (mode : ws_mode) (f : Nat) (r : Nat → Nat) (hf : 1 ≤ f)
    (fuel len : Nat) (buf : List Nat) (op k : Nat) (hfuel : len < fuel) :
    ws_msg_init_tx_loop mode f r fuel len buf op k =
      some (ws_tx_chain mode f r len buf op k) := by
  induction fuel generalizing len buf op k with
  | zero => omega
  | succ fuel ih =>
    rw [ws_msg_init_tx_loop]
    simp only [txf_len]
    rcases Nat.lt_or_ge f len with h | h
    · have hm : min len f = f := by omega
      have h0 : len - f ≠ 0 := by omega
      rw [hm, if_pos h0, ih (len - f) (buf.drop f) WS_CONT (k + 1) (by omega)]
      simp only [Option.map_some', ws_tx_chain, Option.some.injEq]
      rw [ws_tx_count_step len f hf h, List.range_succ_eq_map]
      simp only [List.map_cons, List.map_map, Nat.zero_mul, Nat.sub_zero, List.drop_zero,
        Nat.add_zero, if_true, List.cons.injEq, true_and]
      apply List.map_congr_left
      intro i _
      simp only [Function.comp, Nat.succ_eq_add_one, Nat.add_one_ne_zero, if_false,
        List.drop_drop]
      have e1 : k + 1 + i = k + (i + 1) := by omega
      have e2 : len - f - i * f = len - (i + 1) * f := by
        rw [Nat.add_mul]; omega
      have e3 : f + i * f = (i + 1) * f := by rw [Nat.add_mul]; omega
      have e4 : (if i = 0 then WS_CONT else WS_CONT) = WS_CONT := by split <;> rfl
      rw [e1, e2, e3, e4]
    · have hm : min len f = len := by omega
      rw [hm]
      simp only [Nat.sub_self, ne_eq, not_true_eq_false, if_false, ws_tx_chain,
        ws_tx_count_one len f hf h]
      simp [List.range_succ]

theorem ws_tx_chain_length (mode : ws_mode) (f : Nat) (r : Nat → Nat) (len : Nat)
    (buf : List Nat) (op k : Nat) :
    (ws_tx_chain mode f r len buf op k).length = max 1 ((len + f - 1) / f) := by
  simp [ws_tx_chain]

theorem ws_tx_chain_getElem? (mode : ws_mode) (f : Nat) (r : Nat → Nat) (len : Nat)
    (buf : List Nat) (op k i : Nat) (fr : ws_frame)
    (h : (ws_tx_chain mode f r len buf op k)[i]? = some fr) :
    i < max 1 ((len + f - 1) / f) ∧
    fr = ws_msg_init_tx_frame mode f (r (k + i)) (len - i * f) (buf.drop (i * f))
      (if i = 0 then op else WS_CONT) := by
  simp only [ws_tx_chain, List.getElem?_map, Option.map_eq_some'] at h
  obtain ⟨j, hj, rfl⟩ := h
  have hlt : i < (List.range (max 1 ((len + f - 1) / f))).length := by
    by_contra hc
    rw [List.getElem?_eq_none (by omega)] at hj
    cases hj
  rw [List.getElem?_eq_getElem hlt, List.getElem_range] at hj
  cases hj
  exact ⟨by simpa using hlt, rfl⟩

theorem ws_tx_chain_cons (mode : ws_mode) (f : Nat) (r : Nat → Nat) (len : Nat)
    (buf : List Nat) (op k : Nat) (hf : 1 ≤ f) (h : f < len) :
    ws_tx_chain mode f r len buf op k =
      ws_msg_init_tx_frame mode f (r k) len buf op ::
        ws_tx_chain mode f r (len - f) (buf.drop f) WS_CONT (k + 1) := by
  have h1 := ws_msg_init_tx_loop_eq mode f r hf (len + 1) len buf op k (by omega)
  rw [ws_msg_init_tx_loop] at h1
  simp only [txf_len] at h1
  have hm : min len f = f := by omega
  have h0 : len - f ≠ 0 := by omega
  rw [hm, if_pos h0, ws_msg_init_tx_loop_eq mode f r hf len (len - f) _ _ _ (by omega)] at h1
  simpa using h1.symm

theorem ws_tx_chain_single (mode : ws_mode) (f : Nat) (r : Nat → Nat) (len : Nat)
    (buf : List Nat) (op k : Nat) (hf : 1 ≤ f) (h : len ≤ f) :
    ws_tx_chain mode f r len buf op k = [ws_msg_init_tx_frame mode f (r k) len buf op] := by
  simp [ws_tx_chain, ws_tx_count_one len f hf h, List.range_succ]

theorem txf_unmask_payload (mode : ws_mode) (f r len : Nat) (buf : List Nat) (op : Nat) :
    (ws_unmask_frame (ws_msg_init_tx_frame mode f r len buf op)).payload =
      buf.take (min len f) := by
  cases mode
  · rw [txf_dial]
    simp [ws_unmask_frame, ws_frame.payload, ws_xor_loop_twice, ws_xor_loop_take]
  · rw [txf_listen]
    simp [ws_unmask_frame, ws_frame.payload]

theorem ws_tx_chain_len_sum (mode : ws_mode) (f : Nat) (r : Nat → Nat) (hf : 1 ≤ f) (len : Nat)
    (buf : List Nat) (op k : Nat) :
    ((ws_tx_chain mode f r len buf op k).map ws_frame.len).sum = len := by
  induction len using Nat.strong_induction_on generalizing buf op k with
  | _ len ih =>
    rcases Nat.lt_or_ge f len with h | h
    · rw [ws_tx_chain_cons mode f r len buf op k hf h]
      simp only [List.map_cons, List.sum_cons, txf_len]
      rw [ih (len - f) (by omega)]
      omega
    · rw [ws_tx_chain_single mode f r len buf op k hf h]
      simp only [List.map_cons, List.sum_cons, txf_len, List.map_nil, List.sum_nil]
      omega

theorem ws_msg_init_tx_eq (ws : nni_ws) (r : Nat → Nat) (msg : nni_msg) (aio : Option Nat)
    (hf : 1 ≤ ws.fragsize) :
    ws_msg_init_tx ws r msg aio =
      some { frames := ws_tx_chain ws.mode ws.fragsize r (ws_msg_init_tx_msg msg).body.length
               (ws_msg_init_tx_msg msg).body WS_BINARY 0,
             msg := some (ws_msg_init_tx_msg msg), aio := aio } := by
  simp only [ws_msg_init_tx]
  rw [ws_msg_init_tx_loop_eq ws.mode ws.fragsize r hf _ _ _ _ _ (by omega)]
  rfl

theorem ws_tx_not_last (n f i : Nat) (h : i + 1 < max 1 ((n + f - 1) / f)) (hf : 1 ≤ f) :
    (i + 1) * f < n := by
  have h1 : i + 2 ≤ (n + f - 1) / f := by omega
  rw [Nat.le_div_iff_mul_le (by omega : 0 < f)] at h1
  have : (i + 2) * f = (i + 1) * f + f := by rw [Nat.add_mul (i+1) 1 f]; omega
  omega

/-- Claim C2 (fragment sizes).  For every message, with `n` the length of the
body that `ws_msg_init_tx` fragments (the header block moved in front of the
caller's body) and every `fragsize = f >= 1`: `ws_msg_init_tx` returns a message
with exactly `max 1 (ceil (n / f))` frames; frame `i` has length
`min (n - i * f) f` and carries, once unmasked, exactly the body bytes from
offset `i * f` on; every frame but the last has length `f`; the lengths sum to
`n`; an empty body gives exactly one frame of length 0; a body of 3 MiB with
`f` = 1 MiB gives exactly three frames. -/
theorem ws_msg_init_tx_fragment_sizes (ws : nni_ws) (r : Nat → Nat) (msg : nni_msg)
    (aio : Option Nat) (hf : 1 ≤ ws.fragsize) :
    ∃ wm, ws_msg_init_tx ws r msg aio = some wm ∧
      wm.frames.length =
        max 1 (((ws_msg_init_tx_msg msg).body.length + ws.fragsize - 1) / ws.fragsize) ∧
      (∀ i fr, wm.frames[i]? = some fr →
        fr.len = min ((ws_msg_init_tx_msg msg).body.length - i * ws.fragsize) ws.fragsize ∧
        (ws_unmask_frame fr).payload =
          ((ws_msg_init_tx_msg msg).body.drop (i * ws.fragsize)).take fr.len ∧
        (i + 1 < wm.frames.length → fr.len = ws.fragsize)) ∧
      (wm.frames.map ws_frame.len).sum = (ws_msg_init_tx_msg msg).body.length ∧
      ((ws_msg_init_tx_msg msg).body = [] → ∃ fr, wm.frames = [fr] ∧ fr.len = 0) ∧
      ((ws_msg_init_tx_msg msg).body.length = 3 * 2 ^ 20 → ws.fragsize = 2 ^ 20 →
        wm.frames.length = 3) := by
  refine ⟨_, ws_msg_init_tx_eq ws r msg aio hf, ?_, ?_, ?_, ?_, ?_⟩
  · exact ws_tx_chain_length _ _ _ _ _ _ _
  · intro i fr h
    obtain ⟨hi, rfl⟩ := ws_tx_chain_getElem? _ _ _ _ _ _ _ _ _ h
    refine ⟨txf_len _ _ _ _ _ _, ?_, ?_⟩
    · rw [txf_unmask_payload, txf_len]
    · intro hlast
      simp only [ws_tx_chain_length] at hlast
      have := ws_tx_not_last _ _ _ hlast hf
      rw [txf_len]
      have e : (i + 1) * ws.fragsize = i * ws.fragsize + ws.fragsize := by
        rw [Nat.add_mul]; omega
      omega
  · exact ws_tx_chain_len_sum _ _ _ hf _ _ _ _
  · intro hb
    refine ⟨ws_msg_init_tx_frame ws.mode ws.fragsize (r 0) 0 [] WS_BINARY, ?_, ?_⟩
    · simp only
      rw [hb]
      exact ws_tx_chain_single _ _ _ _ _ _ _ hf (by simp)
    · rw [txf_len]; simp
  · intro hn hfr
    simp only [ws_tx_chain_length]
    rw [hn, hfr]
    norm_num

theorem ws_bit7_clear : ∀ x, x < 128 → x &&& 0x80 = 0 ∧ x &&& 0x7f = x ∧
    (x ||| 0x80) &&& 0x7f = x ∧ (x ||| 0x80) &&& 0x80 = 0x80 := by
  decide

theorem memcpy_length (dst : List Nat) (off : Nat) (src : List Nat) :
    (memcpy dst off src).length = dst.length := by
  induction src generalizing dst off with
  | nil => rfl
  | cons b bs ih => simp [memcpy, ih]

theorem memcpy_getElem?_lt (dst : List Nat) (off : Nat) (src : List Nat) (i : Nat)
    (h : i < off) : (memcpy dst off src)[i]? = dst[i]? := by
  induction src generalizing dst off with
  | nil => rfl
  | cons b bs ih =>
    rw [memcpy, ih _ _ (by omega), List.getElem?_set_ne (by omega)]

theorem ws_unmask_frame_idem (fr : ws_frame) :
    ws_unmask_frame (ws_unmask_frame fr) = ws_unmask_frame fr := by
  cases hm : fr.masked <;> simp [ws_unmask_frame, hm]

theorem ws_and_7f_80 (x : Nat) : x &&& 0x7f &&& 0x80 = 0 := by
  rw [Nat.land_assoc]
  have : (0x7f : Nat) &&& 0x80 = 0 := by decide
  rw [this, Nat.and_zero]

/-- Claim C6 (unmasking is its own inverse).  For every key and every frame
whose `masked` flag is clear (the state of every frame handed to
`ws_mask_frame`), `ws_mask_frame` followed by `ws_unmask_frame` restores the
payload buffer and so every payload byte, the payload length, the header length
and the `masked` flag, and leaves the mask bit of header byte 1 clear (header
byte 1 is restored when the header has its two fixed bytes and the bit was clear
before); applying the XOR loop twice with the same key gives back any buffer;
and `ws_unmask_frame` is idempotent on every frame. -/
theorem ws_mask_unmask_inverse (r : Nat) (fr : ws_frame) (hm : fr.masked = false) :
    (ws_unmask_frame (ws_mask_frame r fr)).buf = fr.buf ∧
    (ws_unmask_frame (ws_mask_frame r fr)).payload = fr.payload ∧
    (ws_unmask_frame (ws_mask_frame r fr)).len = fr.len ∧
    (ws_unmask_frame (ws_mask_frame r fr)).hlen = fr.hlen ∧
    (ws_unmask_frame (ws_mask_frame r fr)).masked = false ∧
    (ws_unmask_frame (ws_mask_frame r fr)).head.getD 1 0 &&& 0x80 = 0 ∧
    (2 ≤ fr.hlen → fr.head.getD 1 0 < 128 →
      (ws_unmask_frame (ws_mask_frame r fr)).head.getD 1 0 = fr.head.getD 1 0) ∧
    (∀ mask len buf, ws_xor_loop mask len 0 (ws_xor_loop mask len 0 buf) = buf) ∧
    (∀ g : ws_frame, ws_unmask_frame (ws_unmask_frame g) = ws_unmask_frame g) := by
  have hbuf : (ws_unmask_frame (ws_mask_frame r fr)).buf = fr.buf := by
    simp only [ws_mask_frame, ws_unmask_frame, hm]
    cases fr.buf <;> simp [ws_xor_loop_twice]
  refine ⟨hbuf, ?_, ?_, ?_, ?_, ?_, ?_, ?_, ws_unmask_frame_idem⟩
  · simp only [ws_frame.payload, hbuf]
    simp [ws_mask_frame, ws_unmask_frame, hm]
  · simp [ws_mask_frame, ws_unmask_frame, hm]
  · simp [ws_mask_frame, ws_unmask_frame, hm]
  · simp [ws_mask_frame, ws_unmask_frame, hm]
  · simp only [ws_mask_frame, ws_unmask_frame, hm, Bool.false_eq_true, if_false,
      Bool.not_true, List.getD_eq_getElem?_getD]
    by_cases hl : 1 < fr.head.length
    · simp [List.getElem?_set, memcpy_length, hl, ws_and_7f_80]
    · simp [List.getElem?_set, memcpy_length, hl]
  · intro h2 h128
    have hb := ws_bit7_clear _ h128
    simp only [ws_mask_frame, ws_unmask_frame, hm, Bool.false_eq_true, if_false,
      Bool.not_true, List.getD_eq_getElem?_getD] at hb ⊢
    by_cases hl : 1 < fr.head.length
    · rw [List.getElem?_eq_getElem hl] at hb
      simp only [Option.getD_some] at hb
      simp [List.getElem?_set, memcpy_length, hl, memcpy_getElem?_lt _ _ _ 1 h2, hb.2.2.1]
    · have hn : fr.head[1]? = none := List.getElem?_eq_none (by omega)
      simp [List.getElem?_set, memcpy_length, hl, memcpy_getElem?_lt _ _ _ 1 h2, hn]
  · intro mask len buf
    exact ws_xor_loop_twice mask len buf 0

theorem memcpy_getElem? (dst : List Nat) (off : Nat) (src : List Nat) (i : Nat) :
    (memcpy dst off src)[i]? =
      if off ≤ i ∧ i < off + src.length ∧ i < dst.length then src[i - off]? else dst[i]? := by
  induction src generalizing dst off with
  | nil =>
    rw [memcpy, if_neg]
    simp only [List.length_nil]
    omega
  | cons b bs ih =>
    rw [memcpy, ih]
    by_cases h1 : off + 1 ≤ i
    · have e : i - off = (i - (off + 1)) + 1 := by omega
      by_cases h2 : i < off + 1 + bs.length ∧ i < dst.length
      · have h3 : off ≤ i ∧ i < off + (b :: bs).length ∧ i < dst.length := by
          simp only [List.length_cons]; omega
        rw [if_pos ⟨h1, by simpa using h2⟩, if_pos h3, e, List.getElem?_cons_succ]
      · have h3 : ¬ (off ≤ i ∧ i < off + (b :: bs).length ∧ i < dst.length) := by
          simp only [List.length_cons]; omega
        rw [if_neg (by simp only [List.length_set]; omega), if_neg h3,
          List.getElem?_set_ne (by omega)]
    · rw [if_neg (by omega)]
      by_cases h2 : off = i
      · subst h2
        by_cases h3 : off < dst.length
        · rw [if_pos (by simp only [List.length_cons]; omega)]
          simp [List.getElem?_set, h3]
        · rw [if_neg (by omega)]
          have h4 : dst.length ≤ off := by omega
          simp [List.getElem?_set, h3, h4]
      · rw [if_neg (by omega), List.getElem?_set_ne h2]

theorem ws_start_write_rxaio (ws : nni_ws) : (ws_start_write ws).rxaio = ws.rxaio := by
  unfold ws_start_write
  split
  · rfl
  · split
    · rfl
    · split <;> rfl

theorem ws_start_write_closed (ws : nni_ws) : (ws_start_write ws).closed = ws.closed := by
  unfold ws_start_write
  split
  · rfl
  · split
    · rfl
    · split <;> rfl

theorem ws_send_close_rxaio (e : ws_env) (ws : nni_ws) (code : Nat) :
    (ws_send_close e ws code).rxaio = ws.rxaio := by
  unfold ws_send_close
  simp only [ws_msg_init_control]
  split_ifs <;> simp [ws_start_write_rxaio]

theorem ws_send_close_closed (e : ws_env) (ws : nni_ws) (code : Nat) :
    (ws_send_close e ws code).closed = true := by
  unfold ws_send_close
  simp only [ws_msg_init_control]
  split_ifs <;> simp_all [ws_start_write_closed]

theorem ws_close_rxaio (e : ws_env) (ws : nni_ws) (code : Nat) :
    (ws_close e ws code).rxaio = ws.rxaio := by
  unfold ws_close
  simp only
  split_ifs <;> simp [ws_send_close_rxaio]

theorem ws_close_closed (e : ws_env) (ws : nni_ws) (code : Nat) :
    (ws_close e ws code).closed = true := by
  unfold ws_close
  simp only
  split_ifs with h
  · exact ws_send_close_closed _ _ _
  · simpa using h

theorem ws_close_rxmsgs (e : ws_env) (ws : nni_ws) (code : Nat) :
    (ws_close e ws code).rxmsgs = [] := by
  unfold ws_close ws_send_close ws_start_write
  simp only [ws_msg_init_control]
  split_ifs <;> try rfl
  all_goals (split <;> try rfl)

theorem ws_read_cb_parse_hlen_ne (fr : ws_frame) : (ws_read_cb_parse fr).hlen ≠ 0 := by
  unfold ws_read_cb_parse
  simp only
  split_ifs <;> simp

theorem ws_read_cb_parse_buf (fr : ws_frame) : (ws_read_cb_parse fr).buf = fr.buf := by
  unfold ws_read_cb_parse
  simp only
  split_ifs <;> simp

theorem ws_read_cb_first (e : ws_env) (ws : nni_ws) (fr : ws_frame)
    (h : ws.rxframe = some fr) (hz : fr.hlen = 0) (hb : fr.buf = none) :
    ws_read_cb e 0 ws =
      if (ws_read_cb_parse fr).hlen ≠ 2 then
        { ws with
            rxframe := some (ws_read_cb_parse fr),
            rxaio := some (ws_iov_buf.frame_head 2, (ws_read_cb_parse fr).hlen - 2),
            trace := ws.trace ++
              [ws_event.nni_http_read_full (ws_iov_buf.frame_head 2)
                ((ws_read_cb_parse fr).hlen - 2)] }
      else
        ws_read_cb_size e { ws with rxframe := some (ws_read_cb_parse fr) }
          (ws_read_cb_parse fr) := by
  have hpb : (ws_read_cb_parse fr).buf = none := by rw [ws_read_cb_parse_buf, hb]
  unfold ws_read_cb
  simp only [h, hz, hpb, ne_eq, not_true_eq_false, if_false, if_true]

theorem ws_read_cb_second (e : ws_env) (ws : nni_ws) (fr : ws_frame)
    (h : ws.rxframe = some fr) (hz : fr.hlen ≠ 0) (hb : fr.buf = none) :
    ws_read_cb e 0 ws = ws_read_cb_size e ws fr := by
  unfold ws_read_cb
  simp only [h, hz, hb, ne_eq, not_true_eq_false, if_false, if_true]

theorem ws_read_cb_third (e : ws_env) (ws : nni_ws) (fr : ws_frame)
    (h : ws.rxframe = some fr) (hz : fr.hlen ≠ 0) (hb : fr.buf ≠ none) :
    ws_read_cb e 0 ws = ws_read_cb_complete e ws fr := by
  unfold ws_read_cb
  simp only [h, hz, hb, ne_eq, not_true_eq_false, if_false, if_true]

theorem ws_read_cb_parse_head (fr : ws_frame) : (ws_read_cb_parse fr).head = fr.head := by
  unfold ws_read_cb_parse
  simp only
  split_ifs <;> simp

theorem ws_rx_events_append (s t : List ws_event) :
    ws_rx_events (s ++ t) = ws_rx_events s ++ ws_rx_events t := by
  simp [ws_rx_events]

theorem ws_rx_events_close_msgs (l : List ws_msg) : ws_rx_events (ws_close_msgs l) = [] := by
  induction l with
  | nil => rfl
  | cons wm rest ih =>
    rw [ws_close_msgs, ws_rx_events_append, ih]
    cases wm.aio <;> rfl

theorem ws_start_write_rx (ws : nni_ws) :
    (ws_start_write ws).rxframe = ws.rxframe ∧ (ws_start_write ws).rxmsgs = ws.rxmsgs ∧
    (ws_start_write ws).mode = ws.mode ∧ (ws_start_write ws).maxframe = ws.maxframe ∧
    ws_rx_events (ws_start_write ws).trace = ws_rx_events ws.trace := by
  unfold ws_start_write
  split
  · simp
  · split
    · simp
    · split
      · simp
      · simp [ws_rx_events_append, ws_rx_events]

theorem ws_send_close_rx (e : ws_env) (ws : nni_ws) (code : Nat) :
    (ws_send_close e ws code).rxframe = ws.rxframe ∧
    (ws_send_close e ws code).rxmsgs = ws.rxmsgs ∧
    (ws_send_close e ws code).mode = ws.mode ∧
    (ws_send_close e ws code).maxframe = ws.maxframe ∧
    ws_rx_events (ws_send_close e ws code).trace = ws_rx_events ws.trace := by
  unfold ws_send_close
  simp only [ws_msg_init_control]
  split_ifs
  all_goals first
    | (simp [ws_rx_events_append, ws_rx_events]; done)
    | (simp only [ws_start_write_rx]; simp)

theorem ws_close_rx (e : ws_env) (ws : nni_ws) (code : Nat) :
    (ws_close e ws code).rxframe = ws.rxframe ∧
    (ws_close e ws code).mode = ws.mode ∧
    (ws_close e ws code).maxframe = ws.maxframe ∧
    ws_rx_events (ws_close e ws code).trace = ws_rx_events ws.trace := by
  have hs : ∀ t, ws_rx_events (ws_event.ws_close code :: t) = ws_rx_events t := fun _ => rfl
  unfold ws_close
  simp only
  split_ifs
  · simp only [ws_send_close_rx]
    simp [ws_rx_events_append, ws_rx_events_close_msgs, hs]
  · simp [ws_rx_events_append, ws_rx_events_close_msgs, hs]

theorem ws_getD_drop (l : List Nat) (n j : Nat) : (l.drop n).getD j 0 = l.getD (n + j) 0 := by
  simp [List.getD_eq_getElem?_getD, List.getElem?_drop]

theorem ws_read_cb_mask_plain (e : ws_env) (ws : nni_ws) (fr : ws_frame)
    (h : fr.masked = false) :
    ws_read_cb_mask e ws fr =
      if ws.mode = NNI_EP_MODE_LISTEN then ws_close e ws WS_CLOSE_PROTOCOL_ERR
      else ws_read_cb_data e ws fr := by
  unfold ws_read_cb_mask
  rw [if_neg (by simp [h])]

theorem ws_read_cb_data_eq (e : ws_env) (ws : nni_ws) (fr : ws_frame) (h : fr.len ≠ 0) :
    ws_read_cb_data e ws fr =
      { ws with
          rxframe := some (ws_rx_alloc fr),
          rxaio := some (ws_iov_buf.frame_buf, fr.len),
          trace := ws.trace ++ [ws_event.nni_http_read_full ws_iov_buf.frame_buf fr.len] } := by
  unfold ws_read_cb_data ws_rx_alloc
  rw [if_pos h]
  simp only
  split_ifs <;> rfl

theorem ws_rx_alloc_fields (fr : ws_frame) :
    (ws_rx_alloc fr).len = fr.len ∧ (ws_rx_alloc fr).hlen = fr.hlen ∧
    (ws_rx_alloc fr).op = fr.op ∧ (ws_rx_alloc fr).final = fr.final ∧
    (ws_rx_alloc fr).masked = fr.masked ∧ (ws_rx_alloc fr).mask = fr.mask ∧
    ∃ n, fr.len ≤ n ∧ (ws_rx_alloc fr).buf = some (List.replicate n 0) := by
  unfold ws_rx_alloc
  split_ifs with h
  · exact ⟨rfl, rfl, rfl, rfl, rfl, rfl, 125, by omega, rfl⟩
  · exact ⟨rfl, rfl, rfl, rfl, rfl, rfl, fr.len, by omega, rfl⟩

theorem memcpy_eq_append (dst src : List Nat) (off : Nat) (h : off + src.length ≤ dst.length) :
    memcpy dst off src = dst.take off ++ src ++ dst.drop (off + src.length) := by
  apply List.ext_getElem?
  intro i
  rw [memcpy_getElem?]
  by_cases h1 : i < off
  · rw [if_neg (by omega), List.append_assoc,
      List.getElem?_append_left (by simp only [List.length_take]; omega),
      List.getElem?_take, if_pos h1]
  · by_cases h2 : i < off + src.length
    · rw [if_pos (by omega), List.append_assoc,
        List.getElem?_append_right (by simp only [List.length_take]; omega),
        List.getElem?_append_left (by simp only [List.length_take]; omega)]
      simp only [List.length_take]
      have : min off dst.length = off := by omega
      rw [this]
    · rw [if_neg (by omega),
        List.getElem?_append_right (by simp only [List.length_append, List.length_take]; omega),
        List.getElem?_drop]
      simp only [List.length_append, List.length_take]
      have : off + src.length + (i - (min off dst.length + src.length)) = i := by omega
      rw [this]

theorem ws_unmask_frame_fields (fr : ws_frame) :
    (ws_unmask_frame fr).op = fr.op ∧ (ws_unmask_frame fr).final = fr.final ∧
    (ws_unmask_frame fr).len = fr.len := by
  unfold ws_unmask_frame
  split_ifs <;> exact ⟨rfl, rfl, rfl⟩

theorem ws_read_frame_done_rxframe (ws : nni_ws) :
    (ws_read_frame_done ws).rxframe = ws.rxframe := by
  unfold ws_read_frame_done
  split
  · rfl
  · split
    · rfl
    · split <;> rfl

theorem ws_start_read_rxframe (ws : nni_ws) (h : ws.rxframe = none) :
    (ws_start_read ws).rxframe = none ∨ (ws_start_read ws).rxframe = some ws_frame_zalloc := by
  unfold ws_start_read
  split_ifs
  · exact Or.inl h
  · split
    · exact Or.inl h
    · exact Or.inr rfl

theorem ws_read_frame_copy_eq (frames : List ws_frame) (dst : List Nat) (off : Nat)
    (hlen : ∀ fr ∈ frames, fr.payload.length = fr.len)
    (hfit : off + (frames.map ws_frame.len).sum ≤ dst.length) :
    ws_read_frame_copy dst off frames =
      dst.take off ++ (frames.map ws_frame.payload).flatten ++
        dst.drop (off + (frames.map ws_frame.len).sum) := by
  induction frames generalizing dst off with
  | nil => simp [ws_read_frame_copy]
  | cons fr rest ih =>
    have h1 : fr.payload.length = fr.len := hlen fr (List.mem_cons_self _ _)
    simp only [List.map_cons, List.sum_cons] at hfit
    rw [ws_read_frame_copy, ih _ _ (fun g hg => hlen g (List.mem_cons_of_mem _ hg))
      (by rw [memcpy_length]; omega)]
    rw [memcpy_eq_append _ _ _ (by omega)]
    simp only [List.map_cons, List.flatten_cons, List.sum_cons, List.append_assoc]
    have e1 : (dst.take off ++ (fr.payload ++ dst.drop (off + fr.payload.length))).take
        (off + fr.len) = dst.take off ++ fr.payload := by
      rw [← List.append_assoc, List.take_append_of_le_length
        (by simp only [List.length_append, List.length_take]; omega)]
      rw [List.take_of_length_le
        (by simp only [List.length_append, List.length_take]; omega)]
    have e2 : (dst.take off ++ (fr.payload ++ dst.drop (off + fr.payload.length))).drop
        (off + fr.len + (rest.map ws_frame.len).sum) =
        dst.drop (off + (fr.len + (rest.map ws_frame.len).sum)) := by
      rw [← List.append_assoc, List.drop_append_eq_append_drop]
      rw [List.drop_of_length_le
        (by simp only [List.length_append, List.length_take]; omega)]
      simp only [List.length_append, List.length_take, List.nil_append, List.drop_drop]
      congr 1
      omega
    rw [e1, e2]
    simp only [List.append_assoc]

theorem ws_rx_frames_cons (e : ws_env) (ws : nni_ws) (fr : ws_frame) (rest : List ws_frame) :
    ws_rx_frames e ws (fr :: rest) = ws_rx_frames e (ws_rx_frame e ws fr.wire) rest := rfl

theorem ws_rx_frames_nil (e : ws_env) (ws : nni_ws) : ws_rx_frames e ws [] = ws := rfl

/-- Claim C7 (accept key), at the RFC 6455 vector.  For the key
`dGhlIHNhbXBsZSBub25jZQ==`, `ws_make_accept` returns 0 and the string
`BXhwxM0SZasKmCD9S4BfpPmCnEw=`: the Base64 of the SHA-1 of the 16 decoded bytes
(`the sample nonce`) followed by the GUID.  The Base64 of the SHA-1 of the key
as sent followed by the GUID is `s3pPLMBiTxaQ9kYGzzhZRbK+xOo=`, the value the
claim states, and `ws_make_accept` does not produce it. -/
theorem ws_make_accept_rfc6455_vector :
    ws_make_accept (ws_str ("dGhlIHNhbXBsZSBub25jZQ==")) =
      (0, ws_str ("BXhwxM0SZasKmCD9S4BfpPmCnEw=")) ∧
    nni_base64_decode (ws_str ("dGhlIHNhbXBsZSBub25jZQ==")) 24 16 =
      some (ws_str ("the sample nonce")) ∧
    nni_base64_encode
      (nni_sha1 (ws_str ("dGhlIHNhbXBsZSBub25jZQ==") ++ WS_KEY_GUID)) 20 28 =
      ws_str ("s3pPLMBiTxaQ9kYGzzhZRbK+xOo=") ∧
    ws_make_accept (ws_str ("dGhlIHNhbXBsZSBub25jZQ==")) ≠
      (0, ws_str ("s3pPLMBiTxaQ9kYGzzhZRbK+xOo=")) := by
  decide

theorem ws_msg_init_tx_fragment_sizes_witness :
    1 ≤ ws_ex_dialer.fragsize ∧
    ∃ wm, ws_msg_init_tx ws_ex_dialer ws_ex_key ws_ex_msg (some 1) = some wm ∧
      wm.frames.length = 3 ∧ (wm.frames.map ws_frame.len).sum = 5 :=
  ⟨by decide,
    (ws_msg_init_tx_fragment_sizes ws_ex_dialer ws_ex_key ws_ex_msg (some 1) (by decide)).imp
      fun _ h => ⟨h.1, h.2.1, h.2.2.2.1⟩⟩

theorem ws_mask_unmask_inverse_witness :
    ws_ex_frame.masked = false ∧
    (ws_unmask_frame (ws_mask_frame 0x01020304 ws_ex_frame)).payload = [104, 105, 33] ∧
    (ws_unmask_frame (ws_mask_frame 0x01020304 ws_ex_frame)).hlen = 2 ∧
    (ws_unmask_frame (ws_mask_frame 0x01020304 ws_ex_frame)).head.getD 1 0 &&& 0x80 = 0 :=
  ⟨by decide,
    (ws_mask_unmask_inverse 0x01020304 ws_ex_frame (by decide)).2.1,
    (ws_mask_unmask_inverse 0x01020304 ws_ex_frame (by decide)).2.2.2.1,
    (ws_mask_unmask_inverse 0x01020304 ws_ex_frame (by decide)).2.2.2.2.2.1⟩

/-! ## Inbound frames, send and close -/

theorem ws_read_frame_done_final (ws : nni_ws) (wm : ws_msg) (rest : List ws_msg)
    (fr : ws_frame) (pre : List ws_frame) (hrx : ws.rxmsgs = wm :: rest)
    (hfr : wm.frames = pre ++ [fr]) (hfin : fr.final = true)
    (hbuf : ∀ f ∈ wm.frames, f.payload.length = f.len) :
    ws_read_frame_done ws =
      { ws with
          rxmsgs := rest,
          trace := ws.trace ++
            [ws_event.nni_aio_finish_msg wm.aio
              { header := [], body := (wm.frames.map ws_frame.payload).flatten }] } := by
  unfold ws_read_frame_done
  rw [hrx]
  simp only
  have hl : wm.frames.getLast? = some fr := by rw [hfr]; simp
  rw [hl]
  simp only [hfin, if_true]
  rw [ws_read_frame_copy_eq wm.frames _ 0 hbuf (by simp)]
  simp

theorem ws_read_frame_done_more (ws : nni_ws) (wm : ws_msg) (rest : List ws_msg)
    (fr : ws_frame) (pre : List ws_frame) (hrx : ws.rxmsgs = wm :: rest)
    (hfr : wm.frames = pre ++ [fr]) (hfin : fr.final = false) :
    ws_read_frame_done ws = ws := by
  unfold ws_read_frame_done
  rw [hrx]
  simp only
  have hl : wm.frames.getLast? = some fr := by rw [hfr]; simp
  rw [hl]
  simp [hfin]

theorem ws_payload_flatten_length (frames : List ws_frame)
    (hbuf : ∀ f ∈ frames, f.payload.length = f.len) :
    ((frames.map ws_frame.payload).flatten).length = (frames.map ws_frame.len).sum := by
  induction frames with
  | nil => rfl
  | cons f rest ih =>
    simp only [List.map_cons, List.flatten_cons, List.length_append, List.sum_cons]
    rw [hbuf f (List.mem_cons_self _ _), ih (fun g hg => hbuf g (List.mem_cons_of_mem _ hg))]

/-- Claim C12 (message assembly).  Let `ws_read_frame_cb` accept a data frame
for the head receive message `wm` (a binary frame when `wm` holds no frame, a
continuation frame when it holds some), every frame involved having a buffer
that holds its `len` payload bytes.  If the frame is final, the head receiver is
removed from the receive queue and its handle is completed with a message
whose body is the concatenation, in arrival order, of the payloads of all the
frames gathered for it, this frame last, and whose length is the sum of their
payload lengths.  If the frame is not final, no call is made (the trace is
unchanged, so no receiver is completed) and the receiver stays at the head of
the queue, now holding the frame. -/
theorem ws_read_frame_cb_assembly (e : ws_env) (ws : nni_ws) (frame : ws_frame) (wm : ws_msg)
    (rest : List ws_msg) (hrx : ws.rxmsgs = wm :: rest)
    (hop : (frame.op = WS_BINARY ∧ wm.frames = []) ∨ (frame.op = WS_CONT ∧ wm.frames ≠ []))
    (hbuf : ∀ f ∈ wm.frames ++ [frame], f.payload.length = f.len) :
    (frame.final = true →
      ws_read_frame_cb e ws frame =
        { ws with
            rxframe := none,
            rxmsgs := rest,
            trace := ws.trace ++
              [ws_event.nni_aio_finish_msg wm.aio
                { header := [],
                  body := ((wm.frames ++ [frame]).map ws_frame.payload).flatten }] } ∧
      (((wm.frames ++ [frame]).map ws_frame.payload).flatten).length =
        ((wm.frames ++ [frame]).map ws_frame.len).sum) ∧
    (frame.final = false →
      ws_read_frame_cb e ws frame =
        { ws with
            rxframe := none,
            rxmsgs := { wm with frames := wm.frames ++ [frame] } :: rest }) := by
  have hstep : ws_read_frame_cb e ws frame =
      ws_read_frame_done
        { ws with
            rxframe := none,
            rxmsgs := { wm with frames := wm.frames ++ [frame] } :: rest } := by
    unfold ws_read_frame_cb
    rcases hop with ⟨h1, h2⟩ | ⟨h1, h2⟩
    · rw [if_neg (by rw [h1]; decide), if_pos h1, hrx]
      simp [h2]
    · rw [if_pos h1, hrx]
      have : wm.frames.isEmpty = false := by
        cases hf : wm.frames with
        | nil => exact absurd hf h2
        | cons _ _ => rfl
      simp [this]
  refine ⟨?_, ?_⟩
  · intro hfin
    refine ⟨?_, ws_payload_flatten_length _ hbuf⟩
    rw [hstep]
    rw [ws_read_frame_done_final _ { wm with frames := wm.frames ++ [frame] } rest frame
      wm.frames rfl rfl hfin hbuf]
  · intro hfin
    rw [hstep]
    exact ws_read_frame_done_more _ { wm with frames := wm.frames ++ [frame] } rest frame
      wm.frames rfl rfl hfin

theorem ws_read_frame_cb_assembly_witness :
    ws_read_frame_cb ws_ex_env
        { ws_ex_listener with rxmsgs := [ws_ex_rxmsg], rxframe := some ws_ex_frame }
        { ws_ex_frame with op := WS_CONT, final := true } =
      { ws_ex_listener with
          rxframe := none,
          rxmsgs := [],
          trace := [ws_event.nni_aio_finish_msg (some 5)
            { header := [], body := [104, 105, 33, 104, 105, 33] }] } :=
  ((ws_read_frame_cb_assembly ws_ex_env
      { ws_ex_listener with rxmsgs := [ws_ex_rxmsg], rxframe := some ws_ex_frame }
      { ws_ex_frame with op := WS_CONT, final := true } ws_ex_rxmsg [] rfl
      (Or.inr ⟨rfl, by decide⟩) (by decide)).1 rfl).1

theorem ws_start_write_txmsgs (ws : nni_ws) : (ws_start_write ws).txmsgs = ws.txmsgs := by
  unfold ws_start_write
  split
  · rfl
  · split
    · rfl
    · split <;> rfl

/-- Claim C13 (ping answered with an echoing pong), at the ping with the payload
`abc` arriving on a ready dialer connection that is not closed.  The message
`ws_read_frame_cb` leaves at the front of the outbound queue is the content of
the local `wm` of `ws_send_control`, which `ws_msg_init_control` does not
assign; the whole outcome is the same whatever bytes the ping carries; and the
only control frame built on the way, inside `ws_msg_init_control`, has the
length 8 (`sizeof(buf)`), not the length 3 of the ping's payload. -/
theorem ws_read_frame_cb_ping_pong :
    ws_ex_ping.payload = ws_str ("abc") ∧
    (∀ e : ws_env, (ws_read_frame_cb e ws_ex_pinged ws_ex_ping).txmsgs = [e.wm]) ∧
    (∀ (e : ws_env) (p : List Nat),
      ws_read_frame_cb e ws_ex_pinged { ws_ex_ping with buf := some p } =
        ws_read_frame_cb e ws_ex_pinged ws_ex_ping) ∧
    (∀ r : Nat,
      (ws_msg_init_control_wm r ws_ex_pinged WS_PONG 8).frames.map ws_frame.len = [8]) := by
  refine ⟨by decide, ?_, ?_, ?_⟩
  · intro e
    have h : ws_read_frame_cb e ws_ex_pinged ws_ex_ping =
        ws_read_frame_done
          { ws_send_control e ws_ex_pinged WS_PONG ws_ex_ping.buf ws_ex_ping.len with
              rxframe := none } := rfl
    rw [h]
    have h2 : ws_send_control e ws_ex_pinged WS_PONG ws_ex_ping.buf ws_ex_ping.len =
        ws_start_write { ws_ex_pinged with txmsgs := [e.wm] } := rfl
    rw [h2]
    unfold ws_read_frame_done
    simp only [ws_start_write_txmsgs]
    have h3 : (ws_start_write { ws_ex_pinged with txmsgs := [e.wm] }).rxmsgs =
        [ws_msg_init_rx (some 5)] := by
      unfold ws_start_write
      split
      · rfl
      · split
        · rfl
        · split <;> rfl
    simp only [h3]
    rfl
  · intro e p
    rfl
  · intro r
    unfold ws_msg_init_control_wm
    simp only [ws_ex_pinged, ws_ex_dialer, ws_init, if_true]
    unfold ws_mask_frame
    simp [ws_frame_zalloc]

/-- Claim C14 (local close sends a close frame), for every connection that is
not closed and every code.  When the close handle starts (`nni_aio_start`
returns 0), `ws_close` (whose call is recorded with its code) marks the
connection closed and drops the pending receivers, and that is all: the
outbound queue and the tx slot are as before, so no close frame is queued and
no write is started.  When `nni_aio_start`
returns nonzero, the message put at the head of the outbound queue is the
content of the local `wm` of `ws_send_close`, which `ws_msg_init_control` does
not assign. -/
theorem ws_close_no_close_frame (e : ws_env) (ws : nni_ws) (code : Nat)
    (hcl : ws.closed = false) :
    (e.start = 0 →
      ws_close e ws code =
        { ws with
            closed := true, rxmsgs := [],
            trace := ws.trace ++ [ws_event.ws_close code] ++ ws_close_msgs ws.rxmsgs }) ∧
    (e.start ≠ 0 → (ws_close e ws code).txmsgs = e.wm :: ws.txmsgs) := by
  refine ⟨?_, ?_⟩
  · intro hst
    unfold ws_close ws_send_close
    simp [hcl, hst]
  · intro hst
    unfold ws_close ws_send_close
    simp [hcl, hst, ws_msg_init_control, ws_start_write_txmsgs]

theorem ws_close_no_close_frame_witness :
    ws_close ws_ex_env { ws_ex_listener with txmsgs := [ws_ex_txmsg] } WS_CLOSE_NORMAL_CLOSE =
      { ws_ex_listener with
          txmsgs := [ws_ex_txmsg], closed := true,
          trace := [ws_event.ws_close WS_CLOSE_NORMAL_CLOSE] } :=
  (ws_close_no_close_frame ws_ex_env { ws_ex_listener with txmsgs := [ws_ex_txmsg] }
    WS_CLOSE_NORMAL_CLOSE rfl).1 rfl

/-- Claim C15 (send after close).  On a connection with `closed = true` (and
`fragsize >= 1`, so that `ws_msg_init_tx` returns), `nni_ws_send_msg` for a
caller handle that starts (`nni_aio_start` returns 0) completes that handle
with `NNG_ECLOSED`, once, and changes nothing else: the outbound queue and the
tx slot are as before, the message is not queued and no write is started.  For
a handle that does not start the connection is left unchanged altogether.  A
connection is in this state after `nni_ws_close`, whatever it was before. -/
theorem nni_ws_send_msg_closed (ws : nni_ws) (r : Nat → Nat) (msg : nni_msg) (aio : Nat)
    (hf : 1 ≤ ws.fragsize) (hcl : ws.closed = true) :
    nni_ws_send_msg ws r 0 msg aio =
      some { ws with trace := ws.trace ++ [ws_event.nni_aio_finish_error aio NNG_ECLOSED] } ∧
    (∀ start, start ≠ 0 → nni_ws_send_msg ws r start msg aio = some ws) ∧
    (∀ (e : ws_env) (ws0 : nni_ws), (nni_ws_close e ws0).closed = true) := by
  have h1 : nni_ws_send_msg ws r 0 msg aio =
      some { ws with trace := ws.trace ++ [ws_event.nni_aio_finish_error aio NNG_ECLOSED] } := by
    unfold nni_ws_send_msg
    rw [ws_msg_init_tx_eq ws r msg (some aio) hf]
    simp [hcl]
  refine ⟨h1, ?_, ?_⟩
  · intro start hst
    unfold nni_ws_send_msg
    rw [ws_msg_init_tx_eq ws r msg (some aio) hf]
    simp [hcl, hst]
  · intro e ws0
    exact ws_close_closed e ws0 _

theorem nni_ws_send_msg_closed_witness :
    nni_ws_send_msg (nni_ws_close ws_ex_env ws_ex_dialer) ws_ex_key 0 ws_ex_msg 7 =
      some { nni_ws_close ws_ex_env ws_ex_dialer with
        trace := (nni_ws_close ws_ex_env ws_ex_dialer).trace ++
          [ws_event.nni_aio_finish_error 7 NNG_ECLOSED] } :=
  (nni_ws_send_msg_closed (nni_ws_close ws_ex_env ws_ex_dialer) ws_ex_key ws_ex_msg 7
    (by decide) (by decide)).1

/-- Claim C16 (sends are queued in order), for every connection that is not
closed (with `fragsize >= 1`, so that `ws_msg_init_tx` returns).  When the
caller handle starts (`nni_aio_start` returns 0), `nni_ws_send_msg` leaves the
connection exactly as it was: the message is not in the outbound queue, no
write is started and the handle is not completed.  The append to the tail of
the queue and the call of `ws_start_write` are on the path taken when
`nni_aio_start` returns nonzero. -/
theorem nni_ws_send_msg_not_queued (ws : nni_ws) (r : Nat → Nat) (msg : nni_msg) (aio : Nat)
    (hf : 1 ≤ ws.fragsize) (hcl : ws.closed = false) :
    nni_ws_send_msg ws r 0 msg aio = some ws ∧
    (∀ start, start ≠ 0 →
      ∃ wm, ws_msg_init_tx ws r msg (some aio) = some wm ∧
        nni_ws_send_msg ws r start msg aio =
          some (ws_start_write { ws with txmsgs := ws.txmsgs ++ [wm] })) := by
  refine ⟨?_, ?_⟩
  · unfold nni_ws_send_msg
    rw [ws_msg_init_tx_eq ws r msg (some aio) hf]
    simp [hcl]
  · intro start hst
    refine ⟨_, ws_msg_init_tx_eq ws r msg (some aio) hf, ?_⟩
    unfold nni_ws_send_msg
    rw [ws_msg_init_tx_eq ws r msg (some aio) hf]
    simp [hcl, hst]

theorem nni_ws_send_msg_not_queued_witness :
    nni_ws_send_msg ws_ex_dialer ws_ex_key 0 ws_ex_msg 7 = some ws_ex_dialer :=
  (nni_ws_send_msg_not_queued ws_ex_dialer ws_ex_key ws_ex_msg 7 (by decide) (by decide)).1

/-! ## The server handshake -/

theorem ws_handler_res_eq (key : List Nat) (proto : Option (List Nat)) :
    ws_handler_res key proto =
      { status := 101, reason := "Switching Protocols",
        headers :=
          [("Connection", ws_str ("Upgrade")), ("Upgrade", ws_str ("websocket")),
           ("Sec-WebSocket-Accept", key)] ++
          (match proto with
            | some v => [("Sec-WebSocket-Protocol", v)]
            | none => []) } := by
  cases proto <;> rfl

theorem ws_handler_body_iff (req : nni_http_req) :
    ws_handler_has_body req = true ↔
      (∃ v, req.header ("Content-Length") = some v ∧ atoi v > 0) ∨
      (∃ v, req.header ("Transfer-Encoding") = some v ∧
        (nni_strcasestr v (ws_str ("chunked"))).isSome = true) := by
  unfold ws_handler_has_body
  cases req.header ("Content-Length") <;> cases req.header ("Transfer-Encoding") <;> simp

theorem ws_handler_headers_iff (req : nni_http_req) :
    ws_handler_headers_missing req = false ↔
      (∃ v, req.header ("Upgrade") = some v ∧
        ws_contains_word (some v) (ws_str ("websocket")) = true) ∧
      (∃ v, req.header ("Connection") = some v ∧
        ws_contains_word (some v) (ws_str ("upgrade")) = true) ∧
      req.header ("Sec-WebSocket-Version") = some (ws_str ("13")) := by
  unfold ws_handler_headers_missing
  cases req.header ("Upgrade") <;> cases req.header ("Connection") <;>
    cases req.header ("Sec-WebSocket-Version") <;> simp [and_assoc]

theorem ws_handler_proto_iff (l : nni_ws_listener) (proto : Option (List Nat)) :
    ws_handler_proto_mismatch l proto = false ↔
      (proto = none ∧ l.proto = none) ∨
      (∃ v P, proto = some v ∧ l.proto = some P ∧ ws_contains_word (some P) v = true) := by
  unfold ws_handler_proto_mismatch
  cases proto <;> cases l.proto <;> simp

theorem ws_handler_proto_err (l : nni_ws_listener) (req : nni_http_req)
    (hv : req.version = ws_str ("HTTP/1.1")) (hm : req.method = ws_str ("GET"))
    (hb : ws_handler_has_body req = false) (hh : ws_handler_headers_missing req = false)
    (k : List Nat) (hk : req.header ("Sec-WebSocket-Key") = some k)
    (h0 : (ws_make_accept k).1 = 0)
    (hp : ws_handler_proto_mismatch l (req.header ("Sec-WebSocket-Protocol")) = true) :
    ws_handler l req = ws_handler_result.err 400 := by
  unfold ws_handler
  rw [if_neg (not_not.mpr hv), if_neg (not_not.mpr hm), if_neg (by simp [hb]),
    if_neg (by simp [hh]), hk]
  simp only
  rw [if_neg (not_not.mpr h0), if_pos hp]; rfl

theorem ws_handler_passed (l : nni_ws_listener) (req : nni_http_req)
    (hv : req.version = ws_str ("HTTP/1.1")) (hm : req.method = ws_str ("GET"))
    (hb : ws_handler_has_body req = false) (hh : ws_handler_headers_missing req = false)
    (k : List Nat) (hk : req.header ("Sec-WebSocket-Key") = some k)
    (h0 : (ws_make_accept k).1 = 0)
    (hp : ws_handler_proto_mismatch l (req.header ("Sec-WebSocket-Protocol")) = false)
    (hhook : l.hookfn = none) :
    ws_handler l req =
      ws_handler_result.upgrade { l with reply := l.reply ++ [ws_init NNI_EP_MODE_LISTEN] }
        (ws_init NNI_EP_MODE_LISTEN)
        (ws_handler_res (ws_make_accept k).2 (req.header ("Sec-WebSocket-Protocol"))) := by
  unfold ws_handler
  rw [if_neg (not_not.mpr hv), if_neg (not_not.mpr hm), if_neg (by simp [hb]),
    if_neg (by simp [hh]), hk]
  simp only
  rw [if_neg (not_not.mpr h0), if_neg (by simp [hp]), hhook]
  simp only [ws_handler_upgrade, hhook]

/-! ## Word matching -/

theorem strchr_some (s : List Nat) (c : Nat) (t : List Nat) (h : strchr s c = some t) :
    ∃ u, t = c :: u ∧ u.length < s.length := by
  induction s with
  | nil => simp [strchr] at h
  | cons x xs ih =>
    unfold strchr at h
    split_ifs at h with hx
    · refine ⟨xs, ?_, by simp⟩
      rw [← hx]
      exact (Option.some.inj h).symm
    · obtain ⟨u, hu, hl⟩ := ih h
      exact ⟨u, hu, by simp only [List.length_cons]; omega⟩

theorem ws_contains_word_skip_length (s : List Nat) :
    (ws_contains_word_skip s).length ≤ s.length := by
  induction s with
  | nil => simp [ws_contains_word_skip]
  | cons x xs ih =>
    unfold ws_contains_word_skip
    split_ifs
    · simp only [List.length_cons]; omega
    · simp

/-- The loop of `ws_contains_word` returns: one pass more than `phrase` has
characters is enough. -/
theorem ws_contains_word_loop_returns (word : List Nat) (len fuel : Nat)
    (phrase : Option (List Nat)) (h : (phrase.getD []).length < fuel) :
    ∃ b, ws_contains_word_loop word len fuel phrase = some b := by
  induction fuel generalizing phrase with
  | zero => omega
  | succ fuel ih =>
    cases phrase with
    | none => exact ⟨false, by simp [ws_contains_word_loop]⟩
    | some p =>
      unfold ws_contains_word_loop
      split_ifs with h1 h2
      · exact ⟨false, rfl⟩
      · exact ⟨true, rfl⟩
      · cases hs : strchr p 32 with
        | none =>
          refine ⟨false, ?_⟩
          cases fuel <;> simp [ws_contains_word_loop]
        | some t =>
          apply ih
          obtain ⟨u, hu, hl⟩ := strchr_some p 32 t hs
          simp only [Option.map_some', Option.getD_some]
          have h3 : ws_contains_word_skip t = ws_contains_word_skip u := by
            rw [hu]
            simp [ws_contains_word_skip]
          rw [h3]
          have := ws_contains_word_skip_length u
          simp only [Option.getD_some] at h
          omega

theorem tolower_eq_zero (c : Nat) (h : tolower c = 0) : c = 0 := by
  unfold tolower at h
  split_ifs at h
  all_goals omega

theorem nni_strncasecmp_eq_zero (n : Nat) (p word : List Nat)
    (hw : ∀ c ∈ word, c ≠ 0) (hn : n ≤ word.length)
    (h : nni_strncasecmp p word n = 0) :
    n ≤ p.length ∧ (p.take n).map tolower = (word.take n).map tolower := by
  induction n generalizing p word with
  | zero => simp
  | succ n ih =>
    cases word with
    | nil => simp at hn
    | cons w ws =>
      have hw0 : tolower w ≠ 0 :=
        fun h0 => hw w (List.mem_cons_self _ _) (tolower_eq_zero w h0)
      unfold nni_strncasecmp at h
      simp only [List.headD_cons, List.tail_cons] at h
      by_cases h1 : tolower (p.headD 0) < tolower w
      · rw [if_pos h1] at h
        exact absurd h (by decide)
      · rw [if_neg h1] at h
        by_cases h2 : tolower (p.headD 0) > tolower w
        · rw [if_pos h2] at h
          exact absurd h (by decide)
        · rw [if_neg h2] at h
          have hx : tolower (p.headD 0) = tolower w := by omega
          rw [if_neg (by rw [hx]; exact hw0)] at h
          cases p with
          | nil =>
            exfalso
            have t0 : tolower (([] : List Nat).headD 0) = 0 := by decide
            rw [t0] at hx
            exact hw0 hx.symm
          | cons x xs =>
            simp only [List.headD_cons, List.tail_cons] at hx h
            obtain ⟨i1, i2⟩ := ih xs ws (fun c hc => hw c (List.mem_cons_of_mem _ hc))
              (by simpa using hn) h
            refine ⟨by simp only [List.length_cons]; omega, ?_⟩
            simp only [List.take_succ_cons, List.map_cons, hx, i2]

theorem strchr_split (s : List Nat) (c : Nat) (t : List Nat) (h : strchr s c = some t) :
    ∃ a u, s = a ++ c :: u ∧ t = c :: u := by
  induction s with
  | nil => simp [strchr] at h
  | cons x xs ih =>
    unfold strchr at h
    split_ifs at h with hx
    · refine ⟨[], xs, by simp [hx], ?_⟩
      rw [← hx]
      exact (Option.some.inj h).symm
    · obtain ⟨a, u, h1, h2⟩ := ih h
      exact ⟨x :: a, u, by simp [h1], h2⟩

theorem ws_contains_word_skip_split (u : List Nat) :
    ∃ b, u = b ++ ws_contains_word_skip u ∧ ∀ c ∈ b, c = 32 ∨ c = 44 := by
  induction u with
  | nil => exact ⟨[], by simp [ws_contains_word_skip], by simp⟩
  | cons x xs ih =>
    unfold ws_contains_word_skip
    split_ifs with hx
    · obtain ⟨b, h1, h2⟩ := ih
      refine ⟨x :: b, by simp only [List.cons_append]; rw [← h1], ?_⟩
      intro c hc
      rcases List.mem_cons.mp hc with rfl | hc
      · exact hx
      · exact h2 c hc
    · exact ⟨[], by simp, by simp⟩

theorem ws_contains_word_loop_sound (word phrase : List Nat)
    (hp : ∀ c ∈ phrase, c ≠ 0) (hw : ∀ c ∈ word, c ≠ 0) (fuel : Nat) (pre cur : List Nat)
    (hsplit : phrase = pre ++ cur)
    (hpre : pre = [] ∨ ∃ q c, pre = q ++ [c] ∧ (c = 32 ∨ c = 44))
    (h : ws_contains_word_loop word word.length fuel (some cur) = some true) :
    ws_word_bounded phrase word := by
  induction fuel generalizing pre cur with
  | zero => simp [ws_contains_word_loop] at h
  | succ fuel ih =>
    unfold ws_contains_word_loop at h
    split_ifs at h with h1 h2
    · simp at h
    · obtain ⟨hm, hend⟩ := h2
      obtain ⟨i1, i2⟩ := nni_strncasecmp_eq_zero word.length cur word hw (le_refl _) hm
      rw [List.take_length] at i2
      refine ⟨pre, cur.take word.length, cur.drop word.length, ?_, i2, hpre, ?_⟩
      · rw [List.append_assoc, List.take_append_drop, hsplit]
      · cases hd : cur.drop word.length with
        | nil => exact Or.inl rfl
        | cons c q =>
          refine Or.inr ⟨c, q, rfl, ?_⟩
          have hg : cur.getD word.length 0 = c := by
            have := ws_getD_drop cur word.length 0
            rw [hd] at this
            simpa using this.symm
          rw [hg] at hend
          have hc : c ∈ phrase := by
            rw [hsplit]
            apply List.mem_append_right
            have : c ∈ cur.drop word.length := by rw [hd]; exact List.mem_cons_self _ _
            exact List.mem_of_mem_drop this
          rcases hend with h0 | h0
          · exact absurd h0 (hp c hc)
          · exact h0
    · cases hs : strchr cur 32 with
      | none =>
        rw [hs] at h
        cases fuel <;> simp [ws_contains_word_loop] at h
      | some t =>
        rw [hs] at h
        obtain ⟨a, u, ha, ht⟩ := strchr_split cur 32 t hs
        obtain ⟨b, hb1, hb2⟩ := ws_contains_word_skip_split u
        have hsk : ws_contains_word_skip t = ws_contains_word_skip u := by
          rw [ht]; simp [ws_contains_word_skip]
        simp only [Option.map_some', hsk] at h
        refine ih (pre ++ a ++ [32] ++ b) (ws_contains_word_skip u) ?_ ?_ h
        · rw [hsplit, ha]
          simp only [List.append_assoc, List.singleton_append, List.cons_append, List.nil_append]
          rw [← hb1]
        · right
          rcases List.eq_nil_or_concat b with hb | ⟨b', c, hb⟩
          · exact ⟨pre ++ a, 32, by rw [hb]; simp, Or.inl rfl⟩
          · refine ⟨pre ++ a ++ [32] ++ b', c, by rw [hb]; simp, ?_⟩
            exact hb2 c (by rw [hb]; simp)

/-- Whenever `ws_contains_word` returns true, the word occurs in the phrase
ignoring ASCII case, bounded on each side by a comma, a space or the start or
end of the phrase. -/
theorem ws_contains_word_sound (phrase word : List Nat)
    (hp : ∀ c ∈ phrase, c ≠ 0) (hw : ∀ c ∈ word, c ≠ 0)
    (h : ws_contains_word (some phrase) word = true) :
    ws_word_bounded phrase word := by
  unfold ws_contains_word at h
  simp only [Option.getD_some] at h
  obtain ⟨b, hb⟩ := ws_contains_word_loop_returns word word.length (phrase.length + 1)
    (some phrase) (by simp)
  rw [hb] at h
  simp only [Option.getD_some] at h
  rw [h] at hb
  exact ws_contains_word_loop_sound word phrase hp hw _ [] phrase rfl (Or.inl rfl) hb

/-- Claim C20 (word-in-list matching).  Whenever `ws_contains_word` returns
true, the word occurs in the phrase ignoring ASCII case, bounded on each side by
a comma, a space or the start or end of the phrase.  The converse fails at the
claim's own example: for the phrase `keep-alive,Upgrade` and the word `upgrade`
the function returns false, although the phrase split at commas and spaces has
the word `Upgrade`; after a failed comparison the function moves on to the next
space only, so a word that follows a comma directly is never compared.  With a
space after the comma the word is found, and `websocket2` does not contain
`websocket`. -/
theorem ws_contains_word_comma_separated :
    (∀ phrase word : List Nat, (∀ c ∈ phrase, c ≠ 0) → (∀ c ∈ word, c ≠ 0) →
      ws_contains_word (some phrase) word = true → ws_word_bounded phrase word) ∧
    ws_contains_word (some (ws_str ("keep-alive,Upgrade"))) (ws_str ("upgrade")) = false ∧
    ws_words (ws_str ("keep-alive,Upgrade")) = [ws_str ("keep-alive"), ws_str ("Upgrade")] ∧
    ws_contains_word_spec (ws_str ("keep-alive,Upgrade")) (ws_str ("upgrade")) = true ∧
    ws_contains_word (some (ws_str ("keep-alive, Upgrade"))) (ws_str ("upgrade")) = true ∧
    ws_contains_word (some (ws_str ("websocket2"))) (ws_str ("websocket")) = false ∧
    ws_contains_word_spec (ws_str ("websocket2")) (ws_str ("websocket")) = false :=
  ⟨ws_contains_word_sound, by decide⟩

/-! ## Write completion and control frames -/

theorem ws_start_write_busy (ws : nni_ws) (frame : ws_frame) (h : ws.txframe = some frame) :
    ws_start_write ws = ws := by
  unfold ws_start_write
  simp [h]

/-- Claim C27 (successful write completion restarts transmission), for every
connection whose tx slot holds a frame other than a close frame, owned by the
message `wm` at position `k` of the outbound queue.  `ws_write_cb` with result
0 removes the frame from its message; a message that still has frames stays
where it is, a message left without frames is removed from the queue and its
caller, if any, is completed with success.  Transmission does not restart: the
tx slot still holds the frame just written (`ws->txframe` is not cleared), so
the `ws_start_write` that follows returns at its test for a busy slot and no
write is launched, whatever is queued. -/
theorem ws_write_cb_no_restart (ws : nni_ws) (frame : ws_frame) (k : Nat) (wm : ws_msg)
    (htx : ws.txframe = some frame) (hop : frame.op ≠ WS_CLOSE)
    (hw : ws_frame_wmsg ws.txmsgs frame = some (k, wm)) :
    (wm.frames.tail ≠ [] →
      ws_write_cb 0 ws =
        some { ws with txmsgs := ws.txmsgs.set k { wm with frames := wm.frames.tail } }) ∧
    (wm.frames.tail = [] →
      ws_write_cb 0 ws =
        some { ws with
          txmsgs := ws.txmsgs.eraseIdx k,
          trace := ws.trace ++
            (match wm.aio with
              | some aio => [ws_event.nni_aio_finish aio 0 0]
              | none => []) }) ∧
    (∃ ws', ws_write_cb 0 ws = some ws' ∧ ws'.txframe = some frame ∧
      ∀ n a b, ws_event.nni_http_write_full n a b ∈ ws'.trace →
        ws_event.nni_http_write_full n a b ∈ ws.trace) := by
  have h1 : wm.frames.tail ≠ [] →
      ws_write_cb 0 ws =
        some { ws with txmsgs := ws.txmsgs.set k { wm with frames := wm.frames.tail } } := by
    intro hne
    unfold ws_write_cb
    rw [htx]
    simp only
    rw [if_neg hop, hw]
    have he : wm.frames.tail.isEmpty = false := by
      cases h : wm.frames.tail with
      | nil => exact absurd h hne
      | cons _ _ => rfl
    simp only [ne_eq, not_true_eq_false, if_false, he, Bool.false_eq_true]
    rw [ws_start_write_busy _ frame rfl]
  have h2 : wm.frames.tail = [] →
      ws_write_cb 0 ws =
        some { ws with
          txmsgs := ws.txmsgs.eraseIdx k,
          trace := ws.trace ++
            (match wm.aio with
              | some aio => [ws_event.nni_aio_finish aio 0 0]
              | none => []) } := by
    intro he
    unfold ws_write_cb
    rw [htx]
    simp only
    rw [if_neg hop, hw]
    simp only [ne_eq, not_true_eq_false, if_false, he, List.isEmpty_nil, if_true]
    rw [ws_start_write_busy _ frame rfl]
  refine ⟨h1, h2, ?_⟩
  by_cases he : wm.frames.tail = []
  · refine ⟨_, h2 he, htx, ?_⟩
    intro n a b hmem
    simp only [List.mem_append] at hmem
    rcases hmem with hmem | hmem
    · exact hmem
    · cases ha : wm.aio with
      | none => rw [ha] at hmem; simp at hmem
      | some aio => rw [ha] at hmem; simp at hmem
  · exact ⟨_, h1 he, htx, fun n a b hmem => hmem⟩

theorem ws_write_cb_no_restart_witness :
    ws_write_cb 0 ws_ex_writing =
      some { ws_ex_writing with
        txmsgs := [{ ws_ex_txmsg2 with frames := ws_ex_txmsg2.frames.tail }, ws_ex_txmsg3] } :=
  (ws_write_cb_no_restart ws_ex_writing
    (ws_msg_init_tx_frame NNI_EP_MODE_LISTEN 2 (ws_ex_key 0) 3 (ws_str ("abc")) WS_BINARY)
    0 ws_ex_txmsg2 (by decide) (by decide) (by decide)).1 (by decide)

/-- Claim C28 (failed write completion fails everything), for every connection
whose tx slot holds a frame other than a close frame, owned by the message `wm`
of the outbound queue.  `ws_write_cb` with a result `rv != 0` marks the
connection closed, completes the caller of `wm`, if any, with `rv` and closes
the HTTP stream, and that is all: the outbound queue is as it was, `wm`
included, and no other caller is completed. -/
theorem ws_write_cb_error (ws : nni_ws) (frame : ws_frame) (k : Nat) (wm : ws_msg) (rv : Nat)
    (htx : ws.txframe = some frame) (hop : frame.op ≠ WS_CLOSE)
    (hw : ws_frame_wmsg ws.txmsgs frame = some (k, wm)) (hrv : rv ≠ 0) :
    ws_write_cb rv ws =
      some { ws with
        closed := true,
        trace := ws.trace ++
          (match wm.aio with
            | some aio => [ws_event.nni_aio_finish_error aio rv]
            | none => []) ++
          [ws_event.nni_http_close] } := by
  unfold ws_write_cb
  rw [htx]
  simp only
  rw [if_neg hop, hw]
  simp only [ne_eq, hrv, not_false_eq_true, if_true]

theorem ws_write_cb_error_witness :
    ws_write_cb 5 ws_ex_writing =
      some { ws_ex_writing with
        closed := true,
        trace := ws_ex_writing.trace ++
          [ws_event.nni_aio_finish_error 7 5, ws_event.nni_http_close] } :=
  ws_write_cb_error ws_ex_writing
    (ws_msg_init_tx_frame NNI_EP_MODE_LISTEN 2 (ws_ex_key 0) 3 (ws_str ("abc")) WS_BINARY)
    0 ws_ex_txmsg2 5 (by decide) (by decide) (by decide) (by decide)

/-- Claim C29 (exactly-once completion of sends), at two sequences of steps.
First: the write of the first frame of the message of caller 7 fails with the
result 5 and the close callback runs; `ws_write_cb` completes caller 7 with 5
and leaves its message in the queue, and `ws_close_cb` completes caller 7
again, with `NNG_ECLOSED`.  Second: on a ready connection that is not closed,
`nni_ws_send_msg` for caller 7 with a handle that starts, then `ws_close` and
`ws_close_cb`; caller 7 is never completed and its message was never in the
queue. -/
theorem ws_send_completion_not_once :
    (ws_write_cb 5 ws_ex_writing).map
        (fun ws => ws_aio_completions 7 (ws_close_cb ws).trace) =
      some [ws_event.nni_aio_finish_error 7 5, ws_event.nni_aio_finish_error 7 NNG_ECLOSED] ∧
    (ws_write_cb 5 ws_ex_writing).map (fun ws => ws.txmsgs) =
      some [ws_ex_txmsg2, ws_ex_txmsg3] ∧
    (nni_ws_send_msg ws_ex_dialer ws_ex_key 0 ws_ex_msg 7).map (fun ws => ws.txmsgs) =
      some [] ∧
    (nni_ws_send_msg ws_ex_dialer ws_ex_key 0 ws_ex_msg 7).map
        (fun ws =>
          ws_aio_completions 7 (ws_close_cb (ws_close ws_ex_env ws WS_CLOSE_NORMAL_CLOSE)).trace) =
      some [] := by
  decide

theorem ws_read_frame_cb_accept (e : ws_env) (ws : nni_ws) (frame : ws_frame) (wm : ws_msg)
    (rest : List ws_msg) (hrx : ws.rxmsgs = wm :: rest)
    (hop : frame.op = WS_CONT) (hne : wm.frames ≠ []) :
    ws_read_frame_cb e ws frame =
      ws_read_frame_done
        { ws with
            rxframe := none,
            rxmsgs := { wm with frames := wm.frames ++ [frame] } :: rest } := by
  unfold ws_read_frame_cb
  rw [if_pos hop, hrx]
  have : wm.frames.isEmpty = false := by
    cases hf : wm.frames with
    | nil => exact absurd hf hne
    | cons _ _ => rfl
  simp [this]

theorem ws_read_frame_done_nonfinal (ws : nni_ws) (wm : ws_msg) (rest : List ws_msg)
    (last : ws_frame) (hrx : ws.rxmsgs = wm :: rest)
    (hlast : wm.frames.getLast? = some last) (hnf : last.final = false) :
    ws_read_frame_done ws = ws := by
  unfold ws_read_frame_done
  rw [hrx]
  simp only
  rw [hlast]
  simp [hnf]

theorem ws_start_write_rxmsgs (ws : nni_ws) : (ws_start_write ws).rxmsgs = ws.rxmsgs := by
  unfold ws_start_write
  split
  · rfl
  · split
    · rfl
    · split <;> rfl

theorem ws_start_write_trace (ws : nni_ws) :
    ∃ evs, (ws_start_write ws).trace = ws.trace ++ evs ∧
      ∀ ev ∈ evs, ∃ n a b, ev = ws_event.nni_http_write_full n a b := by
  unfold ws_start_write
  split
  · exact ⟨[], by simp, by simp⟩
  · split
    · exact ⟨[], by simp, by simp⟩
    · split
      · exact ⟨[], by simp, by simp⟩
      · exact ⟨_, rfl, by simp⟩

theorem ws_send_control_rx (e : ws_env) (ws : nni_ws) (op : Nat) (buf : Option (List Nat))
    (len : Nat) :
    (ws_send_control e ws op buf len).rxmsgs = ws.rxmsgs ∧
    (ws_send_control e ws op buf len).closed = ws.closed ∧
    ∃ evs, (ws_send_control e ws op buf len).trace = ws.trace ++ evs ∧
      ∀ ev ∈ evs, ∃ n a b, ev = ws_event.nni_http_write_full n a b := by
  have h8 : ws_msg_init_control e.wm 8 = (0, e.wm) := by
    unfold ws_msg_init_control
    rw [if_neg (by decide)]
  unfold ws_send_control
  rw [h8]
  simp only [ne_eq, not_true_eq_false, if_false]
  split_ifs with h1
  · exact ⟨rfl, rfl, [], by simp, by simp⟩
  · simp only [ws_start_write_rxmsgs, ws_start_write_closed, true_and]
    exact ws_start_write_trace _

/-! ## Client handshake, listener, dialer and URL -/

theorem ws_contains_word_null (word : List Nat) : ws_contains_word none word = false := by
  unfold ws_contains_word
  simp [ws_contains_word_loop]

theorem ws_http_cb_dialer_refused_always (res : nni_http_res) (wskey : List Nat) :
    ws_http_cb_dialer_refused res wskey = true := by
  unfold ws_http_cb_dialer_refused
  cases h : nni_http_res_get_header res ("Connection") with
  | none => simp [ws_contains_word_null]
  | some v => simp

/-- Claim C21 (client acceptance of a 101 reply).  For every dialer (with or
without subprotocol) whose head `httpaios` caller is `uaio`, every connection
whose request carries a key `ws_make_accept` accepts, and every reply with
status 101, whatever its headers: `ws_http_cb_dialer` sends a close with code
1002 on the connection, removes `uaio` from `httpaios`, completes it with
`NNG_EPROTO` and finalises the connection.  The caller is never given the
connection: the test on the reply refuses a `Connection` header that is
present, and for one that is absent `ws_contains_word` is called with `NULL`
and finds nothing. -/
theorem ws_http_cb_dialer_never_accepts (e : ws_env) (d : nni_ws_dialer) (c : ws_dial_conn)
    (res : nni_http_res) (uaio : Nat) (rest : List Nat) (k : List Nat)
    (hq : d.httpaios = uaio :: rest) (hres : c.res = some res) (hst : res.status = 101)
    (hk : c.req.header ("Sec-WebSocket-Key") = some k) (h0 : (ws_make_accept k).1 = 0) :
    (ws_http_cb_dialer e d c 0).1 =
      { d with
          httpaios := rest,
          trace := d.trace ++
            [ws_ep_event.nni_aio_finish_error uaio NNG_EPROTO,
             ws_ep_event.nni_ws_fini (nni_ws_close_error e c.ws WS_CLOSE_PROTOCOL_ERR)] } := by
  unfold ws_http_cb_dialer
  rw [hq]
  simp only [ne_eq, not_true_eq_false, if_false, hres, hst, hk, Option.getD_some]
  rw [if_pos (by decide), if_neg (not_not.mpr h0), ws_http_cb_dialer_refused_always]
  simp [ws_http_cb_dialer_err, hq]

theorem ws_http_cb_dialer_never_accepts_witness :
    (ws_http_cb_dialer ws_ex_env ws_ex_dlr_wait
        (ws_ex_conn (ws_handler_res (ws_str ("BXhwxM0SZasKmCD9S4BfpPmCnEw=")) none)) 0).1 =
      { ws_ex_dlr_wait with
          httpaios := [],
          trace := ws_ex_dlr_wait.trace ++
            [ws_ep_event.nni_aio_finish_error 1 NNG_EPROTO,
             ws_ep_event.nni_ws_fini
               (nni_ws_close_error ws_ex_env (ws_init NNI_EP_MODE_DIAL)
                 WS_CLOSE_PROTOCOL_ERR)] } :=
  ws_http_cb_dialer_never_accepts ws_ex_env ws_ex_dlr_wait
    (ws_ex_conn (ws_handler_res (ws_str ("BXhwxM0SZasKmCD9S4BfpPmCnEw=")) none))
    (ws_handler_res (ws_str ("BXhwxM0SZasKmCD9S4BfpPmCnEw=")) none) 1 []
    (ws_str ("dGhlIHNhbXBsZSBub25jZQ==")) (by decide) rfl rfl (by decide) (by decide)

/-- Claim C22 (client mapping of non-101 replies).  For every dialer whose head
`httpaios` caller is `uaio` and every reply with a status `s` other than 101,
`ws_http_cb_dialer` removes `uaio` from `httpaios`, completes it with
`NNG_EPERM` if `s` is 401 or 403, with `NNG_ECONNREFUSED` if `s` is 404 or 405
and with `NNG_EPROTO` for every other `s`, and finalises the connection; these
are its only calls, so no connection is handed over. -/
theorem ws_http_cb_dialer_status (e : ws_env) (d : nni_ws_dialer) (c : ws_dial_conn)
    (res : nni_http_res) (uaio : Nat) (rest : List Nat)
    (hq : d.httpaios = uaio :: rest) (hres : c.res = some res) (hst : res.status ≠ 101) :
    (ws_http_cb_dialer e d c 0).1 =
      { d with
          httpaios := rest,
          trace := d.trace ++
            [ws_ep_event.nni_aio_finish_error uaio
               (if res.status = 401 ∨ res.status = 403 then NNG_EPERM
                else if res.status = 404 ∨ res.status = 405 then NNG_ECONNREFUSED
                else NNG_EPROTO),
             ws_ep_event.nni_ws_fini c.ws] } := by
  unfold ws_http_cb_dialer
  rw [hq]
  simp only [ne_eq, not_true_eq_false, if_false, hres, NNI_HTTP_STATUS_SWITCHING,
    NNI_HTTP_STATUS_FORBIDDEN, NNI_HTTP_STATUS_UNAUTHORIZED, NNI_HTTP_STATUS_NOT_FOUND,
    NNI_HTTP_STATUS_METHOD_NOT_ALLOWED]
  rw [if_neg hst]
  by_cases h1 : res.status = 403 ∨ res.status = 401
  · have h1' : res.status = 401 ∨ res.status = 403 := h1.symm
    simp only [h1, h1', if_true]
    simp [ws_http_cb_dialer_err, hq]
  · have h1' : ¬ (res.status = 401 ∨ res.status = 403) := fun h => h1 h.symm
    simp only [h1, h1', if_false]
    by_cases h2 : res.status = 404 ∨ res.status = 405
    · simp only [h2, if_true]
      simp [ws_http_cb_dialer_err, hq]
    · simp only [h2, if_false]
      simp [ws_http_cb_dialer_err, hq]

theorem ws_http_cb_dialer_status_witness :
    (ws_http_cb_dialer ws_ex_env ws_ex_dlr_wait (ws_ex_conn (ws_ex_reply 404)) 0).1 =
      { ws_ex_dlr_wait with
          httpaios := [],
          trace := ws_ex_dlr_wait.trace ++
            [ws_ep_event.nni_aio_finish_error 1 NNG_ECONNREFUSED,
             ws_ep_event.nni_ws_fini (ws_init NNI_EP_MODE_DIAL)] } :=
  ws_http_cb_dialer_status ws_ex_env ws_ex_dlr_wait (ws_ex_conn (ws_ex_reply 404))
    (ws_ex_reply 404) 1 [] (by decide) rfl (by decide)

theorem nni_ws_listener_listen_ok (env : ws_listen_env) (l : nni_ws_listener)
    (h : (nni_ws_listener_listen env l).1 = 0) :
    nni_ws_listener_listen env l = (0, l) ∧ l.started = false ∧ l.closed = false := by
  unfold nni_ws_listener_listen at h ⊢
  split_ifs at h ⊢ with h1 h2 h3 h4 h5
  · simp [NNG_ECLOSED] at h
  · simp [NNG_ESTATE] at h
  · exact absurd h h3
  · exact absurd h h4
  · exact absurd h h5
  · exact ⟨rfl, by simpa using h2, by simpa using h1⟩

/-- Claim C24 (accept on a started listener).  Whenever
`nni_ws_listener_listen` returns 0, the listener is exactly as it was before
the call, with `started` still false (the function does not set it, and no
other function does), and it is not closed.  `nni_ws_listener_accept` on that
listener, for a caller handle that starts, completes the caller with
`NNG_ESTATE` and changes nothing, whether connections are pending or not.  The
hand-over of the oldest pending connection and the queueing of the caller
behind the earlier ones are on the path for a listener whose `started` flag is
set. -/
theorem nni_ws_listener_accept_after_listen (env : ws_listen_env) (l : nni_ws_listener)
    (aio : Nat) (h : (nni_ws_listener_listen env l).1 = 0) :
    (nni_ws_listener_listen env l).2 = l ∧
    (nni_ws_listener_listen env l).2.started = false ∧
    nni_ws_listener_accept (nni_ws_listener_listen env l).2 0 aio =
      ((nni_ws_listener_listen env l).2, [ws_ep_event.nni_aio_finish_error aio NNG_ESTATE]) ∧
    (∀ l' : nni_ws_listener, l'.started = true → l'.closed = false →
      (∀ ws rest, l'.pend = ws :: rest →
        nni_ws_listener_accept l' 0 aio =
          ({ l' with pend := rest }, [ws_ep_event.nni_aio_finish_pipe aio ws])) ∧
      (l'.pend = [] →
        nni_ws_listener_accept l' 0 aio = ({ l' with aios := l'.aios ++ [aio] }, []))) := by
  obtain ⟨h1, h2, h3⟩ := nni_ws_listener_listen_ok env l h
  rw [h1]
  refine ⟨rfl, h2, ?_, ?_⟩
  · unfold nni_ws_listener_accept
    simp [h2, h3]
  · intro l' hs hc
    refine ⟨?_, ?_⟩
    · intro ws rest hp
      unfold nni_ws_listener_accept
      simp [hs, hc, hp]
    · intro hp
      unfold nni_ws_listener_accept
      simp [hs, hc, hp]

theorem nni_ws_listener_accept_after_listen_witness :
    nni_ws_listener_accept (nni_ws_listener_listen ws_ex_listen_env ws_ex_lst_new).2 0 3 =
      ((nni_ws_listener_listen ws_ex_listen_env ws_ex_lst_new).2,
        [ws_ep_event.nni_aio_finish_error 3 NNG_ESTATE]) :=
  (nni_ws_listener_accept_after_listen ws_ex_listen_env ws_ex_lst_new 3 rfl).2.2.1

/-- Claim C25 (subprotocol frozen by start).  Whenever `nni_ws_listener_listen`
returns 0, `nni_ws_listener_proto` on the listener it leaves returns 0 and
makes the given string the configured subprotocol: `started` is still false.
`NNG_EBUSY`, with the subprotocol unchanged, is returned for a listener whose
`started` flag is set; on a listener with the flag clear the function returns 0
and the subprotocol becomes the given string. -/
theorem nni_ws_listener_proto_after_listen (env : ws_listen_env) (l : nni_ws_listener)
    (proto : List Nat) (h : (nni_ws_listener_listen env l).1 = 0) :
    nni_ws_listener_proto (nni_ws_listener_listen env l).2 proto =
      (0, { l with proto := some proto }) ∧
    (∀ l' : nni_ws_listener, l'.started = true →
      nni_ws_listener_proto l' proto = (NNG_EBUSY, l')) ∧
    (∀ l' : nni_ws_listener, l'.started = false →
      nni_ws_listener_proto l' proto = (0, { l' with proto := some proto })) := by
  obtain ⟨h1, h2, _⟩ := nni_ws_listener_listen_ok env l h
  rw [h1]
  refine ⟨?_, ?_, ?_⟩
  · unfold nni_ws_listener_proto
    simp [h2]
  · intro l' hs
    unfold nni_ws_listener_proto
    simp [hs]
  · intro l' hs
    unfold nni_ws_listener_proto
    simp [hs]

theorem nni_ws_listener_proto_after_listen_witness :
    nni_ws_listener_proto (nni_ws_listener_listen ws_ex_listen_env ws_ex_lst_new).2
        (ws_str ("chat")) =
      (0, { ws_ex_lst_new with proto := some (ws_str ("chat")) }) :=
  (nni_ws_listener_proto_after_listen ws_ex_listen_env ws_ex_lst_new (ws_str ("chat")) rfl).1

theorem nni_ws_dialer_dial_first (d : nni_ws_dialer) (aio : Nat) (hc : d.closed = false)
    (hs : d.started = false) :
    nni_ws_dialer_dial d 0 aio =
      { d with
          conaios := d.conaios ++ [aio], started := true, connecting := true,
          trace := d.trace ++ [ws_ep_event.nni_http_client_connect] } := by
  unfold nni_ws_dialer_dial
  simp [hc, hs]

theorem nni_ws_dialer_dial_later (d : nni_ws_dialer) (aio : Nat) (hc : d.closed = false)
    (hs : d.started = true) :
    nni_ws_dialer_dial d 0 aio = { d with conaios := d.conaios ++ [aio] } := by
  unfold nni_ws_dialer_dial
  simp [hc, hs]

/-- Claim C26 (dial starts a connect whenever none is outstanding).  On an open
dialer with nothing queued and no dial made yet, a first dial appends its caller
to `conaios`, sets `started` and starts a connect.  When that connect has
completed (`ws_conn_cb`, with any result), `conaios` is empty again and no
connect is outstanding.  A second dial then appends its caller to `conaios`
and starts nothing: `started` is still set and is the only thing
`nni_ws_dialer_dial` looks at, so the caller stays queued with no connect in
progress and the connect of the first dial remains the only one ever
started. -/
theorem nni_ws_dialer_dial_no_connect (d : nni_ws_dialer) (a1 a2 rv : Nat) (raw : List Nat)
    (hc : d.closed = false) (hs : d.started = false) (hq : d.conaios = []) :
    (nni_ws_dialer_dial d 0 a1).conaios = [a1] ∧
    (nni_ws_dialer_dial d 0 a1).connecting = true ∧
    (nni_ws_dialer_dial d 0 a1).trace = d.trace ++ [ws_ep_event.nni_http_client_connect] ∧
    (ws_conn_cb (nni_ws_dialer_dial d 0 a1) rv raw).1.conaios = [] ∧
    (ws_conn_cb (nni_ws_dialer_dial d 0 a1) rv raw).1.connecting = false ∧
    (nni_ws_dialer_dial (ws_conn_cb (nni_ws_dialer_dial d 0 a1) rv raw).1 0 a2).conaios = [a2] ∧
    (nni_ws_dialer_dial (ws_conn_cb (nni_ws_dialer_dial d 0 a1) rv raw).1 0 a2).connecting =
      false ∧
    (nni_ws_dialer_dial (ws_conn_cb (nni_ws_dialer_dial d 0 a1) rv raw).1 0 a2).trace =
      (ws_conn_cb (nni_ws_dialer_dial d 0 a1) rv raw).1.trace ∧
    ((nni_ws_dialer_dial (ws_conn_cb (nni_ws_dialer_dial d 0 a1) rv raw).1 0 a2).trace.filter
        (fun ev => ev = ws_ep_event.nni_http_client_connect)).length =
      (d.trace.filter (fun ev => ev = ws_ep_event.nni_http_client_connect)).length + 1 := by
  have e1 : nni_ws_dialer_dial d 0 a1 =
      { d with
          conaios := [a1], started := true, connecting := true,
          trace := d.trace ++ [ws_ep_event.nni_http_client_connect] } := by
    rw [nni_ws_dialer_dial_first d a1 hc hs, hq]
    rfl
  have e2 : (ws_conn_cb (nni_ws_dialer_dial d 0 a1) rv raw).1.conaios = [] ∧
      (ws_conn_cb (nni_ws_dialer_dial d 0 a1) rv raw).1.connecting = false ∧
      (ws_conn_cb (nni_ws_dialer_dial d 0 a1) rv raw).1.started = true ∧
      (ws_conn_cb (nni_ws_dialer_dial d 0 a1) rv raw).1.closed = false ∧
      ((ws_conn_cb (nni_ws_dialer_dial d 0 a1) rv raw).1.trace.filter
          (fun ev => ev = ws_ep_event.nni_http_client_connect)).length =
        (d.trace.filter (fun ev => ev = ws_ep_event.nni_http_client_connect)).length + 1 := by
    rw [e1]
    unfold ws_conn_cb
    by_cases hrv : rv = 0
    · simp [hrv, hc, List.filter_append]
    · simp [hrv, hc, List.filter_append]
  obtain ⟨c1, c2, c3, c4, c5⟩ := e2
  have e3 : nni_ws_dialer_dial (ws_conn_cb (nni_ws_dialer_dial d 0 a1) rv raw).1 0 a2 =
      { (ws_conn_cb (nni_ws_dialer_dial d 0 a1) rv raw).1 with conaios := [a2] } := by
    rw [nni_ws_dialer_dial_later _ a2 c4 c3, c1]
    rfl
  refine ⟨by rw [e1], by rw [e1], by rw [e1], c1, c2, ?_, ?_, ?_, ?_⟩
  · rw [e3]
  · rw [e3]; exact c2
  · rw [e3]
  · rw [e3]; exact c5

theorem nni_ws_dialer_dial_no_connect_witness :
    (nni_ws_dialer_dial (ws_conn_cb (nni_ws_dialer_dial ws_ex_dlr 0 1) 0 ws_ex_raw).1 0 2).conaios =
      [2] ∧
    (nni_ws_dialer_dial (ws_conn_cb (nni_ws_dialer_dial ws_ex_dlr 0 1) 0 ws_ex_raw).1 0
      2).connecting = false :=
  ⟨(nni_ws_dialer_dial_no_connect ws_ex_dlr 1 2 0 ws_ex_raw rfl rfl rfl).2.2.2.2.2.1,
    (nni_ws_dialer_dial_no_connect ws_ex_dlr 1 2 0 ws_ex_raw rfl rfl rfl).2.2.2.2.2.2.1⟩

/-! ## URL -/

theorem strchr_append (a b : List Nat) (c : Nat) (h : c ∉ a) :
    strchr (a ++ c :: b) c = some (c :: b) := by
  induction a with
  | nil => simp [strchr]
  | cons x xs ih =>
    have hx : x ≠ c := fun e => h (by rw [e]; exact List.mem_cons_self _ _)
    have hxs : c ∉ xs := fun e => h (List.mem_cons_of_mem _ e)
    simp only [List.cons_append, strchr, if_neg hx]
    exact ih hxs

theorem strchr_none (a : List Nat) (c : Nat) (h : c ∉ a) : strchr a c = none := by
  induction a with
  | nil => rfl
  | cons x xs ih =>
    have hx : x ≠ c := fun e => h (by rw [e]; exact List.mem_cons_self _ _)
    have hxs : c ∉ xs := fun e => h (List.mem_cons_of_mem _ e)
    simp only [strchr, if_neg hx]
    exact ih hxs

theorem nni_tran_parse_host_port_host (h : List Nat) (h1 : 58 ∉ h) (h2 : h ≠ [])
    (h3 : h ≠ [42]) : nni_tran_parse_host_port h = (0, some h, none) := by
  have e1 : h.takeWhile (fun c => decide (c ≠ 58)) = h := by
    rw [List.takeWhile_eq_self_iff]
    intro x hx
    simp only [ne_eq, decide_not, Bool.not_eq_eq_eq_not, Bool.not_true, decide_eq_false_iff_not]
    intro e
    exact h1 (e ▸ hx)
  have e2 : h.dropWhile (fun c => decide (c ≠ 58)) = [] := by
    rw [List.dropWhile_eq_nil_iff]
    intro x hx
    simp only [ne_eq, decide_not, Bool.not_eq_eq_eq_not, Bool.not_true, decide_eq_false_iff_not]
    intro e
    exact h1 (e ▸ hx)
  unfold nni_tran_parse_host_port
  simp only [e1, e2, List.drop_nil, if_true]
  rw [if_neg (by simp [h2, h3])]

/-- Claim C23 (URL default port).  For every URL `scheme://host/path` without
port and without query (a scheme without colon, a host that is not empty, not
`*` and has neither colon nor slash), `ws_parse_url` returns the scheme, host
and path as written and the service `80` when the scheme is `wss` and `443`
for every other scheme, `ws` among them: the two defaults are exchanged.  An
explicit port is returned unchanged, and a URL without path gets the path
`/`. -/
theorem ws_parse_url_default_port (s h p : List Nat) (hs : 58 ∉ s)
    (hh : 58 ∉ h ∧ 47 ∉ h ∧ h ≠ [] ∧ h ≠ [42]) (hp : 63 ∉ p) :
    ws_parse_url (s ++ ws_str ("://") ++ h ++ 47 :: p) =
      Except.ok
        { scheme := s, host := h,
          serv := if s = ws_str ("wss") then ws_str ("80") else ws_str ("443"),
          path := 47 :: p, query := [] } ∧
    ws_parse_url (ws_str ("ws://example.com/test")) =
      Except.ok
        { scheme := ws_str ("ws"), host := ws_str ("example.com"), serv := ws_str ("443"),
          path := ws_str ("/test"), query := [] } ∧
    ws_parse_url (ws_str ("wss://example.com/test")) =
      Except.ok
        { scheme := ws_str ("wss"), host := ws_str ("example.com"), serv := ws_str ("80"),
          path := ws_str ("/test"), query := [] } ∧
    ws_parse_url (ws_str ("ws://example.com:8080/test")) =
      Except.ok
        { scheme := ws_str ("ws"), host := ws_str ("example.com"), serv := ws_str ("8080"),
          path := ws_str ("/test"), query := [] } ∧
    ws_parse_url (ws_str ("ws://example.com:8080")) =
      Except.ok
        { scheme := ws_str ("ws"), host := ws_str ("example.com"), serv := ws_str ("8080"),
          path := ws_str ("/"), query := [] } := by
  refine ⟨?_, rfl, rfl, rfl, rfl⟩
  obtain ⟨h1, h2, h3, h4⟩ := hh
  have e0 : s ++ ws_str ("://") ++ h ++ 47 :: p = s ++ 58 :: (47 :: 47 :: (h ++ 47 :: p)) := by
    have : ws_str ("://") = [58, 47, 47] := by decide
    rw [this]
    simp
  have e1 : strchr (h ++ 47 :: p) 47 = some (47 :: p) := strchr_append h p 47 h2
  have e2 : strchr (47 :: p) 63 = none :=
    strchr_none _ _ (by
      intro hm
      rcases List.mem_cons.mp hm with e | e
      · exact absurd e (by decide)
      · exact hp e)
  unfold ws_parse_url
  rw [e0]
  simp only [strchr_append s _ 58 hs]
  rw [if_neg (by simp)]
  simp only [List.drop_succ_cons, List.drop_zero, e1, List.length_append, List.length_cons,
    Nat.add_sub_cancel, List.take_left', nni_tran_parse_host_port_host h h1 h3 h4, e2]
  simp only [ne_eq, not_true_eq_false, if_false, ite_not]

theorem ws_parse_url_default_port_witness :
    ws_parse_url (ws_str ("ws") ++ ws_str ("://") ++ ws_str ("example.com") ++
        47 :: ws_str ("test")) =
      Except.ok
        { scheme := ws_str ("ws"), host := ws_str ("example.com"),
          serv := if ws_str ("ws") = ws_str ("wss") then ws_str ("80") else ws_str ("443"),
          path := 47 :: ws_str ("test"), query := [] } :=
  (ws_parse_url_default_port (ws_str ("ws")) (ws_str ("example.com")) (ws_str ("test"))
    (by decide) (by decide) (by decide)).1

/-! ## Header length, closed connections and the queues of the end points -/

theorem ws_read_cb_parse_hlen_spec (frame : ws_frame) :
    (ws_read_cb_parse frame).hlen = ws_header_length_spec (frame.head.getD 1 0) := by
  unfold ws_read_cb_parse ws_header_length_spec
  simp only
  split_ifs <;> simp_all

theorem ws_header_length_spec_cases (b1 : Nat) :
    ws_header_length_spec b1 = 2 ∨ ws_header_length_spec b1 = 4 ∨
    ws_header_length_spec b1 = 6 ∨ ws_header_length_spec b1 = 8 ∨
    ws_header_length_spec b1 = 10 ∨ ws_header_length_spec b1 = 14 := by
  unfold ws_header_length_spec
  by_cases hm : b1 &&& 0x80 ≠ 0
  · by_cases h7 : b1 &&& 0x7F = 127
    · simp [hm, h7]
    · by_cases h6 : b1 &&& 0x7F = 126
      · simp [hm, h6]
      · simp [hm, h7, h6]
  · by_cases h7 : b1 &&& 0x7F = 127
    · simp [hm, h7]
    · by_cases h6 : b1 &&& 0x7F = 126
      · simp [hm, h6]
      · simp [hm, h7, h6]

/-- Claim C31 as stated fails for a masked frame with a length code below 126:
for the first two bytes `0x82 0x85` the header length `ws_read_cb` computes is
6, which is none of 2, 4, 8, 10 and 14; the callback then asks for the 4
remaining header bytes (the masking key). -/
theorem ws_read_cb_header_length_counterexample :
    (ws_read_cb_parse ws_ex_head).hlen = 6 ∧
    ¬ ((ws_read_cb_parse ws_ex_head).hlen = 2 ∨ (ws_read_cb_parse ws_ex_head).hlen = 4 ∨
       (ws_read_cb_parse ws_ex_head).hlen = 8 ∨ (ws_read_cb_parse ws_ex_head).hlen = 10 ∨
       (ws_read_cb_parse ws_ex_head).hlen = 14) ∧
    (ws_read_cb ws_ex_env 0 { ws_ex_listener with rxframe := some ws_ex_head }).rxaio =
      some (ws_iov_buf.frame_head 2, 4) := by
  decide

/-- Claim C31 (decoded header length), amended: the values are 2, 4, 6, 8, 10
and 14.  For every frame in the rx slot whose header has not been parsed
(`hlen = 0`) and whose first two header bytes are `b0` and `b1`, the header
length `ws_read_cb` computes is 2, plus 4 if the mask bit of `b1` is set, plus
2 if the 7-bit length code is 126, plus 8 if it is 127; it is one of 2, 4, 6,
8, 10 and 14; and when it is not 2, `ws_read_cb` stores the parsed frame in
the slot and asks for the remaining `hlen - 2` header bytes. -/
theorem ws_read_cb_header_length (e : ws_env) (ws : nni_ws) (frame : ws_frame)
    (b0 b1 : Nat) (rest : List Nat)
    (hrx : ws.rxframe = some frame) (hz : frame.hlen = 0) (hd : frame.head = b0 :: b1 :: rest) :
    (ws_read_cb_parse frame).hlen = ws_header_length_spec b1 ∧
    ws_header_length_spec b1 =
      2 + (if b1 &&& 0x80 ≠ 0 then 4 else 0) + (if b1 &&& 0x7F = 126 then 2 else 0) +
        (if b1 &&& 0x7F = 127 then 8 else 0) ∧
    (ws_header_length_spec b1 = 2 ∨ ws_header_length_spec b1 = 4 ∨
     ws_header_length_spec b1 = 6 ∨ ws_header_length_spec b1 = 8 ∨
     ws_header_length_spec b1 = 10 ∨ ws_header_length_spec b1 = 14) ∧
    (ws_header_length_spec b1 ≠ 2 →
      ws_read_cb e 0 ws =
        { ws with
            rxframe := some (ws_read_cb_parse frame),
            rxaio := some (ws_iov_buf.frame_head 2, ws_header_length_spec b1 - 2),
            trace := ws.trace ++
              [ws_event.nni_http_read_full (ws_iov_buf.frame_head 2)
                (ws_header_length_spec b1 - 2)] }) := by
  have h1 : (ws_read_cb_parse frame).hlen = ws_header_length_spec b1 := by
    rw [ws_read_cb_parse_hlen_spec, hd]
    rfl
  refine ⟨h1, rfl, ws_header_length_spec_cases b1, ?_⟩
  intro hne
  unfold ws_read_cb
  rw [hrx]
  simp only [ne_eq, not_true_eq_false, if_false, hz, if_true]
  rw [h1, if_pos hne]

theorem ws_read_cb_header_length_witness :
    (ws_read_cb_parse ws_ex_head).hlen = 6 ∧
    (ws_read_cb ws_ex_env 0 { ws_ex_listener with rxframe := some ws_ex_head }).trace =
      [ws_event.nni_http_read_full (ws_iov_buf.frame_head 2) 4] :=
  ⟨(ws_read_cb_header_length ws_ex_env { ws_ex_listener with rxframe := some ws_ex_head }
      ws_ex_head 0x82 0x85 (List.replicate 12 0) rfl rfl (by decide)).1,
    by
      rw [(ws_read_cb_header_length ws_ex_env { ws_ex_listener with rxframe := some ws_ex_head }
        ws_ex_head 0x82 0x85 (List.replicate 12 0) rfl rfl (by decide)).2.2.2 (by decide)]
      decide⟩

/-- Claim C33 (listener hand-over after the 101 reply is written).  On a
successful write with an acceptor `aio` at the head of the waiting list,
`ws_http_cb_listener` removes the connection from `reply`, marks it ready and
completes `aio` with it, but leaves `aio` at the head of the waiting list: the
next connection whose reply is written completes the same acceptor again.  With
no acceptor waiting the connection, marked ready, is appended to the tail of
`pend` and nobody is completed.  On a failed write the connection is removed
from `reply`, finalised and not put in `pend`, and no acceptor is completed. -/
theorem ws_http_cb_listener_acceptor_kept (l : nni_ws_listener) (ws ws2 : nni_ws) (aio : Nat)
    (rest : List Nat) (h : l.aios = aio :: rest) :
    ws_http_cb_listener l ws 0 =
      ({ l with reply := l.reply.erase ws },
        [ws_ep_event.nni_aio_finish_pipe aio { ws with ready := true }]) ∧
    (ws_http_cb_listener l ws 0).1.aios = aio :: rest ∧
    (ws_http_cb_listener (ws_http_cb_listener l ws 0).1 ws2 0).2 =
      [ws_ep_event.nni_aio_finish_pipe aio { ws2 with ready := true }] ∧
    (ws_http_cb_listener (ws_http_cb_listener l ws 0).1 ws2 0).1.aios = aio :: rest ∧
    (∀ l0 : nni_ws_listener, l0.aios = [] →
      ws_http_cb_listener l0 ws 0 =
        ({ l0 with
            reply := l0.reply.erase ws,
            pend := l0.pend ++ [{ ws with ready := true }] }, [])) ∧
    (∀ (l0 : nni_ws_listener) (rv : Nat), rv ≠ 0 →
      ws_http_cb_listener l0 ws rv =
        ({ l0 with reply := l0.reply.erase ws }, [ws_ep_event.nni_ws_fini ws])) := by
  have e1 : ∀ (l1 : nni_ws_listener) (w : nni_ws), l1.aios = aio :: rest →
      ws_http_cb_listener l1 w 0 =
        ({ l1 with reply := l1.reply.erase w },
          [ws_ep_event.nni_aio_finish_pipe aio { w with ready := true }]) := by
    intro l1 w h1
    unfold ws_http_cb_listener
    simp [h1]
  refine ⟨e1 l ws h, ?_, ?_, ?_, ?_, ?_⟩
  · rw [e1 l ws h]; exact h
  · rw [e1 l ws h]
    simp only
    rw [e1 { l with reply := l.reply.erase ws } ws2 h]
  · rw [e1 l ws h]
    simp only
    rw [e1 { l with reply := l.reply.erase ws } ws2 h]
    exact h
  · intro l0 h0
    unfold ws_http_cb_listener
    simp [h0]
  · intro l0 rv hrv
    unfold ws_http_cb_listener
    simp [hrv]

theorem ws_http_cb_listener_acceptor_kept_witness :
    (ws_http_cb_listener ws_ex_lst_reply (ws_init NNI_EP_MODE_LISTEN) 0).2 =
      [ws_ep_event.nni_aio_finish_pipe 3 { ws_init NNI_EP_MODE_LISTEN with ready := true }] ∧
    (ws_http_cb_listener
        (ws_http_cb_listener ws_ex_lst_reply (ws_init NNI_EP_MODE_LISTEN) 0).1
        { ws_init NNI_EP_MODE_LISTEN with maxframe := 1024 } 0).2 =
      [ws_ep_event.nni_aio_finish_pipe 3
        { ws_init NNI_EP_MODE_LISTEN with maxframe := 1024, ready := true }] ∧
    (ws_http_cb_listener
        (ws_http_cb_listener ws_ex_lst_reply (ws_init NNI_EP_MODE_LISTEN) 0).1
        { ws_init NNI_EP_MODE_LISTEN with maxframe := 1024 } 0).1.aios = [3] :=
  ⟨by
      rw [(ws_http_cb_listener_acceptor_kept ws_ex_lst_reply (ws_init NNI_EP_MODE_LISTEN)
        { ws_init NNI_EP_MODE_LISTEN with maxframe := 1024 } 3 [] rfl).1],
    (ws_http_cb_listener_acceptor_kept ws_ex_lst_reply (ws_init NNI_EP_MODE_LISTEN)
      { ws_init NNI_EP_MODE_LISTEN with maxframe := 1024 } 3 [] rfl).2.2.1,
    (ws_http_cb_listener_acceptor_kept ws_ex_lst_reply (ws_init NNI_EP_MODE_LISTEN)
      { ws_init NNI_EP_MODE_LISTEN with maxframe := 1024 } 3 [] rfl).2.2.2.1⟩

theorem nni_ws_dialer_close_open (d : nni_ws_dialer) (hc : d.closed = false) :
    nni_ws_dialer_close d =
      { d with closed := true, trace := d.trace ++ [ws_ep_event.conaio_cancel NNG_ECLOSED] } := by
  unfold nni_ws_dialer_close
  simp [hc]

/-- Claim C34 as stated fails on the dialer with the callers 1 and 2 queued in
`conaios` and a connect outstanding.  After `nni_ws_dialer_close` both callers
are still queued and none has been completed.  When the cancelled connect then
completes with `NNG_ECLOSED`, `ws_conn_cb` completes caller 1 with that error,
leaves caller 2 queued without a completion and starts a new connect for it. -/
theorem nni_ws_dialer_close_counterexample :
    (nni_ws_dialer_close ws_ex_dlr_two).conaios = [1, 2] ∧
    ws_ep_completions 1 (nni_ws_dialer_close ws_ex_dlr_two).trace = [] ∧
    ws_ep_completions 2 (nni_ws_dialer_close ws_ex_dlr_two).trace = [] ∧
    (ws_conn_cb (nni_ws_dialer_close ws_ex_dlr_two) NNG_ECLOSED ws_ex_raw).1.conaios = [2] ∧
    ws_ep_completions 2
      (ws_conn_cb (nni_ws_dialer_close ws_ex_dlr_two) NNG_ECLOSED ws_ex_raw).1.trace = [] ∧
    (ws_conn_cb (nni_ws_dialer_close ws_ex_dlr_two) NNG_ECLOSED ws_ex_raw).1.trace =
      [ws_ep_event.nni_http_client_connect, ws_ep_event.conaio_cancel NNG_ECLOSED,
       ws_ep_event.nni_http_client_connect, ws_ep_event.nni_aio_finish_error 1 NNG_ECLOSED] := by
  decide

theorem ws_conn_cb_cancelled (d : nni_ws_dialer) (raw : List Nat) (uaio : Nat)
    (rest : List Nat) (hq : d.conaios = uaio :: rest) :
    (ws_conn_cb d NNG_ECLOSED raw).1 =
      { d with
          connecting := !rest.isEmpty, conaios := rest,
          trace := d.trace ++
            (if rest = [] then [] else [ws_ep_event.nni_http_client_connect]) ++
            [ws_ep_event.nni_aio_finish_error uaio NNG_ECLOSED] } := by
  unfold ws_conn_cb
  cases rest with
  | nil => simp [hq, NNG_ECLOSED]
  | cons a as => simp [hq, NNG_ECLOSED]

/-- Claim C34 (dialer close), amended: the close completes no caller itself.
For every open dialer `nni_ws_dialer_close` sets `closed`, cancels the connect
handle with `NNG_ECLOSED` and changes nothing else: `conaios` and `httpaios`
keep their callers and no caller is completed.  A second close is a no-op.
When the cancelled connect completes with `NNG_ECLOSED`, `ws_conn_cb` removes
the head caller of `conaios` and completes it with `NNG_ECLOSED`, once; the
callers behind it stay queued without a completion, `httpaios` is untouched
and the dialer stays closed. -/
theorem nni_ws_dialer_close_effect (d : nni_ws_dialer) (raw : List Nat)
    (hc : d.closed = false) :
    nni_ws_dialer_close d =
      { d with closed := true, trace := d.trace ++ [ws_ep_event.conaio_cancel NNG_ECLOSED] } ∧
    (nni_ws_dialer_close d).conaios = d.conaios ∧
    (nni_ws_dialer_close d).httpaios = d.httpaios ∧
    (∀ aio, ws_ep_completions aio (nni_ws_dialer_close d).trace =
      ws_ep_completions aio d.trace) ∧
    nni_ws_dialer_close (nni_ws_dialer_close d) = nni_ws_dialer_close d ∧
    (∀ uaio rest, d.conaios = uaio :: rest →
      (ws_conn_cb (nni_ws_dialer_close d) NNG_ECLOSED raw).1.conaios = rest ∧
      (ws_conn_cb (nni_ws_dialer_close d) NNG_ECLOSED raw).1.httpaios = d.httpaios ∧
      (ws_conn_cb (nni_ws_dialer_close d) NNG_ECLOSED raw).1.closed = true ∧
      ws_ep_completions uaio (ws_conn_cb (nni_ws_dialer_close d) NNG_ECLOSED raw).1.trace =
        ws_ep_completions uaio d.trace ++
          [ws_ep_event.nni_aio_finish_error uaio NNG_ECLOSED] ∧
      (∀ aio, aio ≠ uaio →
        ws_ep_completions aio (ws_conn_cb (nni_ws_dialer_close d) NNG_ECLOSED raw).1.trace =
          ws_ep_completions aio d.trace)) := by
  have e1 := nni_ws_dialer_close_open d hc
  refine ⟨e1, by rw [e1], by rw [e1], ?_, ?_, ?_⟩
  · intro aio
    rw [e1]
    simp [ws_ep_completions, List.filter_append]
  · rw [e1]
    unfold nni_ws_dialer_close
    simp
  · intro uaio rest hq
    have hq1 : (nni_ws_dialer_close d).conaios = uaio :: rest := by rw [e1]; exact hq
    rw [ws_conn_cb_cancelled _ raw uaio rest hq1, e1]
    refine ⟨rfl, rfl, rfl, ?_, ?_⟩
    · by_cases hr : rest = []
      · simp [ws_ep_completions, List.filter_append, hr]
      · simp [ws_ep_completions, List.filter_append, hr]
    · intro aio hne
      have hne1 : ¬ uaio = aio := fun h => hne h.symm
      by_cases hr : rest = []
      · simp [ws_ep_completions, List.filter_append, hr, hne1]
      · simp [ws_ep_completions, List.filter_append, hr, hne1]

theorem nni_ws_dialer_close_effect_witness :
    (nni_ws_dialer_close ws_ex_dlr_two).closed = true ∧
    (nni_ws_dialer_close ws_ex_dlr_two).conaios = ws_ex_dlr_two.conaios ∧
    nni_ws_dialer_close (nni_ws_dialer_close ws_ex_dlr_two) = nni_ws_dialer_close ws_ex_dlr_two :=
  ⟨by rw [(nni_ws_dialer_close_effect ws_ex_dlr_two ws_ex_raw rfl).1],
    (nni_ws_dialer_close_effect ws_ex_dlr_two ws_ex_raw rfl).2.1,
    (nni_ws_dialer_close_effect ws_ex_dlr_two ws_ex_raw rfl).2.2.2.2.1⟩

/-- Claim C35 (dial on a closed dialer).  For every closed dialer and a caller
handle that starts, `nni_ws_dialer_dial` completes the caller with
`NNG_ECLOSED` and then goes on as for an open dialer (the branch has no
`return`): the caller is appended to `conaios`, and if no dial was made before,
`started` is set and a connect is started.  When that connect completes with
an error `rv`, `ws_conn_cb` completes the same caller a second time. -/
theorem nni_ws_dialer_dial_closed (d : nni_ws_dialer) (aio : Nat) (hc : d.closed = true) :
    (d.started = false →
      nni_ws_dialer_dial d 0 aio =
        { d with
            conaios := d.conaios ++ [aio], started := true, connecting := true,
            trace := d.trace ++
              [ws_ep_event.nni_aio_finish_error aio NNG_ECLOSED,
               ws_ep_event.nni_http_client_connect] }) ∧
    (d.started = true →
      nni_ws_dialer_dial d 0 aio =
        { d with
            conaios := d.conaios ++ [aio],
            trace := d.trace ++ [ws_ep_event.nni_aio_finish_error aio NNG_ECLOSED] }) ∧
    (d.started = false → d.conaios = [] → ∀ (rv : Nat) (raw : List Nat), rv ≠ 0 →
      (ws_conn_cb (nni_ws_dialer_dial d 0 aio) rv raw).1.trace =
        d.trace ++
          [ws_ep_event.nni_aio_finish_error aio NNG_ECLOSED,
           ws_ep_event.nni_http_client_connect,
           ws_ep_event.nni_aio_finish_error aio rv]) := by
  have e1 : d.started = false →
      nni_ws_dialer_dial d 0 aio =
        { d with
            conaios := d.conaios ++ [aio], started := true, connecting := true,
            trace := d.trace ++
              [ws_ep_event.nni_aio_finish_error aio NNG_ECLOSED,
               ws_ep_event.nni_http_client_connect] } := by
    intro hs
    unfold nni_ws_dialer_dial
    simp [hc, hs]
  refine ⟨e1, ?_, ?_⟩
  · intro hs
    unfold nni_ws_dialer_dial
    simp [hc, hs]
  · intro hs hq rv raw hrv
    rw [e1 hs, hq]
    unfold ws_conn_cb
    simp [hrv]

theorem nni_ws_dialer_dial_closed_witness :
    nni_ws_dialer_dial (nni_ws_dialer_close ws_ex_dlr) 0 1 =
      { nni_ws_dialer_close ws_ex_dlr with
          conaios := [1], started := true, connecting := true,
          trace := [ws_ep_event.conaio_cancel NNG_ECLOSED,
            ws_ep_event.nni_aio_finish_error 1 NNG_ECLOSED,
            ws_ep_event.nni_http_client_connect] } :=
  (nni_ws_dialer_dial_closed (nni_ws_dialer_close ws_ex_dlr) 1 rfl).1 rfl

theorem ws_send_control_closed_of (e : ws_env) (ws : nni_ws) (op : Nat) (buf : Option (List Nat))
    (len : Nat) (h : ws.closed = true) : (ws_send_control e ws op buf len).closed = true := by
  unfold ws_send_control
  simp [h]

theorem ws_read_frame_done_closed (ws : nni_ws) :
    (ws_read_frame_done ws).closed = ws.closed := by
  unfold ws_read_frame_done
  split
  · rfl
  · split
    · rfl
    · split <;> rfl

theorem ws_start_read_closed (ws : nni_ws) : (ws_start_read ws).closed = ws.closed := by
  unfold ws_start_read
  split_ifs
  · rfl
  · split <;> rfl

theorem ws_read_frame_cb_closed_of (e : ws_env) (ws : nni_ws) (frame : ws_frame)
    (h : ws.closed = true) : (ws_read_frame_cb e ws frame).closed = true := by
  unfold ws_read_frame_cb
  split_ifs
  all_goals first
    | exact ws_close_closed _ _ _
    | (rw [ws_read_frame_done_closed]; first | exact h | exact ws_send_control_closed_of _ _ _ _ _ h)
    | (split <;> [skip; split_ifs] <;>
        first
          | exact ws_close_closed _ _ _
          | (rw [ws_read_frame_done_closed]; exact h))

theorem ws_read_cb_complete_closed_of (e : ws_env) (ws : nni_ws) (frame : ws_frame)
    (h : ws.closed = true) : (ws_read_cb_complete e ws frame).closed = true := by
  unfold ws_read_cb_complete
  simp only
  rw [ws_start_read_closed]
  exact ws_read_frame_cb_closed_of _ _ _ h

theorem ws_read_cb_data_closed_of (e : ws_env) (ws : nni_ws) (frame : ws_frame)
    (h : ws.closed = true) : (ws_read_cb_data e ws frame).closed = true := by
  unfold ws_read_cb_data
  split_ifs
  · exact h
  · exact h
  · exact ws_read_cb_complete_closed_of _ _ _ h

theorem ws_read_cb_mask_closed_of (e : ws_env) (ws : nni_ws) (frame : ws_frame)
    (h : ws.closed = true) : (ws_read_cb_mask e ws frame).closed = true := by
  unfold ws_read_cb_mask
  simp only
  split_ifs
  all_goals first
    | exact ws_close_closed _ _ _
    | exact ws_read_cb_data_closed_of _ _ _ h

theorem ws_read_cb_checks_closed_of (e : ws_env) (ws : nni_ws) (frame : ws_frame)
    (h : ws.closed = true) : (ws_read_cb_checks e ws frame).closed = true := by
  unfold ws_read_cb_checks
  simp only
  split_ifs
  all_goals first
    | exact ws_close_closed _ _ _
    | exact ws_read_cb_mask_closed_of _ _ _ h

theorem ws_read_cb_size_closed_of (e : ws_env) (ws : nni_ws) (frame : ws_frame)
    (h : ws.closed = true) : (ws_read_cb_size e ws frame).closed = true := by
  unfold ws_read_cb_size
  simp only
  split_ifs
  all_goals first
    | exact ws_close_closed _ _ _
    | exact ws_read_cb_checks_closed_of _ _ _ h

theorem ws_read_cb_closed_of (e : ws_env) (rv : Nat) (ws : nni_ws) (h : ws.closed = true) :
    (ws_read_cb e rv ws).closed = true := by
  unfold ws_read_cb
  split
  · exact h
  · simp only
    split_ifs
    all_goals first
      | exact ws_close_closed _ _ _
      | exact h
      | exact ws_read_cb_size_closed_of _ _ _ h
      | exact ws_read_cb_complete_closed_of _ _ _ h

theorem ws_http_read_done_closed_of (e : ws_env) (ws : nni_ws) (data : List Nat)
    (h : ws.closed = true) : (ws_http_read_done e ws data).closed = true := by
  unfold ws_http_read_done
  split
  · exact ws_read_cb_closed_of _ _ _ h
  · exact h

theorem ws_write_cb_closed_of (rv : Nat) (ws ws1 : nni_ws) (h : ws.closed = true)
    (hw : ws_write_cb rv ws = some ws1) : ws1.closed = true := by
  unfold ws_write_cb at hw
  cases htx : ws.txframe with
  | none =>
    rw [htx] at hw
    exact absurd hw (by simp)
  | some frame =>
    rw [htx] at hw
    simp only at hw
    by_cases hop : frame.op = WS_CLOSE
    · rw [if_pos hop, Option.map_eq_some'] at hw
      obtain ⟨evs, _, he⟩ := hw
      rw [← he]
      exact h
    · rw [if_neg hop] at hw
      cases hwm : ws_frame_wmsg ws.txmsgs frame with
      | none =>
        rw [hwm] at hw
        exact absurd hw (by simp)
      | some p =>
        obtain ⟨k, wm⟩ := p
        rw [hwm] at hw
        simp only at hw
        by_cases hrv : rv ≠ 0
        · rw [if_pos hrv] at hw
          injection hw with hw
          rw [← hw]
        · rw [if_neg hrv] at hw
          injection hw with hw
          rw [← hw, ws_start_write_closed]
          split_ifs <;> exact h

theorem ws_write_cancel_closed (ws : nni_ws) (aio rv : Nat) :
    (ws_write_cancel ws aio rv).closed = ws.closed := by
  unfold ws_write_cancel
  split
  · rfl
  · split_ifs <;> rfl

theorem nni_ws_send_msg_closed_of (ws ws1 : nni_ws) (r : Nat → Nat) (start : Nat) (msg : nni_msg)
    (aio : Nat) (h : ws.closed = true) (hs : nni_ws_send_msg ws r start msg aio = some ws1) :
    ws1.closed = true := by
  unfold nni_ws_send_msg at hs
  split at hs
  · exact absurd hs (by simp)
  · rw [if_pos h] at hs
    split_ifs at hs
    · injection hs with hs
      rw [← hs]
      exact h
    · injection hs with hs
      rw [← hs]
      exact h

/-- Claim C32 (receive on a closed connection).  On every connection with
`closed = true`, `nni_ws_recv_msg` appends a receive message for the caller to
the tail of the inbound receiver queue and does nothing else: no call is made,
so the caller is not completed (with `NNG_ECLOSED` or otherwise) and no read is
started, and the request stays queued.  The flag itself is terminal: a receive
or send request, a close, the read, write and close callbacks and a write
cancellation all leave `closed = true`. -/
theorem nni_ws_recv_msg_closed (e : ws_env) (ws : nni_ws) (aio : Nat)
    (hcl : ws.closed = true) :
    nni_ws_recv_msg ws aio =
      { ws with rxmsgs := ws.rxmsgs ++ [ws_msg_init_rx (some aio)] } ∧
    (nni_ws_recv_msg ws aio).trace = ws.trace ∧
    ws_msg_init_rx (some aio) ∈ (nni_ws_recv_msg ws aio).rxmsgs ∧
    (nni_ws_recv_msg ws aio).closed = true ∧
    (∀ rv, (ws_read_cb e rv ws).closed = true) ∧
    (∀ data, (ws_http_read_done e ws data).closed = true) ∧
    (∀ r start msg a ws1, nni_ws_send_msg ws r start msg a = some ws1 → ws1.closed = true) ∧
    (∀ code, (nni_ws_close_error e ws code).closed = true) ∧
    (∀ rv ws1, ws_write_cb rv ws = some ws1 → ws1.closed = true) ∧
    (∀ a rv, (ws_write_cancel ws a rv).closed = true) ∧
    (ws_close_cb ws).closed = true := by
  have e1 : nni_ws_recv_msg ws aio =
      { ws with rxmsgs := ws.rxmsgs ++ [ws_msg_init_rx (some aio)] } := by
    unfold nni_ws_recv_msg ws_start_read
    simp [hcl]
  refine ⟨e1, by rw [e1], by rw [e1]; simp, by rw [e1]; exact hcl, ?_, ?_, ?_, ?_, ?_, ?_, hcl⟩
  · intro rv
    exact ws_read_cb_closed_of e rv ws hcl
  · intro data
    exact ws_http_read_done_closed_of e ws data hcl
  · intro r start msg a ws1 hs
    exact nni_ws_send_msg_closed_of ws ws1 r start msg a hcl hs
  · intro code
    exact ws_close_closed e ws code
  · intro rv ws1 hw
    exact ws_write_cb_closed_of rv ws ws1 hcl hw
  · intro a rv
    rw [ws_write_cancel_closed]
    exact hcl

theorem nni_ws_recv_msg_closed_witness :
    ws_ex_closed.closed = true ∧
    nni_ws_recv_msg ws_ex_closed 7 =
      { ws_ex_closed with rxmsgs := [ws_msg_init_rx (some 7)] } ∧
    (nni_ws_recv_msg ws_ex_closed 7).trace = ws_ex_closed.trace :=
  ⟨by decide,
    (nni_ws_recv_msg_closed ws_ex_env ws_ex_closed 7 (by decide)).1,
    (nni_ws_recv_msg_closed ws_ex_env ws_ex_closed 7 (by decide)).2.1⟩

/-! ## The receive path from the first read of a frame -/

theorem ws_close_calls_append (s t : List ws_event) :
    ws_close_calls (s ++ t) = ws_close_calls s ++ ws_close_calls t := by
  simp [ws_close_calls]

theorem ws_close_calls_close_msgs (l : List ws_msg) : ws_close_calls (ws_close_msgs l) = [] := by
  induction l with
  | nil => rfl
  | cons wm rest ih =>
    rw [ws_close_msgs, ws_close_calls_append, ih]
    cases wm.aio <;> rfl

theorem ws_start_write_close_calls (ws : nni_ws) :
    ws_close_calls (ws_start_write ws).trace = ws_close_calls ws.trace := by
  unfold ws_start_write
  split
  · rfl
  · split
    · rfl
    · split
      · rfl
      · simp [ws_close_calls_append, ws_close_calls]

theorem ws_send_close_close_calls (e : ws_env) (ws : nni_ws) (code : Nat) :
    ws_close_calls (ws_send_close e ws code).trace = ws_close_calls ws.trace := by
  unfold ws_send_close
  simp only [ws_msg_init_control]
  split_ifs
  all_goals first
    | rfl
    | (simp [ws_close_calls_append, ws_close_calls]; done)
    | (simp only [ws_start_write_close_calls])

theorem ws_close_close_calls (e : ws_env) (ws : nni_ws) (code : Nat) :
    ws_close_calls (ws_close e ws code).trace =
      ws_close_calls ws.trace ++ [ws_event.ws_close code] := by
  have hs : ∀ t, ws_close_calls (ws_event.ws_close code :: t) =
      ws_event.ws_close code :: ws_close_calls t := fun _ => rfl
  unfold ws_close
  simp only
  split_ifs
  · simp only [ws_send_close_close_calls]
    simp [ws_close_calls_append, ws_close_calls_close_msgs, hs]
  · simp [ws_close_calls_append, ws_close_calls_close_msgs, hs]

/-- What every call of `ws_close` leaves: the connection is closed, its receive
queue is empty, the rx slot and the pending read are as before, no read is
submitted and no message delivered, and the call is recorded with its code. -/
theorem ws_close_effect (e : ws_env) (ws : nni_ws) (code : Nat) :
    (ws_close e ws code).closed = true ∧
    (ws_close e ws code).rxmsgs = [] ∧
    (ws_close e ws code).rxaio = ws.rxaio ∧
    (ws_close e ws code).rxframe = ws.rxframe ∧
    ws_rx_events (ws_close e ws code).trace = ws_rx_events ws.trace ∧
    ws_close_calls (ws_close e ws code).trace =
      ws_close_calls ws.trace ++ [ws_event.ws_close code] :=
  ⟨ws_close_closed e ws code, ws_close_rxmsgs e ws code, ws_close_rxaio e ws code,
    (ws_close_rx e ws code).1, (ws_close_rx e ws code).2.2.2, ws_close_close_calls e ws code⟩

theorem ws_rx_seen_head (frame : ws_frame) : (ws_rx_seen frame).head = frame.head := by
  unfold ws_rx_seen
  split_ifs
  · exact ws_read_cb_parse_head frame
  · rfl

/-- With the header of the frame in the rx slot complete, `ws_read_cb` runs its
size checks on the frame as the header parse leaves it. -/
theorem ws_read_cb_seen (e : ws_env) (ws : nni_ws) (frame : ws_frame)
    (hrx : ws.rxframe = some frame) (hb : frame.buf = none)
    (hc : frame.hlen = 0 → (ws_read_cb_parse frame).hlen = 2) :
    ws_read_cb e 0 ws =
      ws_read_cb_size e { ws with rxframe := some (ws_rx_seen frame) } (ws_rx_seen frame) := by
  unfold ws_rx_seen
  by_cases hz : frame.hlen = 0
  · rw [ws_read_cb_first e ws frame hrx hz hb, if_neg (not_not.mpr (hc hz)), if_pos hz]
  · rw [ws_read_cb_second e ws frame hrx hz hb, if_neg hz, ← hrx]

/-- The size checks of `ws_read_cb` in terms of the header bytes: the test for
a non-minimal length encoding, then the test against `maxframe`, then the
masking check. -/
theorem ws_read_cb_size_cases (e : ws_env) (ws : nni_ws) (frame : ws_frame) :
    ws_read_cb_size e ws frame =
      if (frame.head.getD 1 0 &&& 0x7F = 127 ∧ ws_wire_len frame.head < 65536) ∨
          (frame.head.getD 1 0 &&& 0x7F = 126 ∧ ws_wire_len frame.head < 126) then
        ws_close e { ws with rxframe := some { frame with len := ws_wire_len frame.head } }
          WS_CLOSE_PROTOCOL_ERR
      else if ws_wire_len frame.head > ws.maxframe then
        ws_close e { ws with rxframe := some { frame with len := ws_wire_len frame.head } }
          WS_CLOSE_TOO_BIG
      else
        ws_read_cb_mask e
          { ws with rxframe := some { frame with len := ws_wire_len frame.head } }
          { frame with len := ws_wire_len frame.head } := by
  unfold ws_read_cb_size ws_wire_len ws_read_cb_checks
  simp only
  generalize frame.head.getD 1 0 &&& 0x7F = c
  generalize NNI_GET64 (frame.head.drop 2) = g64
  generalize NNI_GET16 (frame.head.drop 2) = g16
  by_cases c7 : c = 127
  · subst c7
    have c6 : ¬ ((127 : Nat) = 126) := by omega
    simp only [if_true, true_and, c6, false_and, or_false, if_false]
  · by_cases c6 : c = 126
    · subst c6
      simp only [c7, if_true, if_false, true_and, false_and, false_or]
    · simp only [c7, c6, if_true, if_false, true_and, false_and, false_or]

theorem ws_read_cb_cases (e : ws_env) (ws : nni_ws) (frame : ws_frame)
    (hrx : ws.rxframe = some frame) (hb : frame.buf = none)
    (hc : frame.hlen = 0 → (ws_read_cb_parse frame).hlen = 2) :
    ws_read_cb e 0 ws =
      if (frame.head.getD 1 0 &&& 0x7F = 127 ∧ ws_wire_len frame.head < 65536) ∨
          (frame.head.getD 1 0 &&& 0x7F = 126 ∧ ws_wire_len frame.head < 126) then
        ws_close e { ws with rxframe := some (ws_rx_sized frame) } WS_CLOSE_PROTOCOL_ERR
      else if ws_wire_len frame.head > ws.maxframe then
        ws_close e { ws with rxframe := some (ws_rx_sized frame) } WS_CLOSE_TOO_BIG
      else
        ws_read_cb_mask e { ws with rxframe := some (ws_rx_sized frame) } (ws_rx_sized frame) := by
  simp only [ws_rx_sized]
  rw [ws_read_cb_seen e ws frame hrx hb hc, ws_read_cb_size_cases]
  simp only [ws_rx_seen_head]

/-- Claim C11 (disposition of an inbound data frame).  For a frame whose opcode
is binary or continuation, `ws_read_frame_cb` does the following.  With no
receive message queued it calls `ws_close` with the code 1001.  With a head
receive message `wm`, a binary frame is appended to `wm` when `wm` holds no
frame and a continuation frame is appended when `wm` holds at least one frame
(the frame leaves the rx slot and the function goes on to its completion
check); in the two opposite cases it calls `ws_close` with the code 1002.  In
every rejection the call of `ws_close` with the code named is the only call of
`ws_close` made, the connection ends closed with an empty receive queue (so the
rejected frame is in no message) and the frame is still in the rx slot. -/
theorem ws_read_frame_cb_data_disposition (e : ws_env) (ws : nni_ws) (frame : ws_frame)
    (hop : frame.op = WS_BINARY ∨ frame.op = WS_CONT) :
    (ws.rxmsgs = [] →
      ws_read_frame_cb e ws frame = ws_close e ws WS_CLOSE_GOING_AWAY ∧
      ws_close_calls (ws_read_frame_cb e ws frame).trace =
        ws_close_calls ws.trace ++ [ws_event.ws_close 1001] ∧
      (ws_read_frame_cb e ws frame).closed = true ∧
      (ws_read_frame_cb e ws frame).rxmsgs = [] ∧
      (ws_read_frame_cb e ws frame).rxframe = ws.rxframe) ∧
    (∀ wm rest, ws.rxmsgs = wm :: rest →
      (((frame.op = WS_BINARY ∧ wm.frames = []) ∨ (frame.op = WS_CONT ∧ wm.frames ≠ [])) →
        ws_read_frame_cb e ws frame =
          ws_read_frame_done
            { ws with
                rxframe := none,
                rxmsgs := { wm with frames := wm.frames ++ [frame] } :: rest }) ∧
      (((frame.op = WS_BINARY ∧ wm.frames ≠ []) ∨ (frame.op = WS_CONT ∧ wm.frames = [])) →
        ws_read_frame_cb e ws frame = ws_close e ws WS_CLOSE_PROTOCOL_ERR ∧
        ws_close_calls (ws_read_frame_cb e ws frame).trace =
          ws_close_calls ws.trace ++ [ws_event.ws_close 1002] ∧
        (ws_read_frame_cb e ws frame).closed = true ∧
        (ws_read_frame_cb e ws frame).rxmsgs = [] ∧
        (ws_read_frame_cb e ws frame).rxframe = ws.rxframe)) := by
  have hclose : ∀ code, ws_close_calls (ws_close e ws code).trace =
        ws_close_calls ws.trace ++ [ws_event.ws_close code] ∧
      (ws_close e ws code).closed = true ∧ (ws_close e ws code).rxmsgs = [] ∧
      (ws_close e ws code).rxframe = ws.rxframe := by
    intro code
    have he := ws_close_effect e ws code
    exact ⟨he.2.2.2.2.2, he.1, he.2.1, he.2.2.2.1⟩
  refine ⟨?_, ?_⟩
  · intro hrx
    have h : ws_read_frame_cb e ws frame = ws_close e ws WS_CLOSE_GOING_AWAY := by
      unfold ws_read_frame_cb
      rcases hop with h | h
      · rw [if_neg (by rw [h]; decide), if_pos h, hrx]
      · rw [if_pos h, hrx]
    rw [h]
    exact ⟨rfl, hclose _⟩
  · intro wm rest hrx
    refine ⟨?_, ?_⟩
    · intro hacc
      unfold ws_read_frame_cb
      rcases hacc with ⟨h1, h2⟩ | ⟨h1, h2⟩
      · rw [if_neg (by rw [h1]; decide), if_pos h1, hrx]
        simp [h2]
      · rw [if_pos h1, hrx]
        have : wm.frames.isEmpty = false := by
          cases hf : wm.frames with
          | nil => exact absurd hf h2
          | cons _ _ => rfl
        simp [this]
    · intro hrej
      have h : ws_read_frame_cb e ws frame = ws_close e ws WS_CLOSE_PROTOCOL_ERR := by
        unfold ws_read_frame_cb
        rcases hrej with ⟨h1, h2⟩ | ⟨h1, h2⟩
        · rw [if_neg (by rw [h1]; decide), if_pos h1, hrx]
          have : wm.frames.isEmpty = false := by
            cases hf : wm.frames with
            | nil => exact absurd hf h2
            | cons _ _ => rfl
          simp [this]
        · rw [if_pos h1, hrx]
          simp [h2]
      rw [h]
      exact ⟨rfl, hclose _⟩

theorem ws_rx_frame_idle (e : ws_env) (ws : nni_ws) (wire : List Nat) (h : ws.rxaio = none) :
    ws_rx_frame e ws wire = ws := by
  have h1 : ws_http_read_done e ws wire = ws := by
    unfold ws_http_read_done
    rw [h]
    cases ws.rxframe <;> rfl
  have h2 : ws_rx_header e ws wire = ws := by
    unfold ws_rx_header
    simp only [h1, h]
  unfold ws_rx_frame
  simp only [h2, h]

theorem ws_rx_frames_idle (e : ws_env) (frames : List ws_frame) (ws : nni_ws)
    (h : ws.rxaio = none) : ws_rx_frames e ws frames = ws := by
  induction frames with
  | nil => rfl
  | cons fr rest ih =>
    rw [ws_rx_frames_cons, ws_rx_frame_idle e ws _ h]
    exact ih

/-- The first read of a frame, whatever bytes arrive: `ws_start_read` has named
`frame->buf` (`NULL`) as the destination of the two bytes, so `frame->head`
still holds zero bytes when `ws_read_cb` parses it.  The header it sees is that
of an unmasked, non-final continuation frame without payload: on a listener
the masking check ends in `ws_close(ws, 1002)`, on a dialer `ws_read_frame_cb`
gets a continuation frame for a message without frames and ends in
`ws_close(ws, 1002)` as well. -/
theorem ws_http_read_done_first (e : ws_env) (ws : nni_ws) (wm : ws_msg) (rest : List ws_msg)
    (data : List Nat) (hrx : ws.rxframe = some ws_frame_zalloc)
    (haio : ws.rxaio = some (ws_iov_buf.frame_buf, 2))
    (hq : ws.rxmsgs = wm :: rest) (hwm : wm.frames = []) :
    ws_http_read_done e ws data =
      ws_close e
        { ws with rxframe := some { ws_frame_zalloc with hlen := 2 }, rxaio := none }
        WS_CLOSE_PROTOCOL_ERR := by
  have h1 : ws_http_read_done e ws data =
      ws_read_cb e 0 { ws with rxframe := some ws_frame_zalloc, rxaio := none } := by
    simp only [ws_http_read_done, hrx, haio]
    rfl
  rw [h1, ws_read_cb_cases e _ ws_frame_zalloc rfl rfl (by decide)]
  rw [if_neg (by decide), if_neg (by
    have : ws_wire_len ws_frame_zalloc.head = 0 := by decide
    rw [this]
    exact Nat.not_lt_zero _)]
  have hz : ws_rx_sized ws_frame_zalloc = { ws_frame_zalloc with hlen := 2 } := by decide
  rw [hz, ws_read_cb_mask_plain _ _ _ rfl]
  by_cases hmode : ws.mode = NNI_EP_MODE_LISTEN
  · rw [if_pos (show ({ ws with rxframe := some ws_frame_zalloc, rxaio := none } : nni_ws).mode =
      NNI_EP_MODE_LISTEN from hmode)]
  · rw [if_neg (show ¬ ({ ws with rxframe := some ws_frame_zalloc, rxaio := none } : nni_ws).mode =
      NNI_EP_MODE_LISTEN from hmode)]
    unfold ws_read_cb_data
    rw [if_neg (by decide)]
    unfold ws_read_cb_complete
    simp only
    have hu : ws_unmask_frame { ws_frame_zalloc with hlen := 2 } =
        { ws_frame_zalloc with hlen := 2 } := by decide
    rw [hu]
    have hcb : ws_read_frame_cb e
        { ws with rxframe := some { ws_frame_zalloc with hlen := 2 }, rxaio := none }
        { ws_frame_zalloc with hlen := 2 } =
        ws_close e
          { ws with rxframe := some { ws_frame_zalloc with hlen := 2 }, rxaio := none }
          WS_CLOSE_PROTOCOL_ERR := by
      unfold ws_read_frame_cb
      rw [if_pos (by decide)]
      simp only [hq, hwm, List.isEmpty_nil, if_true]
    have hcb2 : ws_read_frame_cb e
        { mode := ws.mode, closed := ws.closed, ready := ws.ready, txmsgs := ws.txmsgs,
          rxmsgs := ws.rxmsgs, txframe := ws.txframe,
          rxframe := some { ws_frame_zalloc with hlen := 2 }, rxaio := none,
          maxframe := ws.maxframe, fragsize := ws.fragsize, trace := ws.trace }
        { ws_frame_zalloc with hlen := 2 } =
        ws_close e
          { ws with rxframe := some { ws_frame_zalloc with hlen := 2 }, rxaio := none }
          WS_CLOSE_PROTOCOL_ERR := hcb
    rw [hcb2]
    unfold ws_start_read
    rw [if_pos (by rw [ws_close_closed]; simp)]

theorem ws_send_close_trace (e : ws_env) (ws : nni_ws) (code : Nat) :
    ∃ evs, (ws_send_close e ws code).trace = ws.trace ++ evs := by
  unfold ws_send_close
  simp only
  split
  · exact ⟨[], by simp⟩
  · split
    · exact ⟨[], by simp⟩
    · split
      · exact ⟨_, rfl⟩
      · obtain ⟨evs, h, _⟩ := ws_start_write_trace
          { ws with closed := true, txmsgs := (ws_msg_init_control e.wm 2).2 :: ws.txmsgs }
        exact ⟨evs, h⟩

theorem ws_close_trace (e : ws_env) (ws : nni_ws) (code : Nat) :
    ∃ evs, (ws_close e ws code).trace =
      ws.trace ++ [ws_event.ws_close code] ++ ws_close_msgs ws.rxmsgs ++ evs := by
  unfold ws_close
  simp only
  split
  · obtain ⟨evs, h⟩ := ws_send_close_trace e
      { ws with trace := ws.trace ++ [ws_event.ws_close code] ++ ws_close_msgs ws.rxmsgs,
                rxmsgs := [] } code
    exact ⟨evs, h⟩
  · exact ⟨_, rfl⟩

/-- Claim C1 (fragment/assemble round trip), as the code runs it.  For every
message, every fragsize of at least 1 and either pairing, `ws_msg_init_tx`
builds a chain of at least one frame; fed in order through the receive path of
a peer with one queued receiver `aio`, whatever its `maxframe`, these frames do
not complete the receiver with the message.  The read of the first two bytes
names `frame->buf`, still `NULL`, as its destination, so `ws_read_cb` parses
the zero bytes of `frame->head`: the receive path ends in
`ws_close(ws, 1002)`, the connection is closed, the receiver is completed with
`NNG_ECLOSED`, no message is delivered and no further read is submitted. -/
theorem ws_recv_msg_first_read (e : ws_env) (tx rx : nni_ws) (r : Nat → Nat) (msg : nni_msg)
    (txaio : Option Nat) (aio : Nat)
    (hf : 1 ≤ tx.fragsize) (hcl : rx.closed = false) (hrf : rx.rxframe = none)
    (hq : rx.rxmsgs = []) :
    ∃ wm, ws_msg_init_tx tx r msg txaio = some wm ∧ wm.frames ≠ [] ∧
      ws_rx_frames e (nni_ws_recv_msg rx aio) wm.frames =
        ws_close e
          { rx with
              rxmsgs := [ws_msg_init_rx (some aio)],
              rxframe := some { ws_frame_zalloc with hlen := 2 },
              rxaio := none,
              trace := rx.trace ++ [ws_event.nni_http_read_full ws_iov_buf.frame_buf 2] }
          WS_CLOSE_PROTOCOL_ERR ∧
      (ws_rx_frames e (nni_ws_recv_msg rx aio) wm.frames).closed = true ∧
      (ws_rx_frames e (nni_ws_recv_msg rx aio) wm.frames).rxmsgs = [] ∧
      ws_close_calls (ws_rx_frames e (nni_ws_recv_msg rx aio) wm.frames).trace =
        ws_close_calls rx.trace ++ [ws_event.ws_close 1002] ∧
      ws_rx_events (ws_rx_frames e (nni_ws_recv_msg rx aio) wm.frames).trace =
        ws_rx_events rx.trace ++ [ws_event.nni_http_read_full ws_iov_buf.frame_buf 2] ∧
      ws_event.nni_aio_finish_error aio NNG_ECLOSED ∈
        (ws_rx_frames e (nni_ws_recv_msg rx aio) wm.frames).trace := by
  refine ⟨_, ws_msg_init_tx_eq tx r msg txaio hf, ?_, ?_⟩
  · intro h
    have hl := congrArg List.length h
    simp only [ws_tx_chain_length, List.length_nil] at hl
    omega
  · generalize hfr : (ws_tx_chain tx.mode tx.fragsize r (ws_msg_init_tx_msg msg).body.length
      (ws_msg_init_tx_msg msg).body WS_BINARY 0) = frames
    have hne : frames ≠ [] := by
      intro h
      have hl := congrArg List.length (hfr.trans h)
      simp only [ws_tx_chain_length, List.length_nil] at hl
      omega
    obtain ⟨fr, rest, rfl⟩ := List.exists_cons_of_ne_nil hne
    have hstart : nni_ws_recv_msg rx aio =
        { rx with
            rxmsgs := [ws_msg_init_rx (some aio)],
            rxframe := some ws_frame_zalloc,
            rxaio := some (ws_iov_buf.frame_buf, 2),
            trace := rx.trace ++ [ws_event.nni_http_read_full ws_iov_buf.frame_buf 2] } := by
      unfold nni_ws_recv_msg ws_start_read
      simp [hcl, hrf, hq]
      rfl
    have hdone : ∀ data, ws_http_read_done e (nni_ws_recv_msg rx aio) data =
        ws_close e
          { rx with
              rxmsgs := [ws_msg_init_rx (some aio)],
              rxframe := some { ws_frame_zalloc with hlen := 2 },
              rxaio := none,
              trace := rx.trace ++ [ws_event.nni_http_read_full ws_iov_buf.frame_buf 2] }
          WS_CLOSE_PROTOCOL_ERR := by
      intro data
      rw [hstart]
      exact ws_http_read_done_first e _ (ws_msg_init_rx (some aio)) [] data rfl rfl rfl rfl
    obtain ⟨hc1, hc2, hc3, hc4, hc5, hc6⟩ := ws_close_effect e
      { rx with
          rxmsgs := [ws_msg_init_rx (some aio)],
          rxframe := some { ws_frame_zalloc with hlen := 2 },
          rxaio := none,
          trace := rx.trace ++ [ws_event.nni_http_read_full ws_iov_buf.frame_buf 2] }
      WS_CLOSE_PROTOCOL_ERR
    have hframe : ws_rx_frame e (nni_ws_recv_msg rx aio) fr.wire =
        ws_close e
          { rx with
              rxmsgs := [ws_msg_init_rx (some aio)],
              rxframe := some { ws_frame_zalloc with hlen := 2 },
              rxaio := none,
              trace := rx.trace ++ [ws_event.nni_http_read_full ws_iov_buf.frame_buf 2] }
          WS_CLOSE_PROTOCOL_ERR := by
      unfold ws_rx_frame ws_rx_header
      simp only [hdone, hc3]
    have hall : ws_rx_frames e (nni_ws_recv_msg rx aio) (fr :: rest) =
        ws_close e
          { rx with
              rxmsgs := [ws_msg_init_rx (some aio)],
              rxframe := some { ws_frame_zalloc with hlen := 2 },
              rxaio := none,
              trace := rx.trace ++ [ws_event.nni_http_read_full ws_iov_buf.frame_buf 2] }
          WS_CLOSE_PROTOCOL_ERR := by
      rw [ws_rx_frames_cons, hframe]
      exact ws_rx_frames_idle e rest _ hc3
    simp only [hall]
    refine ⟨trivial, hc1, hc2, ?_, ?_, ?_⟩
    · rw [hc6]
      simp [ws_close_calls_append, ws_close_calls, WS_CLOSE_PROTOCOL_ERR]
    · rw [hc5]
      simp [ws_rx_events_append, ws_rx_events]
    · obtain ⟨evs, ht⟩ := ws_close_trace e
        { rx with
            rxmsgs := [ws_msg_init_rx (some aio)],
            rxframe := some { ws_frame_zalloc with hlen := 2 },
            rxaio := none,
            trace := rx.trace ++ [ws_event.nni_http_read_full ws_iov_buf.frame_buf 2] }
        WS_CLOSE_PROTOCOL_ERR
      rw [ht]
      simp [ws_close_msgs, ws_msg_init_rx]

theorem ws_recv_msg_first_read_witness :
    ∃ wm, ws_msg_init_tx ws_ex_dialer ws_ex_key ws_ex_msg (some 3) = some wm ∧
      wm.frames.length = 3 ∧
      (ws_rx_frames ws_ex_env (nni_ws_recv_msg ws_ex_listener 7) wm.frames).closed = true ∧
      ws_close_calls (ws_rx_frames ws_ex_env (nni_ws_recv_msg ws_ex_listener 7) wm.frames).trace =
        [ws_event.ws_close 1002] ∧
      ws_rx_events (ws_rx_frames ws_ex_env (nni_ws_recv_msg ws_ex_listener 7) wm.frames).trace =
        [ws_event.nni_http_read_full ws_iov_buf.frame_buf 2] ∧
      ws_event.nni_aio_finish_error 7 NNG_ECLOSED ∈
        (ws_rx_frames ws_ex_env (nni_ws_recv_msg ws_ex_listener 7) wm.frames).trace := by
  obtain ⟨wm, h1, _, _, h4, _, h6, h7, h8⟩ :=
    ws_recv_msg_first_read ws_ex_env ws_ex_dialer ws_ex_listener ws_ex_key ws_ex_msg (some 3) 7
      (by decide) rfl rfl rfl
  refine ⟨wm, h1, ?_, h4, h6, h7, h8⟩
  have h := ws_msg_init_tx_eq ws_ex_dialer ws_ex_key ws_ex_msg (some 3) (by decide)
  rw [h] at h1
  injection h1 with h1
  rw [← h1]
  simp only [ws_tx_chain_length]
  decide

theorem ws_read_frame_cb_data_disposition_witness :
    ws_close_calls (ws_read_frame_cb ws_ex_env
        { ws_ex_listener with rxmsgs := [ws_ex_rxmsg], rxframe := some ws_ex_frame }
        ws_ex_frame).trace = [ws_event.ws_close 1002] :=
  (((ws_read_frame_cb_data_disposition ws_ex_env
      { ws_ex_listener with rxmsgs := [ws_ex_rxmsg], rxframe := some ws_ex_frame }
      ws_ex_frame (Or.inl (by decide))).2 ws_ex_rxmsg [] rfl).2
    (Or.inl ⟨by decide, by decide⟩)).2.1

/-! ## Control frames under the connection lock -/

theorem ws_read_frame_cb_mtx_free (e : ws_env) (ws : nni_ws) (frame : ws_frame) :
    ws_read_frame_cb_mtx false e ws frame = some (ws_read_frame_cb e ws frame) := by
  by_cases h : frame.op = WS_PING
  · have h1 : ¬ frame.op = WS_CONT := by rw [h]; decide
    have h2 : ¬ frame.op = WS_BINARY := by rw [h]; decide
    have h3 : ¬ frame.op = WS_TEXT := by rw [h]; decide
    unfold ws_read_frame_cb
    rw [if_neg h1, if_neg h2, if_neg h3, if_pos h]
    unfold ws_read_frame_cb_mtx
    rw [if_pos h]
    by_cases hl : frame.len > 125
    · rw [if_pos hl, if_pos hl]
    · rw [if_neg hl, if_neg hl]
      rfl
  · unfold ws_read_frame_cb_mtx
    rw [if_neg h]

/-- Claim C30 (control frames and a partial message), as the code runs it.
Let the head receive message `wm` of a connection hold at least one frame, the
last of them not final, and let a control frame of at most 125 bytes be handed
to `ws_read_frame_cb` by `ws_read_cb`, which holds `ws->mtx`.  For a pong the
call returns and nothing but the rx slot, which is cleared, has changed: the
receive queue, `wm` and its frames are as before, no call is made and the
connection is not closed; a final continuation frame `f` that follows delivers
to the receiver of `wm` the concatenation of the payloads of the frames of `wm`
and of `f`.  For a ping the call does not return: `ws_send_control` starts by
taking `ws->mtx`, which its caller holds. -/
theorem ws_read_frame_cb_control_interleaved (e : ws_env) (ws : nni_ws) (frame : ws_frame)
    (wm : ws_msg) (rest : List ws_msg) (last : ws_frame)
    (hrx : ws.rxmsgs = wm :: rest) (hlast : wm.frames.getLast? = some last)
    (hnf : last.final = false) (hlen : frame.len ≤ 125) :
    (frame.op = WS_PONG →
      ws_read_frame_cb_mtx true e ws frame = some { ws with rxframe := none } ∧
      ∀ f : ws_frame, f.op = WS_CONT → f.final = true →
        (∀ g ∈ wm.frames ++ [f], g.payload.length = g.len) →
        ws_read_frame_cb_mtx true e { ws with rxframe := none } f =
          some { ws with
              rxframe := none,
              rxmsgs := rest,
              trace := ws.trace ++
                [ws_event.nni_aio_finish_msg wm.aio
                  { header := [],
                    body := ((wm.frames ++ [f]).map ws_frame.payload).flatten }] }) ∧
    (frame.op = WS_PING → ws_read_frame_cb_mtx true e ws frame = none) := by
  have hne : wm.frames ≠ [] := by
    intro h
    rw [h] at hlast
    simp at hlast
  refine ⟨?_, ?_⟩
  · intro h
    refine ⟨?_, ?_⟩
    · unfold ws_read_frame_cb_mtx
      rw [if_neg (by rw [h]; decide)]
      unfold ws_read_frame_cb
      rw [if_neg (by rw [h]; decide), if_neg (by rw [h]; decide), if_neg (by rw [h]; decide),
        if_neg (by rw [h]; decide), if_pos h, if_neg (by omega)]
      exact congrArg some
        (ws_read_frame_done_nonfinal { ws with rxframe := none } wm rest last hrx hlast hnf)
    · intro f hf hfin hbuf
      unfold ws_read_frame_cb_mtx
      rw [if_neg (by rw [hf]; decide)]
      refine congrArg some ?_
      rw [ws_read_frame_cb_accept e { ws with rxframe := none } f wm rest hrx hf hne]
      rw [ws_read_frame_done_final _ { wm with frames := wm.frames ++ [f] } rest f wm.frames
        rfl rfl hfin hbuf]
  · intro h
    unfold ws_read_frame_cb_mtx
    rw [if_pos h, if_neg (by omega)]
    rfl

theorem ws_read_frame_cb_control_interleaved_witness :
    ws_read_frame_cb_mtx true ws_ex_env
        { ws_ex_dialer with rxmsgs := [ws_ex_rxmsg], rxframe := some ws_ex_ping }
        ws_ex_ping = none :=
  (ws_read_frame_cb_control_interleaved ws_ex_env
    { ws_ex_dialer with rxmsgs := [ws_ex_rxmsg], rxframe := some ws_ex_ping }
    ws_ex_ping ws_ex_rxmsg [] { ws_ex_frame with final := false }
    rfl (by decide) rfl (by decide)).2 rfl

/-! ## The server handshake: requests, keys and subprotocols -/

/-- Claim C17 (order of the checks of the server handshake), at requests in
which no check of the claim fails.  The first request has the version
`HTTP/1.1`, the method `GET`, neither `Content-Length` nor
`Transfer-Encoding`, `Upgrade: websocket`, `Connection: keep-alive,Upgrade`,
`Sec-WebSocket-Version: 13`, a key of 22 Base64 characters and padding, and no
`Sec-WebSocket-Protocol`; the listener has neither subprotocol nor hook.  The
words of its `Connection` header are `keep-alive` and `Upgrade`, and
`ws_handler` answers 400: `ws_contains_word` does not find a word that follows
a comma directly.  With a space after the comma the same request is answered
101 with `Connection: Upgrade`, `Upgrade: websocket` and
`Sec-WebSocket-Accept`.  The last request adds `Content-Length: 2147483648` to
that one: `atoi` gives an `int` that is not above zero, and the answer is 101,
not 413. -/
theorem ws_handler_connection_comma :
    (ws_ex_req_with ("Connection") (ws_str ("keep-alive,Upgrade"))).version =
      ws_str ("HTTP/1.1") ∧
    (ws_ex_req_with ("Connection") (ws_str ("keep-alive,Upgrade"))).method = ws_str ("GET") ∧
    (ws_ex_req_with ("Connection") (ws_str ("keep-alive,Upgrade"))).header
      ("Content-Length") = none ∧
    (ws_ex_req_with ("Connection") (ws_str ("keep-alive,Upgrade"))).header
      ("Transfer-Encoding") = none ∧
    (ws_ex_req_with ("Connection") (ws_str ("keep-alive,Upgrade"))).header ("Upgrade") =
      some (ws_str ("websocket")) ∧
    (ws_ex_req_with ("Connection") (ws_str ("keep-alive,Upgrade"))).header ("Connection") =
      some (ws_str ("keep-alive,Upgrade")) ∧
    ws_words (ws_str ("keep-alive,Upgrade")) = [ws_str ("keep-alive"), ws_str ("Upgrade")] ∧
    ws_contains_word_spec (ws_str ("keep-alive,Upgrade")) (ws_str ("upgrade")) = true ∧
    (ws_ex_req_with ("Connection") (ws_str ("keep-alive,Upgrade"))).header
      ("Sec-WebSocket-Version") = some (ws_str ("13")) ∧
    (ws_ex_req_with ("Connection") (ws_str ("keep-alive,Upgrade"))).header
      ("Sec-WebSocket-Key") = some (ws_str ("dGhlIHNhbXBsZSBub25jZQ==")) ∧
    (nni_base64_decode (ws_str ("dGhlIHNhbXBsZSBub25jZQ==")) 24 16).map List.length =
      some 16 ∧
    (ws_ex_req_with ("Connection") (ws_str ("keep-alive,Upgrade"))).header
      ("Sec-WebSocket-Protocol") = none ∧
    ws_ex_lst.proto = none ∧
    ws_ex_lst.hookfn.isNone = true ∧
    ws_handler ws_ex_lst (ws_ex_req_with ("Connection") (ws_str ("keep-alive,Upgrade"))) =
      ws_handler_result.err 400 ∧
    ws_handler ws_ex_lst (ws_ex_req_with ("Connection") (ws_str ("keep-alive, Upgrade"))) =
      ws_handler_result.upgrade { ws_ex_lst with reply := [ws_init NNI_EP_MODE_LISTEN] }
        (ws_init NNI_EP_MODE_LISTEN)
        { status := 101, reason := "Switching Protocols",
          headers :=
            [("Connection", ws_str ("Upgrade")), ("Upgrade", ws_str ("websocket")),
             ("Sec-WebSocket-Accept", ws_str ("BXhwxM0SZasKmCD9S4BfpPmCnEw="))] } ∧
    atoi (ws_str ("2147483648")) = -2147483648 ∧
    ws_handler ws_ex_lst (ws_ex_req_with ("Content-Length") (ws_str ("2147483648"))) =
      ws_handler_result.upgrade { ws_ex_lst with reply := [ws_init NNI_EP_MODE_LISTEN] }
        (ws_init NNI_EP_MODE_LISTEN)
        { status := 101, reason := "Switching Protocols",
          headers :=
            [("Connection", ws_str ("Upgrade")), ("Upgrade", ws_str ("websocket")),
             ("Sec-WebSocket-Accept", ws_str ("BXhwxM0SZasKmCD9S4BfpPmCnEw="))] } := by
  refine ⟨rfl, rfl, rfl, rfl, rfl, rfl, by decide, by decide, rfl, rfl, by decide, rfl, rfl,
    rfl, ?_, ?_, by decide, ?_⟩
  · rfl
  · rfl
  · rfl

theorem ws_commas_spaced_split (q : List Nat) (x : Nat) (t : List Nat)
    (h : ws_commas_spaced (q ++ 44 :: x :: t) = true) : x = 32 ∨ x = 44 := by
  induction q with
  | nil =>
    simp [ws_commas_spaced] at h
    exact h.1
  | cons y q ih =>
    simp only [List.cons_append, ws_commas_spaced, Bool.and_eq_true] at h
    exact ih h.2

theorem tolower_sep (x y : Nat) (h : tolower x = tolower y) (hy : y ≠ 32 ∧ y ≠ 44) :
    x ≠ 32 ∧ x ≠ 44 := by
  unfold tolower at h
  split_ifs at h <;> omega

theorem nni_strncasecmp_map_eq (w word post : List Nat)
    (h : w.map tolower = word.map tolower) :
    nni_strncasecmp (w ++ post) word word.length = 0 := by
  induction w generalizing word with
  | nil =>
    cases word with
    | nil => simp [nni_strncasecmp]
    | cons y word => simp at h
  | cons x w ih =>
    cases word with
    | nil => simp at h
    | cons y word =>
      simp only [List.map_cons, List.cons.injEq] at h
      simp only [List.length_cons, List.cons_append]
      unfold nni_strncasecmp
      simp only [List.headD_cons, List.tail_cons, h.1, lt_self_iff_false, if_false, gt_iff_lt]
      split_ifs
      · rfl
      · exact ih word h.2

theorem ws_getD_append_length (w post : List Nat) (n : Nat) (h : w.length = n) :
    (w ++ post).getD n 0 = post.headD 0 := by
  subst h
  cases post with
  | nil => simp [List.getD]
  | cons c q =>
    simp only [List.getD_eq_getElem?_getD, List.headD_cons]
    rw [List.getElem?_append_right (le_refl _)]
    simp

theorem strchr_ends (q rest : List Nat) :
    ∃ a1, strchr (q ++ [32] ++ rest) 32 = some (32 :: (a1 ++ rest)) ∧
      (a1 = [] ∨ ∃ q1, a1 = q1 ++ [32]) ∧ a1.length ≤ q.length := by
  induction q with
  | nil => exact ⟨[], by simp [strchr], Or.inl rfl, by simp⟩
  | cons x q ih =>
    by_cases hx : x = 32
    · refine ⟨q ++ [32], ?_, Or.inr ⟨q, rfl⟩, by simp⟩
      simp [strchr, hx]
    · obtain ⟨a1, h1, h2, h3⟩ := ih
      refine ⟨a1, ?_, h2, by simp only [List.length_cons]; omega⟩
      simp only [List.cons_append, strchr, hx, if_false]
      simpa using h1

theorem ws_contains_word_skip_ends (a : List Nat) (x : Nat) (r : List Nat)
    (ha : a = [] ∨ ∃ q, a = q ++ [32]) (hx : x ≠ 32 ∧ x ≠ 44) :
    ∃ a3, ws_contains_word_skip (a ++ x :: r) = a3 ++ x :: r ∧
      (a3 = [] ∨ ∃ q, a3 = q ++ [32]) ∧ a3.length ≤ a.length := by
  induction a with
  | nil =>
    refine ⟨[], ?_, Or.inl rfl, by simp⟩
    simp [ws_contains_word_skip, hx.1, hx.2]
  | cons y a ih =>
    by_cases hy : y = 32 ∨ y = 44
    · have ha2 : a = [] ∨ ∃ q, a = q ++ [32] := by
        rcases ha with ha | ⟨q, hq⟩
        · simp at ha
        · cases q with
          | nil =>
            simp at hq
            exact Or.inl hq.2
          | cons z q =>
            simp at hq
            exact Or.inr ⟨q, hq.2⟩
      obtain ⟨a3, h1, h2, h3⟩ := ih ha2
      refine ⟨a3, ?_, h2, by simp only [List.length_cons]; omega⟩
      simp only [List.cons_append, ws_contains_word_skip, hy, if_true]
      exact h1
    · refine ⟨y :: a, ?_, ha, le_refl _⟩
      simp only [List.cons_append, ws_contains_word_skip, hy, if_false]
      rfl

theorem ws_contains_word_loop_complete (word : List Nat) (x : Nat) (r post : List Nat)
    (hw : (x :: r).map tolower = word.map tolower) (hx : x ≠ 32 ∧ x ≠ 44)
    (hpost : post = [] ∨ ∃ c q, post = c :: q ∧ (c = 32 ∨ c = 44)) (n : Nat) :
    ∀ a : List Nat, a.length ≤ n → (a = [] ∨ ∃ q, a = q ++ [32]) →
      ∀ fuel, n < fuel →
        ws_contains_word_loop word word.length fuel (some (a ++ x :: r ++ post)) =
          some true := by
  have hlen : (x :: r).length = word.length := by
    have := congrArg List.length hw
    simpa using this
  have htest : nni_strncasecmp (x :: r ++ post) word word.length = 0 ∧
      ((x :: r ++ post).getD word.length 0 = 0 ∨ (x :: r ++ post).getD word.length 0 = 32 ∨
        (x :: r ++ post).getD word.length 0 = 44) := by
    refine ⟨nni_strncasecmp_map_eq (x :: r) word post hw, ?_⟩
    rw [ws_getD_append_length (x :: r) post word.length hlen]
    rcases hpost with h | ⟨c, q, h, hc⟩
    · rw [h]; exact Or.inl rfl
    · rw [h]
      rcases hc with hc | hc
      · exact Or.inr (Or.inl hc)
      · exact Or.inr (Or.inr hc)
  induction n with
  | zero =>
    intro a ha _ fuel hf
    have ha0 : a = [] := List.length_eq_zero.mp (by omega)
    subst ha0
    obtain ⟨f, rfl⟩ : ∃ f, fuel = f + 1 := ⟨fuel - 1, by omega⟩
    unfold ws_contains_word_loop
    rw [if_neg (by simp)]
    simp only [List.nil_append]
    rw [if_pos htest]
  | succ n ih =>
    intro a ha hends fuel hf
    obtain ⟨f, rfl⟩ : ∃ f, fuel = f + 1 := ⟨fuel - 1, by omega⟩
    rcases hends with h0 | ⟨q, hq⟩
    · subst h0
      unfold ws_contains_word_loop
      rw [if_neg (by simp)]
      simp only [List.nil_append]
      rw [if_pos htest]
    · unfold ws_contains_word_loop
      rw [if_neg (by simp)]
      split_ifs with ht
      · rfl
      · obtain ⟨a1, h1, h2, h3⟩ := strchr_ends q (x :: r ++ post)
        have hphrase : a ++ x :: r ++ post = q ++ [32] ++ (x :: r ++ post) := by
          rw [hq]; simp
        rw [hphrase, h1]
        simp only [Option.map_some']
        have hskip : ws_contains_word_skip (32 :: (a1 ++ (x :: r ++ post))) =
            ws_contains_word_skip (a1 ++ x :: (r ++ post)) := by
          simp [ws_contains_word_skip]
        rw [hskip]
        obtain ⟨a3, h4, h5, h6⟩ := ws_contains_word_skip_ends a1 x (r ++ post) h2 hx
        rw [h4]
        have hal : a.length = q.length + 1 := by rw [hq]; simp
        have := ih a3 (by omega) h5 f (by omega)
        simpa using this

/-- In a phrase in which no comma is directly followed by a word,
`ws_contains_word` finds every word that starts with a character other than a
space or a comma and occurs in the phrase, ignoring ASCII case, bounded on each
side by a comma, a space or the start or end of the phrase. -/
theorem ws_contains_word_complete (phrase word : List Nat)
    (hs : ws_commas_spaced phrase = true)
    (hx : ∃ y t, word = y :: t ∧ y ≠ 32 ∧ y ≠ 44)
    (h : ws_word_bounded phrase word) :
    ws_contains_word (some phrase) word = true := by
  obtain ⟨pre, w, post, hsplit, hw, hpre, hpost⟩ := h
  obtain ⟨y, t, hword, hy⟩ := hx
  cases w with
  | nil =>
    rw [hword] at hw
    simp at hw
  | cons x r =>
    have hxy : tolower x = tolower y := by
      rw [hword] at hw
      simp only [List.map_cons, List.cons.injEq] at hw
      exact hw.1
    have hxs := tolower_sep x y hxy hy
    have hends : pre = [] ∨ ∃ q, pre = q ++ [32] := by
      rcases hpre with h | ⟨q, c, hq, hc⟩
      · exact Or.inl h
      · rcases hc with hc | hc
        · exact Or.inr ⟨q, by rw [hq, hc]⟩
        · exfalso
          rw [hsplit, hq, hc] at hs
          have := ws_commas_spaced_split q x (r ++ post) (by simpa using hs)
          rcases this with h1 | h1
          · exact hxs.1 h1
          · exact hxs.2 h1
    have hloop := ws_contains_word_loop_complete word x r post hw hxs hpost pre.length pre
      (le_refl _) hends (phrase.length + 1) (by rw [hsplit]; simp only [List.length_append]; omega)
    unfold ws_contains_word
    simp only [Option.getD_some]
    have hp : phrase = pre ++ x :: r ++ post := by rw [hsplit]
    rw [hp] at hloop ⊢
    rw [hloop]
    rfl

theorem ws_splitOn_single (c : Nat) (l : List Nat) (h : c ∉ l) : l.splitOn c = [l] := by
  simp only [List.splitOn]
  refine List.splitOnP_eq_single _ _ ?_
  intro x hx hxc
  rw [eq_of_beq hxc] at hx
  exact h hx

theorem ws_splitOn_first (c : Nat) (xs rest : List Nat) (h : c ∉ xs) :
    (xs ++ c :: rest).splitOn c = xs :: rest.splitOn c := by
  simp only [List.splitOn]
  refine List.splitOnP_first _ _ ?_ c (by simp) rest
  intro x hx hxc
  rw [eq_of_beq hxc] at hx
  exact h hx

theorem ws_ends_tail (c : Nat) (xs pre1 q : List Nat) (h : xs ++ c :: pre1 = q ++ [c]) :
    pre1 = [] ∨ ∃ q1, pre1 = q1 ++ [c] := by
  rcases List.eq_nil_or_concat pre1 with h1 | ⟨q1, z, h1⟩
  · exact Or.inl h1
  · right
    refine ⟨q1, ?_⟩
    rw [h1] at h
    have h2 : (xs ++ c :: q1) ++ [z] = q ++ [c] := by simpa using h
    have := List.append_inj' h2 rfl
    have hz : z = c := by simpa using this.2
    rw [h1, hz]
    simp

/-- The pieces of `l.splitOn c`: the lists without `c` that occur in `l` between
two `c` or an end of `l`. -/
theorem ws_mem_splitOn (c : Nat) (n : Nat) :
    ∀ l t : List Nat, l.length ≤ n →
      (t ∈ l.splitOn c ↔
        c ∉ t ∧ ∃ pre post, l = pre ++ t ++ post ∧
          (pre = [] ∨ ∃ q, pre = q ++ [c]) ∧ (post = [] ∨ ∃ q, post = c :: q)) := by
  induction n with
  | zero =>
    intro l t hl
    have h0 : l = [] := List.length_eq_zero.mp (by omega)
    subst h0
    simp only [List.splitOn_nil, List.mem_singleton]
    constructor
    · intro h
      subst h
      exact ⟨by simp, [], [], rfl, Or.inl rfl, Or.inl rfl⟩
    · rintro ⟨_, pre, post, h, _, _⟩
      have := congrArg List.length h
      simp only [List.length_nil, List.length_append] at this
      exact List.length_eq_zero.mp (by omega)
  | succ n ih =>
    intro l t hl
    by_cases hc : c ∈ l
    · obtain ⟨xs, rest, hsplit, hxs⟩ := List.eq_append_cons_of_mem hc
      have hrest : rest.length ≤ n := by
        have := congrArg List.length hsplit
        simp only [List.length_append, List.length_cons] at this
        omega
      rw [hsplit, ws_splitOn_first c xs rest hxs, List.mem_cons, ih rest t hrest]
      constructor
      · rintro (h | ⟨h1, pre, post, h2, h3, h4⟩)
        · subst h
          exact ⟨hxs, [], c :: rest, by simp, Or.inl rfl, Or.inr ⟨rest, rfl⟩⟩
        · refine ⟨h1, xs ++ c :: pre, post, by rw [h2]; simp, Or.inr ?_, h4⟩
          rcases h3 with h3 | ⟨q, h3⟩
          · exact ⟨xs, by rw [h3]⟩
          · exact ⟨xs ++ c :: q, by rw [h3]; simp⟩
      · rintro ⟨h1, pre, post, h2, h3, h4⟩
        rcases h3 with h3 | ⟨q, h3⟩
        · subst h3
          rcases h4 with h4 | ⟨q, h4⟩
          · subst h4
            exfalso
            apply h1
            have : t = xs ++ c :: rest := by simpa using h2.symm
            rw [this]
            simp
          · subst h4
            left
            have h5 : xs ++ c :: rest = t ++ c :: q := by simpa using h2
            have hx := congrArg (List.takeWhile fun y => y != c) h5
            rw [List.takeWhile_append_of_pos, List.takeWhile_append_of_pos] at hx
            · simpa using hx.symm
            · intro y hy
              simp only [bne_iff_ne, ne_eq]
              rintro rfl
              exact h1 hy
            · intro y hy
              simp only [bne_iff_ne, ne_eq]
              rintro rfl
              exact hxs hy
        · right
          have hcp : c ∈ pre := by rw [h3]; simp
          obtain ⟨ys, pre1, hp, hys⟩ := List.eq_append_cons_of_mem hcp
          have h5 : xs ++ c :: rest = ys ++ c :: (pre1 ++ t ++ post) := by
            rw [h2, hp]; simp
          have hx := congrArg (List.takeWhile fun y => y != c) h5
          rw [List.takeWhile_append_of_pos, List.takeWhile_append_of_pos] at hx
          · simp only [List.takeWhile_cons, bne_self_eq_false, Bool.false_eq_true, if_false,
              List.append_nil] at hx
            rw [hx] at h5
            have h6 : rest = pre1 ++ t ++ post := by simpa using h5
            exact ⟨h1, pre1, post, h6, ws_ends_tail c ys pre1 q (by rw [← hp, h3]), h4⟩
          · intro y hy
            simp only [bne_iff_ne, ne_eq]
            rintro rfl
            exact hys hy
          · intro y hy
            simp only [bne_iff_ne, ne_eq]
            rintro rfl
            exact hxs hy
    · rw [ws_splitOn_single c l hc, List.mem_singleton]
      constructor
      · intro h
        subst h
        exact ⟨hc, [], [], by simp, Or.inl rfl, Or.inl rfl⟩
      · rintro ⟨h1, pre, post, h2, h3, h4⟩
        rcases h3 with h3 | ⟨q, h3⟩
        · rcases h4 with h4 | ⟨q, h4⟩
          · rw [h2, h3, h4]; simp
          · exfalso; apply hc; rw [h2, h4]; simp
        · exfalso; apply hc; rw [h2, h3]; simp

theorem ws_suffix_free (c : Nat) (pre : List Nat) :
    ∃ p1 a, pre = p1 ++ a ∧ c ∉ a ∧ (p1 = [] ∨ ∃ q, p1 = q ++ [c]) := by
  induction pre using List.reverseRecOn with
  | nil => exact ⟨[], [], rfl, by simp, Or.inl rfl⟩
  | append_singleton pre x ih =>
    by_cases hx : x = c
    · exact ⟨pre ++ [x], [], by simp, by simp, Or.inr ⟨pre, by rw [hx]⟩⟩
    · obtain ⟨p1, a, h1, h2, h3⟩ := ih
      refine ⟨p1, a ++ [x], by rw [h1]; simp, ?_, h3⟩
      simp only [List.mem_append, List.mem_singleton, not_or]
      exact ⟨h2, fun h => hx h.symm⟩

theorem ws_prefix_free (c : Nat) (post : List Nat) :
    ∃ b q1, post = b ++ q1 ∧ c ∉ b ∧ (q1 = [] ∨ ∃ q, q1 = c :: q) := by
  by_cases hc : c ∈ post
  · obtain ⟨xs, rest, h1, h2⟩ := List.eq_append_cons_of_mem hc
    exact ⟨xs, c :: rest, h1, h2, Or.inr ⟨rest, rfl⟩⟩
  · exact ⟨post, [], by simp, hc, Or.inl rfl⟩

/-- Every word of `ws_words phrase` is a non-empty piece of the phrase bounded
on each side by a comma, a space or an end of the phrase. -/
theorem ws_words_bounded (phrase w : List Nat) (h : w ∈ ws_words phrase) :
    w ≠ [] ∧ ∃ pre post, phrase = pre ++ w ++ post ∧
      (pre = [] ∨ ∃ q c, pre = q ++ [c] ∧ (c = 32 ∨ c = 44)) ∧
      (post = [] ∨ ∃ c q, post = c :: q ∧ (c = 32 ∨ c = 44)) := by
  unfold ws_words at h
  simp only [List.mem_filter, List.mem_flatMap, decide_eq_true_eq] at h
  obtain ⟨⟨s, hs, hw⟩, hne⟩ := h
  refine ⟨hne, ?_⟩
  obtain ⟨_, p1, q1, e1, b1, b2⟩ := (ws_mem_splitOn 32 phrase.length phrase s (le_refl _)).mp hs
  obtain ⟨_, p2, q2, e2, b3, b4⟩ := (ws_mem_splitOn 44 s.length s w (le_refl _)).mp hw
  refine ⟨p1 ++ p2, q2 ++ q1, by rw [e1, e2]; simp, ?_, ?_⟩
  · rcases b3 with b3 | ⟨q, b3⟩
    · subst b3
      rcases b1 with b1 | ⟨q, b1⟩
      · exact Or.inl (by rw [b1]; rfl)
      · exact Or.inr ⟨q, 32, by rw [b1]; simp, Or.inl rfl⟩
    · exact Or.inr ⟨p1 ++ q, 44, by rw [b3]; simp, Or.inr rfl⟩
  · rcases b4 with b4 | ⟨q, b4⟩
    · subst b4
      rcases b2 with b2 | ⟨q, b2⟩
      · exact Or.inl (by rw [b2]; rfl)
      · exact Or.inr ⟨32, q, by rw [b2]; simp, Or.inl rfl⟩
    · exact Or.inr ⟨44, q ++ q1, by rw [b4]; simp, Or.inr rfl⟩

/-- A non-empty piece of the phrase without comma or space, bounded on each
side by a comma, a space or an end of the phrase, is a word of
`ws_words phrase`. -/
theorem ws_words_of_bounded (phrase w pre post : List Nat) (hne : w ≠ [])
    (hw : ∀ c ∈ w, c ≠ 32 ∧ c ≠ 44) (hsplit : phrase = pre ++ w ++ post)
    (hpre : pre = [] ∨ ∃ q c, pre = q ++ [c] ∧ (c = 32 ∨ c = 44))
    (hpost : post = [] ∨ ∃ c q, post = c :: q ∧ (c = 32 ∨ c = 44)) :
    w ∈ ws_words phrase := by
  obtain ⟨p1, a, ea, ha, hp1⟩ := ws_suffix_free 32 pre
  obtain ⟨b, q1, eb, hb, hq1⟩ := ws_prefix_free 32 post
  have h32 : (32 : Nat) ∉ w := fun h => (hw 32 h).1 rfl
  have h44 : (44 : Nat) ∉ w := fun h => (hw 44 h).2 rfl
  have hs : a ++ w ++ b ∈ phrase.splitOn 32 := by
    refine (ws_mem_splitOn 32 phrase.length phrase _ (le_refl _)).mpr ⟨?_, p1, q1, ?_, hp1, hq1⟩
    · simp only [List.mem_append, not_or]
      exact ⟨⟨ha, h32⟩, hb⟩
    · rw [hsplit, ea, eb]; simp
  have ha44 : a = [] ∨ ∃ q, a = q ++ [44] := by
    rcases List.eq_nil_or_concat a with h | ⟨q, z, h⟩
    · exact Or.inl h
    · right
      have hz : z ∈ a := by rw [h]; simp
      rcases hpre with h0 | ⟨q0, c, h0, hc⟩
      · rw [h0] at ea
        have := congrArg List.length ea
        rw [h] at this
        simp only [List.length_nil, List.length_append, List.length_concat] at this
        omega
      · have h2 : q0 ++ [c] = (p1 ++ q) ++ [z] := by
          rw [← h0, ea, h]; simp
        have h3 := (List.append_inj' h2 rfl).2
        have hcz : c = z := by simpa using h3
        rcases hc with hc | hc
        · exfalso; apply ha; rw [← hc, hcz]; exact hz
        · exact ⟨q, by rw [h, ← hcz, hc]; simp⟩
  have hb44 : b = [] ∨ ∃ q, b = 44 :: q := by
    cases hbc : b with
    | nil => exact Or.inl rfl
    | cons z q =>
      right
      have hz : z ∈ b := by rw [hbc]; simp
      rcases hpost with h0 | ⟨c, q0, h0, hc⟩
      · rw [h0, hbc] at eb
        simp at eb
      · rw [h0, hbc] at eb
        have hcz : c = z := by
          simp only [List.cons_append, List.cons.injEq] at eb
          exact eb.1
        rcases hc with hc | hc
        · exfalso; apply hb; rw [← hc, hcz]; exact hz
        · exact ⟨q, by rw [← hcz, hc]⟩
  have hw2 : w ∈ (a ++ w ++ b).splitOn 44 :=
    (ws_mem_splitOn 44 (a ++ w ++ b).length _ w (le_refl _)).mpr ⟨h44, a, b, rfl, ha44, hb44⟩
  unfold ws_words
  simp only [List.mem_filter, List.mem_flatMap, decide_eq_true_eq]
  exact ⟨⟨a ++ w ++ b, hs, hw2⟩, hne⟩

/-- For a word without comma or space, occurring bounded in the phrase is the
same as being, ignoring ASCII case, one of the words of the phrase split at
commas and spaces. -/
theorem ws_word_bounded_iff_spec (phrase word : List Nat) (hne : word ≠ [])
    (hsep : ∀ c ∈ word, c ≠ 32 ∧ c ≠ 44) :
    ws_word_bounded phrase word ↔ ws_contains_word_spec phrase word = true := by
  unfold ws_contains_word_spec
  simp only [List.any_eq_true, decide_eq_true_eq]
  constructor
  · rintro ⟨pre, w, post, hsplit, hw, hpre, hpost⟩
    refine ⟨w, ws_words_of_bounded phrase w pre post ?_ ?_ hsplit hpre hpost, hw⟩
    · intro h
      rw [h] at hw
      cases word with
      | nil => exact hne rfl
      | cons y t => simp at hw
    · intro c hc
      have hm : tolower c ∈ word.map tolower := by
        rw [← hw]
        exact List.mem_map_of_mem _ hc
      obtain ⟨y, hy, hyc⟩ := List.mem_map.mp hm
      exact tolower_sep c y hyc.symm (hsep y hy)
  · rintro ⟨w, hmem, hw⟩
    obtain ⟨_, pre, post, hsplit, hpre, hpost⟩ := ws_words_bounded phrase w hmem
    exact ⟨pre, w, post, hsplit, hw, hpre, hpost⟩

/-- Claim C19 as stated fails at two requests that are valid in every other
respect.  The first offers the subprotocols `chat, superchat` to a listener
configured with `chat`: the token `chat` of the offer is a token of the
listener's string, and `ws_handler` answers 400, because it looks for the whole
header value and does not split it.  The second offers `superchat` to a
listener configured with `chat,superchat`: the offer is a token of the
listener's string, and `ws_handler` answers 400, because `ws_contains_word`
does not find a word that follows a comma directly. -/
theorem ws_handler_subprotocol_counterexample :
    ((ws_ex_req_proto (ws_str ("chat, superchat"))).version = ws_str ("HTTP/1.1") ∧
      (ws_ex_req_proto (ws_str ("chat, superchat"))).method = ws_str ("GET") ∧
      ws_handler_has_body (ws_ex_req_proto (ws_str ("chat, superchat"))) = false ∧
      ws_handler_headers_missing (ws_ex_req_proto (ws_str ("chat, superchat"))) = false ∧
      (ws_ex_req_proto (ws_str ("chat, superchat"))).header ("Sec-WebSocket-Key") =
        some (ws_str ("dGhlIHNhbXBsZSBub25jZQ==")) ∧
      (ws_make_accept (ws_str ("dGhlIHNhbXBsZSBub25jZQ=="))).1 = 0 ∧
      ws_ex_lst_chat.proto = some (ws_str ("chat")) ∧
      ws_ex_lst_chat.hookfn.isNone = true ∧
      (ws_ex_req_proto (ws_str ("chat, superchat"))).header ("Sec-WebSocket-Protocol") =
        some (ws_str ("chat, superchat")) ∧
      ws_words (ws_str ("chat, superchat")) = [ws_str ("chat"), ws_str ("superchat")] ∧
      ws_words (ws_str ("chat")) = [ws_str ("chat")] ∧
      ws_handler ws_ex_lst_chat (ws_ex_req_proto (ws_str ("chat, superchat"))) =
        ws_handler_result.err 400) ∧
    ((ws_ex_req_proto (ws_str ("superchat"))).version = ws_str ("HTTP/1.1") ∧
      (ws_ex_req_proto (ws_str ("superchat"))).method = ws_str ("GET") ∧
      ws_handler_has_body (ws_ex_req_proto (ws_str ("superchat"))) = false ∧
      ws_handler_headers_missing (ws_ex_req_proto (ws_str ("superchat"))) = false ∧
      (ws_ex_req_proto (ws_str ("superchat"))).header ("Sec-WebSocket-Key") =
        some (ws_str ("dGhlIHNhbXBsZSBub25jZQ==")) ∧
      (ws_ex_req_proto (ws_str ("superchat"))).header ("Sec-WebSocket-Protocol") =
        some (ws_str ("superchat")) ∧
      ws_words (ws_str ("superchat")) = [ws_str ("superchat")] ∧
      ws_words (ws_str ("chat,superchat")) = [ws_str ("chat"), ws_str ("superchat")] ∧
      ws_handler { ws_ex_lst with proto := some (ws_str ("chat,superchat")) }
          (ws_ex_req_proto (ws_str ("superchat"))) =
        ws_handler_result.err 400) := by
  refine ⟨⟨rfl, rfl, by decide, by decide, rfl, by decide, rfl, rfl, rfl, by decide, by decide,
    rfl⟩, ⟨rfl, rfl, by decide, by decide, rfl, rfl, by decide, by decide, rfl⟩⟩

/-- Claim C19 (server subprotocol negotiation), amended.  For every request
that passes the checks before the subprotocol check (version, method, body,
`Upgrade`, `Connection`, `Sec-WebSocket-Version`, key), with no hook installed.
On a listener configured with the subprotocol string `P`, a request without
`Sec-WebSocket-Protocol` is answered 400.  Let the request have the header with
the value `v`, let `P` and `v` be C strings (no NUL among their characters) and
let no comma of `P` be directly followed by a word.  If `v` is one token (not
empty, without comma or space), the request is accepted exactly when `v` is,
ignoring ASCII case, one of the tokens of `P` split at commas and spaces.  In
general the value is not split: if `v` starts with a character other than a
comma or a space, the request is accepted exactly when the whole of `v` occurs
in `P`, ignoring ASCII case, bounded on each side by a comma, a space or an end
of `P`.  An accepted request is answered 101 with `Sec-WebSocket-Protocol: v`,
every other one 400.  On a listener without subprotocol the request is accepted
when it has no `Sec-WebSocket-Protocol` header (the response has none either)
and answered 400 when it has one. -/
theorem ws_handler_subprotocol (l : nni_ws_listener) (req : nni_http_req)
    (hv : req.version = ws_str ("HTTP/1.1")) (hm : req.method = ws_str ("GET"))
    (hb : ws_handler_has_body req = false) (hh : ws_handler_headers_missing req = false)
    (k : List Nat) (hk : req.header ("Sec-WebSocket-Key") = some k)
    (h0 : (ws_make_accept k).1 = 0) (hhook : l.hookfn = none) :
    (∀ P, l.proto = some P →
      (req.header ("Sec-WebSocket-Protocol") = none →
        ws_handler l req = ws_handler_result.err 400) ∧
      (∀ v, req.header ("Sec-WebSocket-Protocol") = some v →
        (∀ c ∈ P, c ≠ 0) → (∀ c ∈ v, c ≠ 0) → ws_commas_spaced P = true →
        ((v ≠ [] ∧ ∀ c ∈ v, c ≠ 32 ∧ c ≠ 44) →
          (ws_contains_word_spec P v = true →
            ws_handler l req =
              ws_handler_result.upgrade
                { l with reply := l.reply ++ [ws_init NNI_EP_MODE_LISTEN] }
                (ws_init NNI_EP_MODE_LISTEN)
                { status := 101, reason := "Switching Protocols",
                  headers :=
                    [("Connection", ws_str ("Upgrade")), ("Upgrade", ws_str ("websocket")),
                     ("Sec-WebSocket-Accept", (ws_make_accept k).2),
                     ("Sec-WebSocket-Protocol", v)] }) ∧
          (ws_contains_word_spec P v = false →
            ws_handler l req = ws_handler_result.err 400)) ∧
        ((∃ y t, v = y :: t ∧ y ≠ 32 ∧ y ≠ 44) →
          (ws_word_bounded P v →
            ws_handler l req =
              ws_handler_result.upgrade
                { l with reply := l.reply ++ [ws_init NNI_EP_MODE_LISTEN] }
                (ws_init NNI_EP_MODE_LISTEN)
                { status := 101, reason := "Switching Protocols",
                  headers :=
                    [("Connection", ws_str ("Upgrade")), ("Upgrade", ws_str ("websocket")),
                     ("Sec-WebSocket-Accept", (ws_make_accept k).2),
                     ("Sec-WebSocket-Protocol", v)] }) ∧
          (¬ ws_word_bounded P v → ws_handler l req = ws_handler_result.err 400)))) ∧
    (l.proto = none →
      (req.header ("Sec-WebSocket-Protocol") = none →
        ws_handler l req =
          ws_handler_result.upgrade
            { l with reply := l.reply ++ [ws_init NNI_EP_MODE_LISTEN] }
            (ws_init NNI_EP_MODE_LISTEN)
            { status := 101, reason := "Switching Protocols",
              headers :=
                [("Connection", ws_str ("Upgrade")), ("Upgrade", ws_str ("websocket")),
                 ("Sec-WebSocket-Accept", (ws_make_accept k).2)] }) ∧
      (∀ v, req.header ("Sec-WebSocket-Protocol") = some v →
        ws_handler l req = ws_handler_result.err 400)) := by
  have hacc : ∀ P v, l.proto = some P → req.header ("Sec-WebSocket-Protocol") = some v →
      ws_contains_word (some P) v = true →
      ws_handler l req =
        ws_handler_result.upgrade
          { l with reply := l.reply ++ [ws_init NNI_EP_MODE_LISTEN] }
          (ws_init NNI_EP_MODE_LISTEN)
          { status := 101, reason := "Switching Protocols",
            headers :=
              [("Connection", ws_str ("Upgrade")), ("Upgrade", ws_str ("websocket")),
               ("Sec-WebSocket-Accept", (ws_make_accept k).2),
               ("Sec-WebSocket-Protocol", v)] } := by
    intro P v hP hpv hw
    rw [ws_handler_passed l req hv hm hb hh k hk h0
      (by rw [hpv]; simp [ws_handler_proto_mismatch, hP, hw]) hhook, hpv, ws_handler_res_eq]
    rfl
  have hrej : ∀ P v, l.proto = some P → req.header ("Sec-WebSocket-Protocol") = some v →
      ws_contains_word (some P) v = false →
      ws_handler l req = ws_handler_result.err 400 := by
    intro P v hP hpv hw
    apply ws_handler_proto_err l req hv hm hb hh k hk h0
    rw [hpv]; simp [ws_handler_proto_mismatch, hP, hw]
  have hgen : ∀ P v, l.proto = some P → req.header ("Sec-WebSocket-Protocol") = some v →
      (∀ c ∈ P, c ≠ 0) → (∀ c ∈ v, c ≠ 0) → ws_commas_spaced P = true →
      (∃ y t, v = y :: t ∧ y ≠ 32 ∧ y ≠ 44) →
      (ws_word_bounded P v →
        ws_handler l req =
          ws_handler_result.upgrade
            { l with reply := l.reply ++ [ws_init NNI_EP_MODE_LISTEN] }
            (ws_init NNI_EP_MODE_LISTEN)
            { status := 101, reason := "Switching Protocols",
              headers :=
                [("Connection", ws_str ("Upgrade")), ("Upgrade", ws_str ("websocket")),
                 ("Sec-WebSocket-Accept", (ws_make_accept k).2),
                 ("Sec-WebSocket-Protocol", v)] }) ∧
      (¬ ws_word_bounded P v → ws_handler l req = ws_handler_result.err 400) := by
    intro P v hP hpv hP0 hv0 hsp hx
    refine ⟨fun hbd => hacc P v hP hpv (ws_contains_word_complete P v hsp hx hbd), ?_⟩
    intro hnb
    apply hrej P v hP hpv
    cases hcw : ws_contains_word (some P) v with
    | false => rfl
    | true => exact absurd (ws_contains_word_sound P v hP0 hv0 hcw) hnb
  refine ⟨?_, ?_⟩
  · intro P hP
    refine ⟨?_, ?_⟩
    · intro hpv
      apply ws_handler_proto_err l req hv hm hb hh k hk h0
      rw [hpv]; simp [ws_handler_proto_mismatch, hP]
    · intro v hpv hP0 hv0 hsp
      refine ⟨?_, hgen P v hP hpv hP0 hv0 hsp⟩
      rintro ⟨hne, hsep⟩
      have hx : ∃ y t, v = y :: t ∧ y ≠ 32 ∧ y ≠ 44 := by
        cases hvv : v with
        | nil => exact absurd hvv hne
        | cons y t =>
          refine ⟨y, t, rfl, ?_⟩
          exact hsep y (by rw [hvv]; simp)
      have hg := hgen P v hP hpv hP0 hv0 hsp hx
      have hiff := ws_word_bounded_iff_spec P v hne hsep
      refine ⟨fun hs => hg.1 (hiff.mpr hs), fun hs => hg.2 ?_⟩
      intro hbd
      rw [hiff.mp hbd] at hs
      exact absurd hs (by decide)
  · intro hP
    refine ⟨?_, ?_⟩
    · intro hpv
      rw [ws_handler_passed l req hv hm hb hh k hk h0
        (by rw [hpv]; simp [ws_handler_proto_mismatch, hP]) hhook, hpv, ws_handler_res_eq]
      rfl
    · intro v hpv
      apply ws_handler_proto_err l req hv hm hb hh k hk h0
      rw [hpv]; simp [ws_handler_proto_mismatch, hP]

theorem ws_handler_subprotocol_witness :
    ws_handler ws_ex_lst_chat (ws_ex_req_proto (ws_str ("Chat"))) =
      ws_handler_result.upgrade
        { ws_ex_lst_chat with reply := [ws_init NNI_EP_MODE_LISTEN] }
        (ws_init NNI_EP_MODE_LISTEN)
        { status := 101, reason := "Switching Protocols",
          headers :=
            [("Connection", ws_str ("Upgrade")), ("Upgrade", ws_str ("websocket")),
             ("Sec-WebSocket-Accept", ws_str ("BXhwxM0SZasKmCD9S4BfpPmCnEw=")),
             ("Sec-WebSocket-Protocol", ws_str ("Chat"))] } :=
  ((((ws_handler_subprotocol ws_ex_lst_chat (ws_ex_req_proto (ws_str ("Chat"))) rfl rfl
    (by decide) (by decide) (ws_str ("dGhlIHNhbXBsZSBub25jZQ==")) rfl (by decide) rfl).1
    (ws_str ("chat")) rfl).2 (ws_str ("Chat")) rfl (by decide) (by decide) (by decide)).1
    ⟨by decide, by decide⟩).1 (by decide)
